import Mathlib

/-!
rag-test: the answer pipeline of `internal/service/rag`

A shallow embedding of the Go package `internal/service/rag` (with the two
repository wrappers it calls, `internal/repository/openai` and
`internal/repository/embeddings`) and theorems about it.

Conventions of the embedding.

* A Go `string` is a Lean `String`: a sequence of Unicode code points, i.e. the
  Go string is taken to be valid UTF-8. Indices count code points; the only
  indices the package computes are those of the ASCII bytes `{` and `}`, so a
  slice between them is the same substring as the byte slice of the source.
* A Go slice is a `List`; `nil` and the empty slice are both `[]`
  (the package only ever looks at `len`).
* A Go `error` is a `GoError`; a function returning `(T, error)` returns
  `Except GoError T`.
* `float32` values are carried as their bit pattern; no arithmetic is done on them.
* `context.Context` and `log/slog` calls are not represented: logging has no
  effect on results, and a cancelled context shows up as a collaborator error.
* The libraries outside the repository (the go-openai client, the langchaingo
  embedding client, the `VectorRepository` implementation, `encoding/json`)
  are parameters: state-passing oracles for the clients, a function
  `unmarshal` for `json.Unmarshal` into a fresh target of a given struct type.
-/

namespace Rag

/-! ## Go runtime: strings and errors -/

/-- A Go `error` value, identified by its message. -/
structure GoError where
  msg : String
deriving DecidableEq, Repr

deriving instance DecidableEq for Except

/-- Go `errors.New`. -/
def errorsNew (msg : String) : GoError := ⟨msg⟩

/-- A `float32`, carried as its IEEE-754 bit pattern. -/
abbrev float32 := Nat

/-- Go `unicode.IsSpace`: the Latin-1 spaces `\t \n \v \f \r`, space, U+0085,
U+00A0, and the code points with the Unicode White_Space property above Latin-1. -/
def isSpace (c : Char) : Bool :=
  let n := c.toNat
  n == 0x09 || n == 0x0A || n == 0x0B || n == 0x0C || n == 0x0D || n == 0x20 ||
  n == 0x85 || n == 0xA0 || n == 0x1680 || (0x2000 ≤ n && n ≤ 0x200A) ||
  n == 0x2028 || n == 0x2029 || n == 0x202F || n == 0x205F || n == 0x3000

/-- Leading white space removed. -/
def trimLeft (l : List Char) : List Char := l.dropWhile isSpace

/-- Trailing white space removed. -/
def trimRight (l : List Char) : List Char := (l.reverse.dropWhile isSpace).reverse

/-- Go `strings.TrimSpace`: all leading and trailing white space removed. -/
def TrimSpace (s : String) : String := ⟨trimRight (trimLeft s.data)⟩

/-- Position of the first occurrence of `c` in `l`, if any. -/
def indexOfChar (c : Char) : List Char → Option Nat
  | [] => none
  | x :: xs => if x = c then some 0 else (indexOfChar c xs).map (· + 1)

/-- Position of the last occurrence of `c` in `l`, if any. -/
def lastIndexOfChar (c : Char) : List Char → Option Nat
  | [] => none
  | x :: xs =>
    match lastIndexOfChar c xs with
    | some i => some (i + 1)
    | none => if x = c then some 0 else none

/-- Go `strings.Index(s, sep)` for a one-character separator: the index of the
first occurrence, or `-1`. -/
def Index (s : String) (c : Char) : Int :=
  match indexOfChar c s.data with
  | some i => (i : Int)
  | none => -1

/-- Go `strings.LastIndex(s, sep)` for a one-character separator: the index of
the last occurrence, or `-1`. -/
def LastIndex (s : String) (c : Char) : Int :=
  match lastIndexOfChar c s.data with
  | some i => (i : Int)
  | none => -1

/-- Go slice expression `s[lo:hi]` (for `0 ≤ lo ≤ hi ≤ len s`). -/
def slice (s : String) (lo hi : Int) : String :=
  ⟨(s.data.drop lo.toNat).take (hi.toNat - lo.toNat)⟩

/-- The first occurrence of `c` in `l` is at position `i`. -/
def IsFirstAt (c : Char) (l : List Char) (i : Nat) : Prop :=
  l[i]? = some c ∧ ∀ k, k < i → l[k]? ≠ some c

/-- The last occurrence of `c` in `l` is at position `j`. -/
def IsLastAt (c : Char) (l : List Char) (j : Nat) : Prop :=
  l[j]? = some c ∧ ∀ k, j < k → l[k]? ≠ some c

/-- The substring of `s` from position `i` to position `j`, both included. -/
def substringIncl (s : String) (i j : Nat) : String :=
  ⟨(s.data.take (j + 1)).drop i⟩

/-! ## config.go -/

def defaultTopK : Int := 6
def analysisMaxTokens : Int := 300
def rewriteMaxTokens : Int := 200
def answerMaxTokens : Int := 800
def validationMaxTokens : Int := 300

/-- The sentinel "don't know" answer. -/
def unknownAnswer : String := "Не знаю на основе предоставленных источников."

/-! ## parsing.go -/

/-- The function `decodeJSON(raw, target)`. The parameter `unmarshal` is `json.Unmarshal`
into a fresh target of type `α`: `.ok v` is a `nil` error with the target set to
`v`. (A call of `json.Unmarshal` that returns an error may have written part of
the target; every caller of `decodeJSON` discards the target on error, and when
the first call fails and the second succeeds on a substring the first call has
written nothing, since the whole text then was not one JSON object.) -/
def decodeJSON {α : Type} (unmarshal : String → Except GoError α) (raw : String) :
    Except GoError α :=
  let trimmed := TrimSpace raw
  match unmarshal trimmed with
  | .ok v => .ok v
  | .error err =>
    let start := Index trimmed '{'
    let «end» := LastIndex trimmed '}'
    if start == -1 || «end» == -1 || «end» ≤ start then
      .error err
    else
      unmarshal (slice trimmed start («end» + 1))

/-! ## models.go -/

structure Chunk where
  ID : String
  DataSource : String
  Text : String
deriving DecidableEq, Repr

structure Citation where
  ID : String
  Quote : String
  DataSource : String
deriving DecidableEq, Repr

structure ValidationResult where
  OK : Bool
  UnsupportedClaims : List String
  Notes : String
deriving DecidableEq, Repr

/-! ## steps.go: results and normalisation -/

structure answerResult where
  Text : String
  CitationsUsed : List String
  Citations : List Citation
deriving DecidableEq, Repr

structure validationPayload where
  OK : Bool
  UnsupportedClaims : List String
  Notes : String
deriving DecidableEq, Repr

/-- The function `normalizeAnswer(parsed)`. -/
def normalizeAnswer (parsed : answerResult) : answerResult :=
  let parsed := { parsed with Text := TrimSpace parsed.Text }
  if parsed.Text == "" then
    { Text := unknownAnswer, CitationsUsed := [], Citations := [] }
  else if parsed.Text == unknownAnswer then
    { parsed with CitationsUsed := [], Citations := [] }
  else if parsed.CitationsUsed.length == 0 || parsed.Citations.length == 0 then
    { Text := unknownAnswer, CitationsUsed := [], Citations := [] }
  else
    parsed

/-- The function `parseAnswer(content, …)`; its other arguments are only logged. -/
def parseAnswer (unmarshal : String → Except GoError answerResult) (content : String) :
    Except GoError answerResult :=
  match decodeJSON unmarshal content with
  | .error err => .error err
  | .ok parsed => .ok (normalizeAnswer parsed)

/-! ## A reference reader for `encoding/json`

`json.Unmarshal` is outside the repository and enters every definition below as
a parameter. To evaluate the package on concrete texts, this section gives a
reader for the JSON grammar of RFC 8259 and the decoding of a JSON value into
the three struct types that occur (`answerResult`, `validationPayload`, and a
one-field probe struct), following the rules of `encoding/json`: a key selects
the field whose tag it equals, ignoring ASCII case; unknown keys are skipped;
`null` leaves a field at its zero value; a value of the wrong kind is an error;
of repeated keys the last one wins. The tags of `answerResult` and
`validationPayload` are those of steps.go.

The reader is used only to evaluate the concrete replies of this file, whose
keys are plain ASCII and occur once each and whose strings hold no escape of a
surrogate; there it agrees with `encoding/json`. Outside this range it is not
`encoding/json`, which folds the case of keys by Unicode simple folding, decodes
a repeated key into the value already set, and combines an escaped surrogate
pair into one character (a lone surrogate becomes U+FFFD). No general theorem
depends on the reader: they hold for every `json.Unmarshal`. -/

/-- A JSON value; a number keeps its literal text. -/
inductive JSON where
  | null
  | bool (b : Bool)
  | num (lit : String)
  | str (s : String)
  | arr (xs : List JSON)
  | obj (kvs : List (String × JSON))

/-- JSON insignificant white space: space, `\t`, `\n`, `\r`. -/
def jsonWS (c : Char) : Bool := c == ' ' || c == '\t' || c == '\n' || c == '\r'

def skipWS (cs : List Char) : List Char := cs.dropWhile jsonWS

def hexVal (c : Char) : Option Nat :=
  if '0' ≤ c ∧ c ≤ '9' then some (c.toNat - '0'.toNat)
  else if 'a' ≤ c ∧ c ≤ 'f' then some (c.toNat - 'a'.toNat + 10)
  else if 'A' ≤ c ∧ c ≤ 'F' then some (c.toNat - 'A'.toNat + 10)
  else none

/-- The character a one-letter escape stands for. -/
def unescape (c : Char) : Option Char :=
  if c = '"' then some '"' else if c = '\\' then some '\\' else if c = '/' then some '/'
  else if c = 'b' then some (Char.ofNat 8) else if c = 'f' then some (Char.ofNat 12)
  else if c = 'n' then some '\n' else if c = 'r' then some '\r' else if c = 't' then some '\t'
  else none

/-- The rest of a string literal after its opening quote: the decoded string and
what follows the closing quote. An escape of four hex digits is read as that one
code point; surrogate pairs are not combined (no reply evaluated here has one). -/
def readString : List Char → List Char → Option (String × List Char)
  | [], _ => none
  | c :: r, acc =>
    if c = '"' then some (⟨acc.reverse⟩, r)
    else if c = '\\' then
      match r with
      | 'u' :: a :: b :: x :: y :: r' =>
        match hexVal a, hexVal b, hexVal x, hexVal y with
        | some a, some b, some x, some y =>
          readString r' (Char.ofNat (((a * 16 + b) * 16 + x) * 16 + y) :: acc)
        | _, _, _, _ => none
      | e :: r' =>
        match unescape e with
        | some x => readString r' (x :: acc)
        | none => none
      | [] => none
    else if c.toNat < 0x20 then none
    else readString r (c :: acc)

def readDigits (cs : List Char) : List Char × List Char :=
  (cs.takeWhile Char.isDigit, cs.dropWhile Char.isDigit)

/-- A number literal `-? int frac? exp?` at the head of `cs`. -/
def readNumber (cs : List Char) : Option (String × List Char) :=
  let (sign, cs1) := match cs with
    | '-' :: r => (['-'], r)
    | _ => ([], cs)
  let (ds, cs2) := readDigits cs1
  if ds = [] ∨ (ds.length > 1 ∧ ds.head? = some '0') then none
  else
    let fracPart : Option (List Char × List Char) := match cs2 with
      | '.' :: r =>
        let (fs, r') := readDigits r
        if fs = [] then none else some ('.' :: fs, r')
      | _ => some ([], cs2)
    match fracPart with
    | none => none
    | some (frac, cs3) =>
      let expPart : Option (List Char × List Char) := match cs3 with
        | e :: r =>
          if e = 'e' ∨ e = 'E' then
            let (sg, r1) := match r with
              | '+' :: t => (['+'], t)
              | '-' :: t => (['-'], t)
              | _ => ([], r)
            let (es, r2) := readDigits r1
            if es = [] then none else some (e :: sg ++ es, r2)
          else some ([], cs3)
        | [] => some ([], cs3)
      match expPart with
      | none => none
      | some (ex, cs4) => some (⟨sign ++ ds ++ frac ++ ex⟩, cs4)

mutual
/-- One JSON value at the head of `cs` (after white space), and the rest. -/
def readValue : Nat → List Char → Option (JSON × List Char)
  | 0, _ => none
  | fuel + 1, cs =>
    match skipWS cs with
    | [] => none
    | c :: r =>
      if c = '{' then
        match skipWS r with
        | '}' :: r' => some (.obj [], r')
        | r' => readMembers fuel r' []
      else if c = '[' then
        match skipWS r with
        | ']' :: r' => some (.arr [], r')
        | r' => readElements fuel r' []
      else if c = '"' then
        match readString r [] with
        | some (s, r') => some (.str s, r')
        | none => none
      else match c :: r with
        | 't' :: 'r' :: 'u' :: 'e' :: r' => some (.bool true, r')
        | 'f' :: 'a' :: 'l' :: 's' :: 'e' :: r' => some (.bool false, r')
        | 'n' :: 'u' :: 'l' :: 'l' :: r' => some (.null, r')
        | cs' =>
          match readNumber cs' with
          | some (n, r') => some (.num n, r')
          | none => none
/-- The elements of an array after `[`, up to and including `]`. -/
def readElements : Nat → List Char → List JSON → Option (JSON × List Char)
  | 0, _, _ => none
  | fuel + 1, cs, acc =>
    match readValue fuel cs with
    | none => none
    | some (v, r) =>
      match skipWS r with
      | ',' :: r' => readElements fuel r' (v :: acc)
      | ']' :: r' => some (.arr (v :: acc).reverse, r')
      | _ => none
/-- The members of an object after `{`, up to and including `}`. -/
def readMembers : Nat → List Char → List (String × JSON) → Option (JSON × List Char)
  | 0, _, _ => none
  | fuel + 1, cs, acc =>
    match skipWS cs with
    | '"' :: r =>
      match readString r [] with
      | none => none
      | some (k, r1) =>
        match skipWS r1 with
        | ':' :: r2 =>
          match readValue fuel r2 with
          | none => none
          | some (v, r3) =>
            match skipWS r3 with
            | ',' :: r4 => readMembers fuel r4 ((k, v) :: acc)
            | '}' :: r4 => some (.obj ((k, v) :: acc).reverse, r4)
            | _ => none
        | _ => none
    | _ => none
end

/-- A whole text as one JSON value; the fuel `length + 1` suffices since every
recursive call consumes a character. -/
def readJSON (s : String) : Option JSON :=
  match readValue (s.data.length + 1) s.data with
  | some (v, r) => if skipWS r = [] then some v else none
  | none => none

def syntaxError : GoError := ⟨"json: syntax error"⟩
def typeError : GoError := ⟨"json: cannot unmarshal value into Go value"⟩

def asciiLower (s : String) : String := ⟨s.data.map Char.toLower⟩

/-- The value of the last member whose key matches `tag`, ignoring ASCII case
(`encoding/json` folds by Unicode simple folding and merges repeated keys; the
replies evaluated here have ASCII keys, each once). -/
def lookupField (tag : String) (kvs : List (String × JSON)) : Option JSON :=
  (kvs.reverse.find? (fun kv => asciiLower kv.1 == asciiLower tag)).map (·.2)

/-- The value of a decimal digit string. -/
def digitsValue (ds : List Char) : Nat :=
  ds.foldl (fun n d => 10 * n + (d.toNat - '0'.toNat)) 0

/-- Go `strconv.ParseInt(lit, 10, 64)` on a JSON number literal: an optional
minus sign and digits only, within the range of `int64`. -/
def intOfLiteral (lit : List Char) : Option Int :=
  let (neg, ds) := match lit with
    | '-' :: r => (true, r)
    | _ => (false, lit)
  if ds ≠ [] ∧ ds.all Char.isDigit then
    let n : Int := if neg then -(digitsValue ds : Int) else (digitsValue ds : Int)
    if -(2 : Int) ^ 63 ≤ n ∧ n < (2 : Int) ^ 63 then some n else none
  else none

def toStringField : Option JSON → Except GoError String
  | none => .ok ""
  | some .null => .ok ""
  | some (.str s) => .ok s
  | some _ => .error typeError

def toBoolField : Option JSON → Except GoError Bool
  | none => .ok false
  | some .null => .ok false
  | some (.bool b) => .ok b
  | some _ => .error typeError

def toIntField : Option JSON → Except GoError Int
  | none => .ok 0
  | some .null => .ok 0
  | some (.num lit) =>
    match intOfLiteral lit.data with
    | some n => .ok n
    | none => .error typeError
  | some _ => .error typeError

def toList {α : Type} (elem : Option JSON → Except GoError α) : Option JSON → Except GoError (List α)
  | none => .ok []
  | some .null => .ok []
  | some (.arr xs) => xs.mapM (fun x => elem (some x))
  | some _ => .error typeError

/-- Decoding into a `Citation`. The struct has no JSON tags, so its keys are the
field names `ID`, `Quote`, `DataSource` up to case; a key `data_source` matches
no field and is skipped. -/
def toCitation : Option JSON → Except GoError Citation
  | none => .ok ⟨"", "", ""⟩
  | some .null => .ok ⟨"", "", ""⟩
  | some (.obj kvs) =>
    match toStringField (lookupField "ID" kvs), toStringField (lookupField "Quote" kvs),
      toStringField (lookupField "DataSource" kvs) with
    | .ok i, .ok q, .ok d => .ok ⟨i, q, d⟩
    | _, _, _ => .error typeError
  | some _ => .error typeError

/-- Reference `json.Unmarshal` into a fresh `answerResult`. -/
def unmarshalAnswerResult (s : String) : Except GoError answerResult :=
  match readJSON s with
  | none => .error syntaxError
  | some .null => .ok ⟨"", [], []⟩
  | some (.obj kvs) =>
    match toStringField (lookupField "text" kvs),
      toList toStringField (lookupField "citations_used" kvs),
      toList toCitation (lookupField "citations" kvs) with
    | .ok t, .ok u, .ok c => .ok ⟨t, u, c⟩
    | _, _, _ => .error typeError
  | some _ => .error typeError

/-- Reference `json.Unmarshal` into a fresh `validationPayload`. -/
def unmarshalValidationPayload (s : String) : Except GoError validationPayload :=
  match readJSON s with
  | none => .error syntaxError
  | some .null => .ok ⟨false, [], ""⟩
  | some (.obj kvs) =>
    match toBoolField (lookupField "ok" kvs),
      toList toStringField (lookupField "unsupported_claims" kvs),
      toStringField (lookupField "notes" kvs) with
    | .ok o, .ok u, .ok n => .ok ⟨o, u, n⟩
    | _, _, _ => .error typeError
  | some _ => .error typeError

/-- A probe target `struct { A int }` with JSON key `a`. -/
structure probe where
  A : Int
deriving DecidableEq, Repr

/-- Reference `json.Unmarshal` into a fresh `probe`. -/
def unmarshalProbe (s : String) : Except GoError probe :=
  match readJSON s with
  | none => .error syntaxError
  | some .null => .ok ⟨0⟩
  | some (.obj kvs) =>
    match toIntField (lookupField "a" kvs) with
    | .ok a => .ok ⟨a⟩
    | .error e => .error e
  | some _ => .error typeError

/-! ## Reference `json.Marshal` of the feedback payload -/

def hexDigit (n : Nat) : Char :=
  if n < 10 then Char.ofNat ('0'.toNat + n) else Char.ofNat ('a'.toNat + (n - 10))

/-- The escape `\u00XX` of a code point below 256. -/
def escapeLow (c : Char) : List Char :=
  ['\\', 'u', '0', '0', hexDigit (c.toNat / 16), hexDigit (c.toNat % 16)]

/-- One character of a string as `json.Marshal` writes it (HTML escaping on). -/
def marshalChar (c : Char) : List Char :=
  if c = '"' then ['\\', '"'] else if c = '\\' then ['\\', '\\']
  else if c = '\n' then ['\\', 'n'] else if c = '\r' then ['\\', 'r']
  else if c = '\t' then ['\\', 't']
  else if c.toNat = 8 then ['\\', 'b'] else if c.toNat = 12 then ['\\', 'f']
  else if c.toNat < 0x20 ∨ c = '<' ∨ c = '>' ∨ c = '&' then escapeLow c
  else if c.toNat = 0x2028 then "\\u2028".data else if c.toNat = 0x2029 then "\\u2029".data
  else [c]

def marshalString (s : String) : String :=
  ⟨'"' :: (s.data.flatMap marshalChar) ++ ['"']⟩

/-- A `[]string` as `json.Marshal` writes it; the empty list stands for the
`nil` slice, which is what reaches the feedback payload, and is written `null`. -/
def marshalStrings (xs : List String) : String :=
  if xs.isEmpty then "null" else "[" ++ ",".intercalate (xs.map marshalString) ++ "]"

/-- Reference `json.Marshal` of `struct { Notes; UnsupportedClaims }` with the
keys `notes` and `unsupported_claims`; it never fails. -/
def marshalFeedback (notes : String) (claims : List String) : Except GoError String :=
  .ok ("\x7b\"notes\":" ++ marshalString notes ++ ",\"unsupported_claims\":" ++
    marshalStrings claims ++ "\x7d")

/-- The functions of `encoding/json` the package calls, one per target type. -/
structure JSONLib where
  unmarshalAnswer : String → Except GoError answerResult
  unmarshalValidation : String → Except GoError validationPayload
  marshalFeedback : String → List String → Except GoError String

/-- The reference instance of `JSONLib`. -/
def referenceJSON : JSONLib :=
  { unmarshalAnswer := unmarshalAnswerResult
    unmarshalValidation := unmarshalValidationPayload
    marshalFeedback := marshalFeedback }

/-! ## prompts.go -/

def answerSystemPrompt : String :=
  "Ты — RAG-ассистент. Отвечай ТОЛЬКО на основе предоставленных фрагментов.\n" ++
  "\tНе добавляй знания извне. Не делай догадок.\n" ++
  "\n" ++
  "\tОтвет должен быть ТОЛЬКО валидным JSON (без комментариев, без пояснений и без markdown),\n" ++
  "\tстрого по схеме:\n" ++
  "\x7b\n" ++
  "  \"text\": \"...\",\n" ++
  "  \"citations_used\": [\"C1\",\"C2\",...],\n" ++
  "  \"citations\": [\n" ++
  "    \x7b\n" ++
  "      \"id\": \"C1\",\n" ++
  "      \"data_source\": \"...\",\n" ++
  "      \"quote\": \"...\"\n" ++
  "    \x7d\n" ++
  "  ]\n" ++
  "\x7d\n" ++
  "\n" ++
  "Если в фрагментах нет ответа, то верни JSON по той же схеме, где:\n" ++
  "- \"text\": \"Не знаю на основе предоставленных источников.\"\n" ++
  "- \"citations_used\": []\n" ++
  "- \"citations\": []\n" ++
  "\n" ++
  "\tТребования к ответу:\n" ++
  "\t1) Дай краткий структурированный ответ.\n" ++
  "\t2) Для каждого ключевого утверждения укажи ссылку-метку вида [C1], [C2]...\n" ++
  "\t3) В конце выведи раздел \"Источники\" со списком C1..Cn, где для каждой метки:\n" ++
  "\t   - data_source\n" ++
  "\t   - цитируемый фрагмент (короткий текст из источника)"

def answerRewriteSystemPrompt : String :=
  "Ты — модуль исправления ответа. Исправь ответ, учитывая замечания валидатора.\n" ++
  "\tНе добавляй знания извне. Не делай догадок.\n" ++
  "\n" ++
  "\tОтвет должен быть ТОЛЬКО валидным JSON (без комментариев, без пояснений и без markdown),\n" ++
  "\tстрого по схеме:\n" ++
  "\t\x7b\n" ++
  "\t  \"text\": \"...\",\n" ++
  "\t  \"citations_used\": [\"C1\",\"C2\",...],\n" ++
  "\t  \"citations\": [\n" ++
  "\t    \x7b\n" ++
  "\t      \"id\": \"C1\",\n" ++
  "\t      \"data_source\": \"...\",\n" ++
  "\t      \"quote\": \"...\"\n" ++
  "\t    \x7d\n" ++
  "\t  ]\n" ++
  "\t\x7d\n" ++
  "\n" ++
  "\tЕсли после исправлений всё равно нет подтверждений в фрагментах, то верни JSON по той же схеме, где:\n" ++
  "\t- \"text\": \"Не знаю на основе предоставленных источников.\"\n" ++
  "\t- \"citations_used\": []\n" ++
  "\t- \"citations\": []"

def validationSystemPrompt : String :=
  "Ты — валидатор. Проверь, что утверждения в ответе подтверждаются указанными источниками, если есть обобщения - игнорируй такие утверждения и не валидируй их.\n" ++
  "Общие данные валидировать не валидируй, валидируй только то, что имеет четкую конкретику, четкое отношение к тому или иному объекту данных.\n" ++
  "Если есть утверждения без опоры — верни ok=false.\n" ++
  "Ответ должен быть ТОЛЬКО валидным JSON без комментариев, без пояснений и без markdown.\n" ++
  "Строго следуй схеме:\n" ++
  "\x7b\n" ++
  "  \"ok\": boolean,\n" ++
  "  \"unsupported_claims\": string[],\n" ++
  "  \"notes\": string\n" ++
  "\x7d"

/-- Go `buildAnswerUserPrompt`: the `fmt.Sprintf` of the template with its `%s` verbs filled in order. -/
def buildAnswerUserPrompt (question dialogContext chunks : String) : String :=
  "Вопрос: " ++
  question ++
  "\n" ++
  "Контекст диалога: " ++
  dialogContext ++
  "\n" ++
  "\n" ++
  "Фрагменты (каждый с id и метаданными):\n" ++
  chunks ++
  "\n" ++
  "\n" ++
  "Ответ верни в формате (строго, только JSON, без текста вокруг):\n" ++
  "\x7b\n" ++
  "  \"text\": \"...\",\n" ++
  "  \"citations_used\": [\"C1\",\"C2\",...],\n" ++
  "  \"citations\": [\n" ++
  "    \x7b\n" ++
  "      \"id\": \"C1\",\n" ++
  "      \"data_source\": \"...\",\n" ++
  "      \"quote\": \"...\"\n" ++
  "    \x7d\n" ++
  "  ]\n" ++
  "\x7d\n" ++
  "Если ты не можешь сослаться минимум на один фрагмент, который явно подтверждает ответ,\n" ++
  "то верни JSON по той же схеме, где:\n" ++
  "- \"text\": \"" ++
  unknownAnswer ++
  "\"\n" ++
  "- \"citations_used\": []\n" ++
  "- \"citations\": []"

/-- Go `buildAnswerRewriteUserPrompt`: the `fmt.Sprintf` of the template with its `%s` verbs filled in order. -/
def buildAnswerRewriteUserPrompt (question dialogContext chunks answerText validationFeedback : String) : String :=
  "Вопрос: " ++
  question ++
  "\n" ++
  "Контекст диалога: " ++
  dialogContext ++
  "\n" ++
  "\n" ++
  "Предыдущий ответ:\n" ++
  answerText ++
  "\n" ++
  "\n" ++
  "Замечания валидатора:\n" ++
  validationFeedback ++
  "\n" ++
  "\n" ++
  "Фрагменты (каждый с id и метаданными):\n" ++
  chunks ++
  "\n" ++
  "\n" ++
  "Ответ верни в формате (строго, только JSON, без текста вокруг):\n" ++
  "\x7b\n" ++
  "  \"text\": \"...\",\n" ++
  "  \"citations_used\": [\"C1\",\"C2\",...],\n" ++
  "  \"citations\": [\n" ++
  "    \x7b\n" ++
  "      \"id\": \"C1\",\n" ++
  "      \"data_source\": \"...\",\n" ++
  "      \"quote\": \"...\"\n" ++
  "    \x7d\n" ++
  "  ]\n" ++
  "\x7d\n" ++
  "\n" ++
  "Если не можешь сослаться минимум на один фрагмент, который явно подтверждает ответ,\n" ++
  "то верни JSON по той же схеме, где:\n" ++
  "- \"text\": \"" ++
  unknownAnswer ++
  "\"\n" ++
  "- \"citations_used\": []\n" ++
  "- \"citations\": []"

/-- Go `buildValidationUserPrompt`: the `fmt.Sprintf` of the template with its `%s` verbs filled in order. -/
def buildValidationUserPrompt (question answerText chunks : String) : String :=
  "Вопрос: " ++
  question ++
  "\n" ++
  "\n" ++
  "Ответ:\n" ++
  answerText ++
  "\n" ++
  "\n" ++
  "Источники с текстом:\n" ++
  chunks ++
  "\n" ++
  "\n" ++
  "JSON (строго, только JSON, без текста вокруг):\n" ++
  "\x7b\n" ++
  "  \"ok\": boolean,\n" ++
  "  \"unsupported_claims\": string[],\n" ++
  "  \"notes\": string\n" ++
  "\x7d"

/-! ## models.go, continued -/

structure DialogMessage where
  Role : String
  Content : String
deriving DecidableEq, Repr

structure Request where
  Question : String
  History : List DialogMessage
  DialogContext : String
  TopK : Int
deriving DecidableEq, Repr

structure Response where
  NeedClarification : Bool
  ClarifyingQuestion : String
  MissingSlots : List String
  Assumptions : List String
  SuggestedQueries : List String
  Answer : String
  CitationsUsed : List String
  Citations : List Citation
  Chunks : List Chunk
  Validation : ValidationResult
deriving DecidableEq, Repr

/-- The zero value `Response{}`. -/
def Response.zero : Response :=
  { NeedClarification := false, ClarifyingQuestion := "", MissingSlots := [],
    Assumptions := [], SuggestedQueries := [], Answer := "", CitationsUsed := [],
    Citations := [], Chunks := [], Validation := ⟨false, [], ""⟩ }

/-! ## repository/milvus/models.go -/

structure SearchHit where
  ID : Int
  Score : float32
  Payload : String
  DataSource : String
deriving DecidableEq, Repr

/-! ## helpers.go -/

/-- Go `strings.Join`. -/
def Join (elems : List String) (sep : String) : String := sep.intercalate elems

/-- The loop of `formatDialogContext`: one line per message with non-blank content. -/
def dialogLines : List DialogMessage → List String
  | [] => []
  | msg :: rest =>
    let content := TrimSpace msg.Content
    if content == "" then dialogLines rest
    else
      let role := TrimSpace msg.Role
      let role := if role == "" then "user" else role
      (role ++ ": " ++ content) :: dialogLines rest

def formatDialogContext (history : List DialogMessage) : String :=
  if history.length == 0 then ""
  else Join (dialogLines history) "\n"

def resolveDialogContext (req : Request) : String :=
  let context := TrimSpace req.DialogContext
  if context != "" then context
  else formatDialogContext req.History

def copyStrings (values : List String) : List String :=
  if values.length == 0 then [] else values

def copyChunks (values : List Chunk) : List Chunk :=
  if values.length == 0 then [] else values

def copyCitations (values : List Citation) : List Citation :=
  if values.length == 0 then [] else values

/-! ## chunks.go -/

/-- The loop of `buildChunks`, `i` being the index of the first hit of the list. -/
def buildChunksFrom (i : Nat) : List SearchHit → List Chunk
  | [] => []
  | hit :: rest =>
    { ID := "C" ++ Nat.repr (i + 1), DataSource := hit.DataSource, Text := hit.Payload } ::
      buildChunksFrom (i + 1) rest

def buildChunks (hits : List SearchHit) : List Chunk := buildChunksFrom 0 hits

/-- The four lines `formatChunks` appends for one chunk. -/
def chunkLines (chunk : Chunk) : List String :=
  ["[" ++ chunk.ID ++ "]", "data_source: " ++ chunk.DataSource, "text: " ++ chunk.Text, ""]

def formatChunks (chunks : List Chunk) : String :=
  if chunks.length == 0 then ""
  else TrimSpace (Join (chunks.flatMap chunkLines) "\n")

/-! ## repository/openai -/

def defaultModel : String := "gpt-5.2"

def RoleSystem : String := "system"
def RoleUser : String := "user"

structure Message where
  Role : String
  Content : String
  Name : String
  ToolCallID : String
deriving DecidableEq, Repr

def ResponseFormatTypeText : String := "text"
def ResponseFormatTypeJSONObject : String := "json_object"
def ResponseFormatTypeJSONSchema : String := "json_schema"

structure ResponseFormat where
  Type_ : String
deriving DecidableEq, Repr

structure ChatCompletionRequest where
  Messages : List Message
  Temperature : float32
  MaxTokens : Int
  TopP : float32
  ResponseFormat : Option ResponseFormat
deriving DecidableEq, Repr

structure Usage where
  PromptTokens : Int
  CompletionTokens : Int
  TotalTokens : Int
deriving DecidableEq, Repr

structure ChatCompletionResponse where
  Content : String
  Role : String
  FinishReason : String
  Usage : Usage
deriving DecidableEq, Repr

/-- The fields of go-openai's `ChatCompletionRequest` the repository sets. -/
structure ClientRequest where
  Model : String
  Messages : List Message
  Temperature : float32
  TopP : float32
  ResponseFormat : Option String
deriving DecidableEq, Repr

/-- One element of `Choices` in go-openai's `ChatCompletionResponse`. -/
structure ClientChoice where
  Role : String
  Content : String
  FinishReason : String
deriving DecidableEq, Repr

/-- The fields of go-openai's `ChatCompletionResponse` the repository reads. -/
structure ClientResponse where
  Choices : List ClientChoice
  Usage : Usage
deriving DecidableEq, Repr

/-! ## Collaborators and the record of their calls -/

/-- One call of an external collaborator with what it returned. -/
inductive Call where
  | embedding (texts : List String) (res : Except GoError (List (List float32)))
  | search (collection : String) (vector : List float32) (topK : Int)
      (res : Except GoError (List SearchHit))
  | chat (req : ClientRequest) (res : Except GoError ClientResponse)
deriving DecidableEq

/-- The external collaborators as state-passing oracles over a state `σ` of
their own: the langchaingo client behind `embeddings.Repository`, the
`VectorRepository` behind `Service.vectorRepo`, and the go-openai client behind
`openai.Repository`. Any behaviour, also one that depends on earlier calls, is
an instance. -/
structure Collaborators (σ : Type) where
  CreateEmbedding : List String → σ → Except GoError (List (List float32)) × σ
  Search : String → List float32 → Int → σ → Except GoError (List SearchHit) × σ
  CreateChatCompletion : ClientRequest → σ → Except GoError ClientResponse × σ

/-- The collaborators' state and the calls made so far, oldest first. -/
structure World (σ : Type) where
  st : σ
  log : List Call

def toOpenAIResponseFormat (format : Option ResponseFormat) : Except GoError (Option String) :=
  match format with
  | none => .ok none
  | some f =>
    if f.Type_ == ResponseFormatTypeJSONObject then .ok (some "json_object")
    else if f.Type_ == ResponseFormatTypeText then .ok (some "text")
    else if f.Type_ == ResponseFormatTypeJSONSchema then .ok (some "json_schema")
    else .error (errorsNew "openai: unsupported response format")

/-- The call `r.cli.CreateChatCompletion(ctx, openaiReq)` of the go-openai
client: the oracle is asked and the call is recorded with its result. -/
def clientCreateChatCompletion {σ : Type} (C : Collaborators σ) (openaiReq : ClientRequest)
    (w : World σ) : Except GoError ClientResponse × World σ :=
  let r := C.CreateChatCompletion openaiReq w.st
  (r.1, { st := r.2, log := w.log ++ [Call.chat openaiReq r.1] })

/-- The method `(*openai.Repository).CreateChatCompletion`, `model` being the
repository's model name. `MaxTokens` is not forwarded to the client. -/
def CreateChatCompletion {σ : Type} (C : Collaborators σ) (model : String)
    (req : ChatCompletionRequest) (w : World σ) :
    Except GoError ChatCompletionResponse × World σ :=
  if req.Messages.length == 0 then
    (.error (errorsNew "openai: messages is empty"), w)
  else
    let openaiReq : ClientRequest :=
      { Model := model, Messages := req.Messages, Temperature := req.Temperature,
        TopP := req.TopP, ResponseFormat := none }
    let withFormat : Except GoError ClientRequest :=
      match req.ResponseFormat with
      | none => .ok openaiReq
      | some f =>
        match toOpenAIResponseFormat (some f) with
        | .error err => .error err
        | .ok responseFormat => .ok { openaiReq with ResponseFormat := responseFormat }
    match withFormat with
    | .error err => (.error err, w)
    | .ok openaiReq =>
      match clientCreateChatCompletion C openaiReq w with
      | (.error err, w1) => (.error err, w1)
      | (.ok resp, w1) =>
        match resp.Choices with
        | [] => (.error (errorsNew "openai: empty response"), w1)
        | choice :: _ =>
          (.ok { Content := choice.Content, Role := choice.Role,
                 FinishReason := choice.FinishReason, Usage := resp.Usage }, w1)

/-! ## repository/embeddings -/

/-- The call `r.cli.CreateEmbedding(ctx, data)` of the langchaingo client: the
oracle is asked and the call is recorded with its result. -/
def clientCreateEmbedding {σ : Type} (C : Collaborators σ) (data : List String)
    (w : World σ) : Except GoError (List (List float32)) × World σ :=
  let r := C.CreateEmbedding data w.st
  (r.1, { st := r.2, log := w.log ++ [Call.embedding data r.1] })

/-- The method `(*embeddings.Repository).CreateEmbeddings`. -/
def CreateEmbeddings {σ : Type} (C : Collaborators σ) (data : List String) (w : World σ) :
    Except GoError (List (List float32)) × World σ :=
  match clientCreateEmbedding C data w with
  | (.error err, w1) => (.error err, w1)
  | (.ok embeddings, w1) => (.ok embeddings, w1)

/-- The call `s.vectorRepo.Search(ctx, collection, vector, topK)`: the oracle is
asked and the call is recorded with its result. -/
def vectorSearch {σ : Type} (C : Collaborators σ) (collection : String)
    (vector : List float32) (topK : Int) (w : World σ) :
    Except GoError (List SearchHit) × World σ :=
  let r := C.Search collection vector topK w.st
  (r.1, { st := r.2, log := w.log ++ [Call.search collection vector topK r.1] })

/-! ## service.go, chat.go, steps.go -/

structure Service where
  model : String
  collection : String
  defaultTopK : Int
deriving DecidableEq, Repr

/-- The constructor `NewService`; `model` is the model name of the
`openai.Repository` handed in. -/
def NewService (model collection : String) (topK : Int) : Service :=
  let topK := if topK ≤ 0 then defaultTopK else topK
  { model := model, collection := collection, defaultTopK := topK }

/-- Modelled from the spec: the package variable `jsonObjectResponseFormat`,
whose declaration is not among the sources; the spec has every stage call
request "a JSON-object response shape". -/
def jsonObjectResponseFormat : Option ResponseFormat :=
  some { Type_ := ResponseFormatTypeJSONObject }

/-- The method `Service.chat`; `stage` is only logged. -/
def Service.chat {σ : Type} (s : Service) (C : Collaborators σ)
    (systemPrompt userPrompt : String) (maxTokens : Int) (_stage : String)
    (responseFormat : Option ResponseFormat) (w : World σ) :
    Except GoError String × World σ :=
  match CreateChatCompletion C s.model
      { Messages := [⟨RoleSystem, systemPrompt, "", ""⟩, ⟨RoleUser, userPrompt, "", ""⟩],
        Temperature := 0, MaxTokens := maxTokens, TopP := 0,
        ResponseFormat := responseFormat } w with
  | (.error err, w1) => (.error err, w1)
  | (.ok resp, w1) => (.ok resp.Content, w1)

def buildValidationFeedback (J : JSONLib) (validation : ValidationResult) : String :=
  let notes := TrimSpace validation.Notes
  match J.marshalFeedback notes validation.UnsupportedClaims with
  | .error _ => if notes != "" then notes else "no feedback"
  | .ok data => data

def Service.fetchChunks {σ : Type} (s : Service) (C : Collaborators σ)
    (question : String) (topK : Int) (w : World σ) :
    Except GoError (List Chunk) × World σ :=
  let topK := if topK ≤ 0 then s.defaultTopK else topK
  match CreateEmbeddings C [question] w with
  | (.error err, w1) => (.error err, w1)
  | (.ok vectors, w1) =>
    match vectors with
    | [] => (.error (errorsNew "empty embeddings"), w1)
    | v0 :: _ =>
      match vectorSearch C s.collection v0 topK w1 with
      | (.error err, w2) => (.error err, w2)
      | (.ok hits, w2) => (.ok (buildChunks hits), w2)

def Service.generateAnswer {σ : Type} (s : Service) (C : Collaborators σ) (J : JSONLib)
    (question dialogContext chunks : String) (w : World σ) :
    Except GoError answerResult × World σ :=
  let userPrompt := buildAnswerUserPrompt question dialogContext chunks
  match s.chat C answerSystemPrompt userPrompt answerMaxTokens "answer"
      jsonObjectResponseFormat w with
  | (.error err, w1) => (.error err, w1)
  | (.ok content, w1) => (parseAnswer J.unmarshalAnswer content, w1)

def Service.rewriteAnswer {σ : Type} (s : Service) (C : Collaborators σ) (J : JSONLib)
    (question dialogContext chunks answerText : String) (validation : ValidationResult)
    (w : World σ) : Except GoError answerResult × World σ :=
  let feedback := buildValidationFeedback J validation
  let userPrompt := buildAnswerRewriteUserPrompt question dialogContext chunks answerText feedback
  match s.chat C answerRewriteSystemPrompt userPrompt answerMaxTokens "answer_rewrite"
      jsonObjectResponseFormat w with
  | (.error err, w1) => (.error err, w1)
  | (.ok content, w1) => (parseAnswer J.unmarshalAnswer content, w1)

def Service.validateAnswer {σ : Type} (s : Service) (C : Collaborators σ) (J : JSONLib)
    (question answerText chunks : String) (w : World σ) :
    Except GoError ValidationResult × World σ :=
  let trimmedAnswer := TrimSpace answerText
  if trimmedAnswer == "" then
    (.ok { OK := false, UnsupportedClaims := [], Notes := "empty answer text" }, w)
  else if trimmedAnswer == unknownAnswer then
    (.ok { OK := true, UnsupportedClaims := [],
           Notes := "validation skipped for unknown answer" }, w)
  else
    let userPrompt := buildValidationUserPrompt question answerText chunks
    match s.chat C validationSystemPrompt userPrompt validationMaxTokens "validation"
        jsonObjectResponseFormat w with
    | (.error err, w1) => (.error err, w1)
    | (.ok content, w1) =>
      let content := TrimSpace content
      if content == "" then
        (.ok { OK := false, UnsupportedClaims := [], Notes := "empty validator response" }, w1)
      else
        match decodeJSON J.unmarshalValidation content with
        | .error _ =>
          (.ok { OK := false, UnsupportedClaims := [],
                 Notes := "invalid validator response" }, w1)
        | .ok parsed =>
          (.ok { OK := parsed.OK, UnsupportedClaims := copyStrings parsed.UnsupportedClaims,
                 Notes := parsed.Notes }, w1)

/-- The method `Service.Answer`: `.ok response` is `(response, nil)` and
`.error err` is `(nil, err)`. -/
def Service.Answer {σ : Type} (s : Service) (C : Collaborators σ) (J : JSONLib)
    (req : Request) (w : World σ) : Except GoError Response × World σ :=
  let question := TrimSpace req.Question
  if question == "" then
    (.error (errorsNew "question is empty"), w)
  else
    let dialogContext := resolveDialogContext req
    match s.fetchChunks C question req.TopK w with
    | (.error err, w1) => (.error err, w1)
    | (.ok chunks, w1) =>
      let response := Response.zero
      let response := { response with Chunks := copyChunks chunks }
      let chunksText := formatChunks chunks
      match s.generateAnswer C J question dialogContext chunksText w1 with
      | (.error err, w2) => (.error err, w2)
      | (.ok answer, w2) =>
        let response := { response with
          Answer := TrimSpace answer.Text
          CitationsUsed := copyStrings answer.CitationsUsed
          Citations := copyCitations answer.Citations }
        match s.validateAnswer C J question response.Answer chunksText w2 with
        | (.error err, w3) => (.error err, w3)
        | (.ok validation, w3) =>
          let response := { response with Validation := validation }
          if !validation.OK then
            match s.rewriteAnswer C J question dialogContext chunksText response.Answer
                validation w3 with
            | (.error err, w4) => (.error err, w4)
            | (.ok rewritten, w4) =>
              (.ok { response with
                Answer := TrimSpace rewritten.Text
                CitationsUsed := copyStrings rewritten.CitationsUsed
                Citations := copyCitations rewritten.Citations }, w4)
          else
            (.ok response, w3)

/-! ## Scripted collaborators, for concrete runs -/

/-- Collaborators that play back a script: the embedding client always returns
`vectors`, the vector store always returns `hits`, and the chat client answers
its successive calls with the successive texts of the state, each as a
one-choice reply; it fails once the script is used up. -/
def scripted (vectors : List (List float32)) (hits : List SearchHit) :
    Collaborators (List String) :=
  { CreateEmbedding := fun _ st => (.ok vectors, st)
    Search := fun _ _ _ st => (.ok hits, st)
    CreateChatCompletion := fun _ st =>
      match st with
      | [] => (.error ⟨"script exhausted"⟩, [])
      | content :: rest =>
        (.ok { Choices := [{ Role := "assistant", Content := content, FinishReason := "stop" }],
               Usage := ⟨0, 0, 0⟩ }, rest) }

def demoService : Service := NewService defaultModel "docs" 0

def demoHits : List SearchHit :=
  [{ ID := 11, Score := 0, Payload := "X is Y", DataSource := "a.txt" },
   { ID := 12, Score := 0, Payload := "Z is W", DataSource := "b.txt" }]

def demoRequest : Request :=
  { Question := "What is X?", History := [], DialogContext := "", TopK := 0 }

/-- The chunks built from `demoHits`. -/
def demoChunks : List Chunk :=
  [{ ID := "C1", DataSource := "a.txt", Text := "X is Y" },
   { ID := "C2", DataSource := "b.txt", Text := "Z is W" }]

/-- A generation reply grounded in chunk `C1`. -/
def replyGrounded : String :=
  "\x7b\"text\":\"X is Y [C1]\",\"citations_used\":[\"C1\"]," ++
  "\"citations\":[\x7b\"id\":\"C1\",\"data_source\":\"a.txt\",\"quote\":\"X is Y\"\x7d]\x7d"

/-- A generation reply citing `C9`, which is no offered chunk. -/
def replyStray : String :=
  "\x7b\"text\":\"X is Q [C9]\",\"citations_used\":[\"C9\"]," ++
  "\"citations\":[\x7b\"id\":\"C9\",\"data_source\":\"z.txt\",\"quote\":\"X is Q\"\x7d]\x7d"

/-- A reply giving the sentinel answer while still listing a citation. -/
def replyUnknown : String :=
  "\x7b\"text\":\"Не знаю на основе предоставленных источников.\"," ++
  "\"citations_used\":[\"C1\"],\"citations\":[]\x7d"

def replyValid : String :=
  "\x7b\"ok\":true,\"unsupported_claims\":[],\"notes\":\"\"\x7d"

def replyInvalid : String :=
  "\x7b\"ok\":false,\"unsupported_claims\":[\"X is Y\"],\"notes\":\"unsupported\"\x7d"

/-- The run of `Answer` on `demoRequest` against a chat script. -/
def demoRun (script : List String) : Except GoError Response × World (List String) :=
  demoService.Answer (scripted [[0]] demoHits) referenceJSON demoRequest
    { st := script, log := [] }

/-- A `Response` over `demoChunks` with the dormant clarification fields at zero. -/
def demoResponse (answer : String) (used : List String) (citations : List Citation)
    (validation : ValidationResult) : Response :=
  { NeedClarification := false, ClarifyingQuestion := "", MissingSlots := [],
    Assumptions := [], SuggestedQueries := [], Answer := answer, CitationsUsed := used,
    Citations := citations, Chunks := demoChunks, Validation := validation }

/-- The property "every citation id of the response is the ID of one of its
chunks", for `Citations` and for `CitationsUsed`. -/
def CitationsReferenceChunks (resp : Response) : Prop :=
  (∀ c ∈ resp.Citations, ∃ k ∈ resp.Chunks, k.ID = c.ID) ∧
  (∀ i ∈ resp.CitationsUsed, ∃ k ∈ resp.Chunks, k.ID = i)

instance (resp : Response) : Decidable (CitationsReferenceChunks resp) := by
  unfold CitationsReferenceChunks
  infer_instance


/-! ## Stages of the chat calls in a log -/

/-- The kind of a chat request, named after the `stage` argument `Service.chat`
is given for it. -/
inductive Stage where
  | answer
  | validation
  | answerRewrite
  | other
deriving DecidableEq, Repr

/-- The stage a client request belongs to, read off its first message: each
stage sends its own system prompt. -/
def stageOfRequest (req : ClientRequest) : Stage :=
  match req.Messages with
  | [] => .other
  | m :: _ =>
    if m.Content = answerSystemPrompt then .answer
    else if m.Content = validationSystemPrompt then .validation
    else if m.Content = answerRewriteSystemPrompt then .answerRewrite
    else .other

/-- The stages of the chat calls of a log, in the order of the calls. -/
def chatStages : List Call → List Stage
  | [] => []
  | Call.chat req _ :: rest => stageOfRequest req :: chatStages rest
  | _ :: rest => chatStages rest

/-- The request `Service.chat` hands to the go-openai client for a system prompt
and a user prompt. -/
def chatRequest (s : Service) (systemPrompt userPrompt : String) : ClientRequest :=
  { Model := s.model
    Messages := [⟨RoleSystem, systemPrompt, "", ""⟩, ⟨RoleUser, userPrompt, "", ""⟩]
    Temperature := 0, TopP := 0, ResponseFormat := some "json_object" }

/-- The run of `Answer` on `req` from `w` got as far as the validation stage,
which returned `v` without error: `chunks` were fetched, `answer` was generated,
and `w3` is the world after validation. -/
def ValidationReturned {σ : Type} (s : Service) (C : Collaborators σ) (J : JSONLib)
    (req : Request) (w : World σ) (chunks : List Chunk) (answer : answerResult)
    (v : ValidationResult) (w3 : World σ) : Prop :=
  TrimSpace req.Question ≠ "" ∧
  ∃ w1 w2,
    s.fetchChunks C (TrimSpace req.Question) req.TopK w = (.ok chunks, w1) ∧
    s.generateAnswer C J (TrimSpace req.Question) (resolveDialogContext req)
      (formatChunks chunks) w1 = (.ok answer, w2) ∧
    s.validateAnswer C J (TrimSpace req.Question) (TrimSpace answer.Text)
      (formatChunks chunks) w2 = (.ok v, w3)

/-- The validation stage of the run of `Answer` on `demoRequest` against a chat
script whose first reply is `replyGrounded`: its result and the world after it. -/
def demoValidated (script : List String) :
    Except GoError ValidationResult × World (List String) :=
  let w1 := (demoService.fetchChunks (scripted [[0]] demoHits) "What is X?" 0
    { st := script, log := [] }).2
  let w2 := (demoService.generateAnswer (scripted [[0]] demoHits) referenceJSON "What is X?" ""
    (formatChunks demoChunks) w1).2
  demoService.validateAnswer (scripted [[0]] demoHits) referenceJSON "What is X?"
    "X is Y [C1]" (formatChunks demoChunks) w2

/-- A reply that is no JSON and has no braces. -/
def replyMalformed : String := "I do not know."

/-! ## internal/helpers/split_text.go -/

/-- Go `strings.Contains(s, substr)` on character lists: `substr` occurs in `s`
as a contiguous block; the empty string occurs in every string. -/
def containsChars : List Char → List Char → Bool
  | [], sub => sub.isEmpty
  | c :: cs, sub => sub.isPrefixOf (c :: cs) || containsChars cs sub

/-- Go `strings.Contains(s, substr)`. -/
def Contains (s substr : String) : Bool := containsChars s.data substr.data

/-- The function `removeUnusedChunks(split)` of internal/helpers/split_text.go:
while the list has at least two elements and its last element is contained in
the one before it, the last element is dropped. -/
def removeUnusedChunks (split : List String) : List String :=
  if split.length = 0 ∨ split.length = 1 then
    split
  else if Contains (split.getD (split.length - 2) "") (split.getD (split.length - 1) "") then
    removeUnusedChunks (split.take (split.length - 1))
  else
    split
termination_by split.length
decreasing_by
  simp only [List.length_take]
  omega

/-- A list of chunks at which `removeUnusedChunks` stops: it has at most one
element, or its last element is not a substring of its second-to-last one. -/
def Settled (l : List String) : Prop :=
  l.length ≤ 1 ∨ ∃ init a b, l = init ++ [a, b] ∧ Contains a b = false

/-! ## Renderings as the spec words them -/

/-- The line one history message contributes: its trimmed role, or `user` when
the role is blank, then a colon and a space, then its trimmed content. -/
def dialogLine (msg : DialogMessage) : String :=
  (if TrimSpace msg.Role = "" then "user" else TrimSpace msg.Role) ++ ": " ++
    TrimSpace msg.Content

/-- The three lines of one chunk: its id in brackets, its source, its text. -/
def renderChunk (chunk : Chunk) : String :=
  "[" ++ chunk.ID ++ "]\n" ++ "data_source: " ++ chunk.DataSource ++ "\n" ++
    "text: " ++ chunk.Text

/-! ## Failed collaborator calls -/

/-- The error the service got from a collaborator call, if it got one. For the
embedding call and the vector search it is the client's error. For a chat call
it is the error `(*openai.Repository).CreateChatCompletion` returns once it has
called the client: the client's error, or `openai: empty response` when the
client's reply has no choice. -/
def Call.failure : Call → Option GoError
  | .embedding _ (.error e) => some e
  | .search _ _ _ (.error e) => some e
  | .chat _ (.error e) => some e
  | .chat _ (.ok resp) =>
    match resp.Choices with
    | [] => some (errorsNew "openai: empty response")
    | _ :: _ => none
  | _ => none

/-- The errors returned by the calls of a log, in call order. -/
def failures (calls : List Call) : List GoError := calls.filterMap Call.failure

/-! ## The fallback answer a prompt spells out -/

/-- What follows the first occurrence of `marker` in a text, if it occurs. -/
def afterMarker (marker : List Char) : List Char → Option (List Char)
  | [] => none
  | c :: cs =>
    if marker.isPrefixOf (c :: cs) then some ((c :: cs).drop marker.length)
    else afterMarker marker cs

/-- The text a prompt gives for the fallback answer: what stands between the
first `- "text": "` and the next double quote. -/
def quotedFallback (prompt : String) : Option String :=
  (afterMarker "- \"text\": \"".data prompt.data).map
    (fun rest => ⟨rest.takeWhile (fun c => c != '"')⟩)

/-- The closing lines of the two answer user prompts, which name the fallback
answer. -/
def fallbackClause (answer : String) : String :=
  "- \"text\": \"" ++ answer ++ "\"\n- \"citations_used\": []\n- \"citations\": []"

/-- The calls `calls` and the result `r` agree on failure: no call failed, or
the one call that failed is the last call and `r` is its error. -/
def Propagated {α : Type} (calls : List Call) (r : Except GoError α) : Prop :=
  failures calls = [] ∨
  ∃ pre c e, calls = pre ++ [c] ∧ failures pre = [] ∧ c.failure = some e ∧ r = .error e

/-- The count `topK` handed to a vector search call. -/
def Call.searchTopK : Call → Option Int
  | .search _ _ topK _ => some topK
  | _ => none

/-- The counts `topK` handed to the vector search calls of a log, in call order. -/
def searchTopKs (calls : List Call) : List Int := calls.filterMap Call.searchTopK

/-! ## The two values `Answer` returns -/

/-- The method `Service.Answer` with its two Go results `(*Response, error)` kept
apart, return statement by return statement; `none` is `nil`. -/
def Service.AnswerValues {σ : Type} (s : Service) (C : Collaborators σ) (J : JSONLib)
    (req : Request) (w : World σ) : (Option Response × Option GoError) × World σ :=
  let question := TrimSpace req.Question
  if question == "" then
    ((none, some (errorsNew "question is empty")), w)
  else
    let dialogContext := resolveDialogContext req
    match s.fetchChunks C question req.TopK w with
    | (.error err, w1) => ((none, some err), w1)
    | (.ok chunks, w1) =>
      let response := Response.zero
      let response := { response with Chunks := copyChunks chunks }
      let chunksText := formatChunks chunks
      match s.generateAnswer C J question dialogContext chunksText w1 with
      | (.error err, w2) => ((none, some err), w2)
      | (.ok answer, w2) =>
        let response := { response with
          Answer := TrimSpace answer.Text
          CitationsUsed := copyStrings answer.CitationsUsed
          Citations := copyCitations answer.Citations }
        match s.validateAnswer C J question response.Answer chunksText w2 with
        | (.error err, w3) => ((none, some err), w3)
        | (.ok validation, w3) =>
          let response := { response with Validation := validation }
          if !validation.OK then
            match s.rewriteAnswer C J question dialogContext chunksText response.Answer
                validation w3 with
            | (.error err, w4) => ((none, some err), w4)
            | (.ok rewritten, w4) =>
              ((some { response with
                Answer := TrimSpace rewritten.Text
                CitationsUsed := copyStrings rewritten.CitationsUsed
                Citations := copyCitations rewritten.Citations }, none), w4)
          else
            ((some response, none), w3)

/-- The two Go results that stand for a result of the embedding of `Answer`. -/
def goValues (r : Except GoError Response) : Option Response × Option GoError :=
  match r with
  | .ok resp => (some resp, none)
  | .error err => (none, some err)

/-! ## Collaborators replaying client results -/

/-- Collaborators like `scripted`, but the chat client plays back whole results,
so that a reply without choices or an error can be scripted. -/
def replaying (vectors : List (List float32)) (hits : List SearchHit) :
    Collaborators (List (Except GoError ClientResponse)) :=
  { CreateEmbedding := fun _ st => (.ok vectors, st)
    Search := fun _ _ _ st => (.ok hits, st)
    CreateChatCompletion := fun _ st =>
      match st with
      | [] => (.error ⟨"script exhausted"⟩, [])
      | res :: rest => (res, rest) }

/-- The client reply with the one choice `content`. -/
def clientReply (content : String) : ClientResponse :=
  { Choices := [{ Role := "assistant", Content := content, FinishReason := "stop" }],
    Usage := ⟨0, 0, 0⟩ }

/-- A client reply without choices. -/
def clientReplyEmpty : ClientResponse := { Choices := [], Usage := ⟨0, 0, 0⟩ }

/-- The run of `Answer` on `demoRequest` against a script of client results. -/
def demoReplay (script : List (Except GoError ClientResponse)) :
    Except GoError Response × World (List (Except GoError ClientResponse)) :=
  demoService.Answer (replaying [[0]] demoHits) referenceJSON demoRequest
    { st := script, log := [] }

/-! ## Lemmas on trimming -/

theorem dropWhile_eq_self_of_head {p : Char → Bool} :
    ∀ (l : List Char), (∀ x, l.head? = some x → p x = false) → l.dropWhile p = l
  | [], _ => rfl
  | x :: xs, h => by
    have hx : p x = false := h x rfl
    simp [List.dropWhile_cons, hx]

theorem head?_dropWhile_false {p : Char → Bool} (l : List Char) (x : Char)
    (h : (l.dropWhile p).head? = some x) : p x = false := by
  induction l with
  | nil => simp at h
  | cons a as ih =>
    rw [List.dropWhile_cons] at h
    by_cases ha : p a = true
    · rw [if_pos ha] at h; exact ih h
    · rw [if_neg ha] at h
      simp at h
      subst h
      simpa using ha

theorem trimLeft_head (l : List Char) (x : Char) (h : (trimLeft l).head? = some x) :
    isSpace x = false :=
  head?_dropWhile_false l x h

theorem trimRight_getLast (l : List Char) (x : Char) (h : (trimRight l).getLast? = some x) :
    isSpace x = false := by
  unfold trimRight at h
  rw [List.getLast?_reverse] at h
  exact head?_dropWhile_false _ x h

theorem trimRight_initial (l : List Char) : trimRight l <+: l := by
  unfold trimRight
  have h := List.dropWhile_suffix isSpace (l := l.reverse)
  have h2 := List.reverse_prefix.mpr h
  simpa using h2

theorem trimLeft_eq_self (l : List Char) (h : ∀ x, l.head? = some x → isSpace x = false) :
    trimLeft l = l :=
  dropWhile_eq_self_of_head l h

theorem trimRight_eq_self (l : List Char) (h : ∀ x, l.getLast? = some x → isSpace x = false) :
    trimRight l = l := by
  unfold trimRight
  rw [dropWhile_eq_self_of_head, List.reverse_reverse]
  intro x hx
  rw [List.head?_reverse] at hx
  exact h x hx

theorem trimmed_head (l : List Char) (x : Char)
    (h : (trimRight (trimLeft l)).head? = some x) : isSpace x = false := by
  obtain ⟨t, ht⟩ := trimRight_initial (trimLeft l)
  cases hm : trimRight (trimLeft l) with
  | nil => rw [hm] at h; simp at h
  | cons a as =>
    rw [hm] at h ht
    simp at h
    subst h
    apply trimLeft_head l
    rw [← ht]; rfl

theorem TrimSpace_idem (s : String) : TrimSpace (TrimSpace s) = TrimSpace s := by
  unfold TrimSpace
  simp only
  congr 1
  rw [trimLeft_eq_self _ (trimmed_head s.data), trimRight_eq_self]
  exact trimRight_getLast _

theorem TrimSpace_unknownAnswer : TrimSpace unknownAnswer = unknownAnswer := by decide


/-! ## normalizeAnswer -/

/-- The two outcomes of `normalizeAnswer`: the bare sentinel, or the input with its text trimmed. -/
theorem normalizeAnswer_cases (p : answerResult) :
    normalizeAnswer p = ⟨unknownAnswer, [], []⟩ ∨
    (normalizeAnswer p = ⟨TrimSpace p.Text, p.CitationsUsed, p.Citations⟩ ∧
      TrimSpace p.Text ≠ "" ∧ TrimSpace p.Text ≠ unknownAnswer ∧
      p.CitationsUsed ≠ [] ∧ p.Citations ≠ []) := by
  unfold normalizeAnswer
  by_cases h1 : TrimSpace p.Text = ""
  · left; simp [h1]
  · by_cases h2 : TrimSpace p.Text = unknownAnswer
    · left; simp [h1, h2]
    · by_cases h3 : p.CitationsUsed = []
      · left; simp [h1, h2, h3]
      · by_cases h4 : p.Citations = []
        · left; simp [h1, h2, h4]
        · right; simp [h1, h2, h3, h4]

/-- C4. Rule 3 of `normalizeAnswer`: a parsed answer whose trimmed text is
neither empty nor the sentinel, and whose `CitationsUsed` or `Citations` is
empty, is replaced by the sentinel with both citation lists empty. -/
theorem normalizeAnswer_ungrounded (p : answerResult)
    (hne : TrimSpace p.Text ≠ "") (hns : TrimSpace p.Text ≠ unknownAnswer)
    (hc : p.CitationsUsed = [] ∨ p.Citations = []) :
    normalizeAnswer p = { Text := unknownAnswer, CitationsUsed := [], Citations := [] } := by
  unfold normalizeAnswer
  rcases hc with hc | hc <;> simp [hne, hns, hc]

theorem normalizeAnswer_ungrounded_witness :
    normalizeAnswer ⟨"real answer", [], [⟨"C1", "q", "d"⟩]⟩ = ⟨unknownAnswer, [], []⟩ ∧
    normalizeAnswer ⟨"real answer", ["C1"], []⟩ = ⟨unknownAnswer, [], []⟩ :=
  ⟨normalizeAnswer_ungrounded ⟨"real answer", [], [⟨"C1", "q", "d"⟩]⟩
      (by decide) (by decide) (Or.inl rfl),
   normalizeAnswer_ungrounded ⟨"real answer", ["C1"], []⟩ (by decide) (by decide) (Or.inr rfl)⟩

/-- C5. Rule 1 of `normalizeAnswer`: a parsed answer whose text is empty after
trimming white space becomes the sentinel with both citation lists empty,
whatever citations it carried. -/
theorem normalizeAnswer_blank (p : answerResult) (h : TrimSpace p.Text = "") :
    normalizeAnswer p = { Text := unknownAnswer, CitationsUsed := [], Citations := [] } := by
  unfold normalizeAnswer
  simp [h]

theorem normalizeAnswer_blank_witness :
    normalizeAnswer ⟨"", ["C1"], []⟩ = ⟨unknownAnswer, [], []⟩ ∧
    normalizeAnswer ⟨" \t\n", ["C1"], [⟨"C1", "q", "d"⟩]⟩ = ⟨unknownAnswer, [], []⟩ :=
  ⟨normalizeAnswer_blank ⟨"", ["C1"], []⟩ (by decide),
   normalizeAnswer_blank ⟨" \t\n", ["C1"], [⟨"C1", "q", "d"⟩]⟩ (by decide)⟩

/-- C6. Rule 2 of `normalizeAnswer`: a parsed answer whose text is the sentinel
keeps the sentinel as its text and loses whatever citations it carried. -/
theorem normalizeAnswer_sentinel (p : answerResult) (h : p.Text = unknownAnswer) :
    (normalizeAnswer p).Text = unknownAnswer ∧
    (normalizeAnswer p).CitationsUsed = [] ∧ (normalizeAnswer p).Citations = [] := by
  have ht : TrimSpace p.Text = unknownAnswer := by rw [h]; exact TrimSpace_unknownAnswer
  have hne : unknownAnswer ≠ "" := by decide
  unfold normalizeAnswer
  simp [ht, hne]

theorem normalizeAnswer_sentinel_witness :
    (normalizeAnswer ⟨unknownAnswer, ["C1"], [⟨"C1", "q", "d"⟩]⟩).Text = unknownAnswer ∧
    (normalizeAnswer ⟨unknownAnswer, ["C1"], [⟨"C1", "q", "d"⟩]⟩).CitationsUsed = [] ∧
    (normalizeAnswer ⟨unknownAnswer, ["C1"], [⟨"C1", "q", "d"⟩]⟩).Citations = [] :=
  normalizeAnswer_sentinel ⟨unknownAnswer, ["C1"], [⟨"C1", "q", "d"⟩]⟩ rfl

/-- C7. Rule 4 of `normalizeAnswer`: a parsed answer whose trimmed text is
neither empty nor the sentinel and whose two citation lists are both non-empty
is returned as it is, with the text trimmed. -/
theorem normalizeAnswer_grounded (p : answerResult)
    (hne : TrimSpace p.Text ≠ "") (hns : TrimSpace p.Text ≠ unknownAnswer)
    (hu : p.CitationsUsed ≠ []) (hc : p.Citations ≠ []) :
    normalizeAnswer p =
      { Text := TrimSpace p.Text, CitationsUsed := p.CitationsUsed, Citations := p.Citations } := by
  unfold normalizeAnswer
  simp [hne, hns, hu, hc]

theorem normalizeAnswer_grounded_witness :
    normalizeAnswer ⟨" X is Y [C1]\n", ["C1"], [⟨"C1", "q", "d"⟩]⟩ =
      ⟨"X is Y [C1]", ["C1"], [⟨"C1", "q", "d"⟩]⟩ :=
  normalizeAnswer_grounded ⟨" X is Y [C1]\n", ["C1"], [⟨"C1", "q", "d"⟩]⟩
    (by decide) (by decide) (by decide) (by decide)


/-! ## Index and LastIndex -/

theorem indexOfChar_eq_some_iff (c : Char) (l : List Char) (i : Nat) :
    indexOfChar c l = some i ↔ IsFirstAt c l i := by
  induction l generalizing i with
  | nil => simp [indexOfChar, IsFirstAt]
  | cons x xs ih =>
    unfold indexOfChar
    by_cases hx : x = c
    · subst hx
      simp only [if_true, IsFirstAt]
      constructor
      · intro h
        have : i = 0 := by simpa using h.symm
        subst this
        simp
      · rintro ⟨_, h2⟩
        cases i with
        | zero => rfl
        | succ n => exact absurd (by simp) (h2 0 (Nat.succ_pos n))
    · simp only [if_neg hx, IsFirstAt]
      cases i with
      | zero =>
        simp only [List.getElem?_cons_zero, Option.some.injEq]
        constructor
        · intro h
          cases hi : indexOfChar c xs <;> simp [hi] at h
        · rintro ⟨h, _⟩; exact absurd h hx
      | succ n =>
        have ih' := ih n
        unfold IsFirstAt at ih'
        simp only [List.getElem?_cons_succ]
        constructor
        · intro h
          have h' : indexOfChar c xs = some n := by
            cases hi : indexOfChar c xs <;> simp [hi] at h
            subst h; rfl
          obtain ⟨a, b⟩ := ih'.mp h'
          refine ⟨a, ?_⟩
          intro k hk
          cases k with
          | zero => simpa using hx
          | succ m => simpa using b m (Nat.lt_of_succ_lt_succ hk)
        · rintro ⟨a, b⟩
          have : indexOfChar c xs = some n := by
            apply ih'.mpr
            refine ⟨a, ?_⟩
            intro k hk
            simpa using b (k + 1) (Nat.succ_lt_succ hk)
          simp [this]

theorem indexOfChar_eq_none_iff (c : Char) (l : List Char) :
    indexOfChar c l = none ↔ c ∉ l := by
  induction l with
  | nil => simp [indexOfChar]
  | cons x xs ih =>
    unfold indexOfChar
    by_cases hx : x = c
    · subst hx; simp
    · have hx' : ¬ c = x := fun h => hx h.symm
      simp [hx, hx', ih]

theorem lastIndexOfChar_eq_none_iff (c : Char) (l : List Char) :
    lastIndexOfChar c l = none ↔ c ∉ l := by
  induction l with
  | nil => simp [lastIndexOfChar]
  | cons x xs ih =>
    unfold lastIndexOfChar
    cases h : lastIndexOfChar c xs with
    | some i =>
      have : ¬ (c ∉ xs) := fun hn => by rw [ih.mpr hn] at h; cases h
      simp only [List.mem_cons, not_or]
      constructor
      · intro h'; cases h'
      · rintro ⟨_, h2⟩; exact absurd h2 this
    | none =>
      have hn : c ∉ xs := ih.mp h
      by_cases hx : x = c
      · subst hx; simp
      · have hx' : ¬ c = x := fun h => hx h.symm
        simp [hx, hx', hn]

theorem lastIndexOfChar_eq_some_iff (c : Char) (l : List Char) (j : Nat) :
    lastIndexOfChar c l = some j ↔ IsLastAt c l j := by
  induction l generalizing j with
  | nil => simp [lastIndexOfChar, IsLastAt]
  | cons x xs ih =>
    unfold lastIndexOfChar
    cases h : lastIndexOfChar c xs with
    | some i =>
      obtain ⟨a, b⟩ := (ih i).mp h
      simp only [Option.some.injEq]
      constructor
      · intro hj
        subst hj
        refine ⟨by simpa using a, ?_⟩
        intro k hk
        cases k with
        | zero => omega
        | succ m => simpa using b m (by omega)
      · rintro ⟨a', b'⟩
        cases j with
        | zero =>
          have := b' (i + 1) (Nat.succ_pos i)
          simp [a] at this
        | succ n =>
          have hn : IsLastAt c xs n := by
            refine ⟨by simpa using a', ?_⟩
            intro k hk
            simpa using b' (k + 1) (by omega)
          have := (ih n).mpr hn
          rw [h] at this
          simpa using this
    | none =>
      have hn : c ∉ xs := (lastIndexOfChar_eq_none_iff c xs).mp h
      by_cases hx : x = c
      · subst hx
        simp only [if_true, Option.some.injEq]
        constructor
        · intro hj
          subst hj
          refine ⟨by simp, ?_⟩
          intro k hk
          cases k with
          | zero => omega
          | succ m =>
            simp only [List.getElem?_cons_succ]
            intro hm
            exact hn (List.getElem?_mem hm)
        · rintro ⟨a', _⟩
          cases j with
          | zero => rfl
          | succ n =>
            simp only [List.getElem?_cons_succ] at a'
            exact absurd (List.getElem?_mem a') hn
      · simp only [if_neg hx]
        constructor
        · intro h'; cases h'
        · rintro ⟨a', _⟩
          cases j with
          | zero => simp at a'; exact absurd a' hx
          | succ n =>
            simp only [List.getElem?_cons_succ] at a'
            exact absurd (List.getElem?_mem a') hn


theorem indexOfChar_append_cons (c : Char) (a b : List Char) (h : c ∉ a) :
    indexOfChar c (a ++ c :: b) = some a.length := by
  induction a with
  | nil => simp [indexOfChar]
  | cons x xs ih =>
    have hx : ¬ x = c := fun e => h (by simp [e])
    have hxs : c ∉ xs := fun e => h (by simp [e])
    simp [indexOfChar, hx, ih hxs]

theorem lastIndexOfChar_append_cons (c : Char) (a b : List Char) (h : c ∉ b) :
    lastIndexOfChar c (a ++ c :: b) = some a.length := by
  induction a with
  | nil => simp [lastIndexOfChar, (lastIndexOfChar_eq_none_iff c b).mpr h]
  | cons x xs ih => simp [lastIndexOfChar, ih]

theorem dropWhile_append_of_head {p : Char → Bool} (a b : List Char)
    (hb : ∀ x, b.head? = some x → p x = false) :
    (a ++ b).dropWhile p = a.dropWhile p ++ b := by
  induction a with
  | nil => simpa using dropWhile_eq_self_of_head b hb
  | cons x xs ih =>
    by_cases hx : p x = true
    · simp [List.dropWhile_cons, hx, ih]
    · simp [List.dropWhile_cons, hx]

theorem trimRight_append_of_last (a b : List Char)
    (ha : ∀ x, a.getLast? = some x → isSpace x = false) :
    trimRight (a ++ b) = a ++ trimRight b := by
  unfold trimRight
  rw [List.reverse_append, dropWhile_append_of_head, List.reverse_append, List.reverse_reverse]
  intro x hx
  rw [List.head?_reverse] at hx
  exact ha x hx

theorem getLast?_cons_concat (x y : Char) (m : List Char) :
    (x :: (m ++ [y])).getLast? = some y := by
  rw [← List.cons_append, List.getLast?_append]
  simp

theorem mem_dropWhile {p : Char → Bool} {c : Char} {l : List Char}
    (h : c ∈ l.dropWhile p) : c ∈ l :=
  (List.dropWhile_suffix p).subset h

theorem mem_trimRight {c : Char} {l : List Char} (h : c ∈ trimRight l) : c ∈ l :=
  (trimRight_initial l).subset h

/-! ## decodeJSON -/

theorem decodeJSON_ok {α : Type} (u : String → Except GoError α) (raw : String) (v : α)
    (h : u (TrimSpace raw) = .ok v) : decodeJSON u raw = .ok v := by
  unfold decodeJSON
  simp only [h]

theorem decodeJSON_of_indices {α : Type} (u : String → Except GoError α) (raw : String)
    (e : GoError) (i j : Nat) (h : u (TrimSpace raw) = .error e)
    (hi : indexOfChar '{' (TrimSpace raw).data = some i)
    (hj : lastIndexOfChar '}' (TrimSpace raw).data = some j) (hij : i < j) :
    decodeJSON u raw = u (substringIncl (TrimSpace raw) i j) := by
  unfold decodeJSON
  simp only [h, Index, LastIndex, hi, hj]
  have h1 : ((i : Int) == -1) = false := by
    apply beq_false_of_ne; omega
  have h2 : ((j : Int) == -1) = false := by
    apply beq_false_of_ne; omega
  have h3 : ¬ ((j : Int) ≤ (i : Int)) := by omega
  simp only [h1, h2, Bool.or_self, Bool.false_or, decide_eq_true_eq, h3, if_false]
  congr 1
  unfold slice substringIncl
  congr 1
  have hj' : ((j : Int) + 1).toNat = j + 1 := by omega
  rw [hj', Int.toNat_ofNat, List.drop_take]

theorem decodeJSON_error_of_indices {α : Type} (u : String → Except GoError α)
    (raw : String) (e : GoError) (h : u (TrimSpace raw) = .error e)
    (hb : Index (TrimSpace raw) '{' = -1 ∨ LastIndex (TrimSpace raw) '}' = -1 ∨
      LastIndex (TrimSpace raw) '}' ≤ Index (TrimSpace raw) '{') :
    decodeJSON u raw = .error e := by
  unfold decodeJSON
  simp only [h]
  rw [if_pos]
  simpa [or_assoc] using hb

/-- C8. The fallback of `decodeJSON`: when the trimmed text `t` does not parse
directly and its first opening brace is at `i`, its last closing brace at `j`,
with `i < j`, the outcome is that of parsing `t[i..j]`; in particular a text
`p ++ obj ++ s` that does not parse directly, where `obj` runs from an opening
to a closing brace and parses to `v`, `p` has no opening brace and `s` no
closing brace, decodes to `v`. -/
theorem decodeJSON_fallback {α : Type} (u : String → Except GoError α) :
    (∀ (raw : String) (e : GoError) (i j : Nat),
      u (TrimSpace raw) = .error e →
      IsFirstAt '{' (TrimSpace raw).data i → IsLastAt '}' (TrimSpace raw).data j → i < j →
      decodeJSON u raw = u (substringIncl (TrimSpace raw) i j)) ∧
    (∀ (p obj s : String) (v : α) (e : GoError),
      obj.data.head? = some '{' → obj.data.getLast? = some '}' → u obj = .ok v →
      '{' ∉ p.data → '}' ∉ s.data → u (TrimSpace (p ++ obj ++ s)) = .error e →
      decodeJSON u (p ++ obj ++ s) = .ok v) := by
  constructor
  · intro raw e i j h hi hj hij
    exact decodeJSON_of_indices u raw e i j h
      ((indexOfChar_eq_some_iff _ _ _).mpr hi) ((lastIndexOfChar_eq_some_iff _ _ _).mpr hj) hij
  · intro p obj s v e hhead hlast hobj hp hs hdirect
    -- shape of `obj`
    obtain ⟨od⟩ := obj
    simp only at hhead hlast
    obtain ⟨m, rfl⟩ : ∃ m, od = '{' :: (m ++ ['}']) := by
      cases od with
      | nil => simp at hhead
      | cons x xs =>
        simp at hhead
        subst hhead
        rcases List.eq_nil_or_concat xs with hx | ⟨m, y, hx⟩
        · subst hx; simp at hlast
        · subst hx
          rw [List.concat_eq_append] at hlast ⊢
          rw [getLast?_cons_concat] at hlast
          simp at hlast
          subst hlast
          exact ⟨m, rfl⟩
    -- the trimmed text
    have ht : (TrimSpace (p ++ ⟨'{' :: (m ++ ['}'])⟩ ++ s)).data =
        trimLeft p.data ++ '{' :: (m ++ '}' :: trimRight s.data) := by
      unfold TrimSpace
      simp only [String.data_append]
      have e1 : p.data ++ '{' :: (m ++ ['}']) ++ s.data =
          p.data ++ ('{' :: (m ++ ['}']) ++ s.data) := by simp
      rw [e1]
      unfold trimLeft
      rw [dropWhile_append_of_head _ _ (by intro x hx; simp at hx; subst hx; decide)]
      have e2 : List.dropWhile isSpace p.data ++ ('{' :: (m ++ ['}']) ++ s.data) =
          (List.dropWhile isSpace p.data ++ '{' :: (m ++ ['}'])) ++ s.data := by simp
      rw [e2, trimRight_append_of_last _ _
        (by intro x hx
            rw [List.getLast?_append] at hx
            rw [getLast?_cons_concat] at hx
            simp at hx
            subst hx; decide)]
      simp
    have hp' : '{' ∉ trimLeft p.data := fun h => hp (mem_dropWhile h)
    have hs' : '}' ∉ trimRight s.data := fun h => hs (mem_trimRight h)
    have hi : indexOfChar '{' (TrimSpace (p ++ ⟨'{' :: (m ++ ['}'])⟩ ++ s)).data =
        some (trimLeft p.data).length := by
      rw [ht]; exact indexOfChar_append_cons _ _ _ hp'
    have hj : lastIndexOfChar '}' (TrimSpace (p ++ ⟨'{' :: (m ++ ['}'])⟩ ++ s)).data =
        some ((trimLeft p.data).length + 1 + m.length) := by
      rw [ht]
      have e3 : trimLeft p.data ++ '{' :: (m ++ '}' :: trimRight s.data) =
          (trimLeft p.data ++ '{' :: m) ++ '}' :: trimRight s.data := by simp
      rw [e3, lastIndexOfChar_append_cons _ _ _ hs']
      simp
      omega
    rw [decodeJSON_of_indices u _ e _ _ hdirect hi hj (by omega), ← hobj]
    congr 1
    unfold substringIncl
    congr 1
    rw [ht, List.drop_take]
    simp
    have : (trimLeft p.data).length + 1 + m.length + 1 - (trimLeft p.data).length
        = (m ++ ['}']).length + 1 := by simp; omega
    rw [this]
    have e4 : m ++ '}' :: trimRight s.data = (m ++ ['}']) ++ trimRight s.data := by simp
    simp only [List.length_append, List.length_singleton, List.take_succ_cons]
    rw [e4, List.take_left' (by simp)]


theorem decodeJSON_fallback_witness :
    decodeJSON unmarshalProbe "noise \x7b\"a\":1\x7d noise" = unmarshalProbe "\x7b\"a\":1\x7d" ∧
    decodeJSON unmarshalProbe ("noise " ++ "\x7b\"a\":1\x7d" ++ " noise") = .ok ⟨1⟩ :=
  ⟨(decodeJSON_fallback unmarshalProbe).1 "noise \x7b\"a\":1\x7d noise" syntaxError 6 12
      (by rfl) ((indexOfChar_eq_some_iff _ _ _).mp (by decide))
      ((lastIndexOfChar_eq_some_iff _ _ _).mp (by decide)) (by decide),
   (decodeJSON_fallback unmarshalProbe).2 "noise " "\x7b\"a\":1\x7d" " noise" ⟨1⟩ syntaxError
      (by decide) (by decide) (by rfl) (by decide) (by decide) (by rfl)⟩

/-- C9. Failure of `decodeJSON`: when the trimmed text does not parse directly
and has no opening brace, or no closing brace, or its last closing brace does
not come after its first opening brace, `decodeJSON` fails with the error of
the direct parse. -/
theorem decodeJSON_fails {α : Type} (u : String → Except GoError α) (raw : String)
    (e : GoError) (h : u (TrimSpace raw) = .error e)
    (hb : '{' ∉ (TrimSpace raw).data ∨ '}' ∉ (TrimSpace raw).data ∨
      ∃ i j, IsFirstAt '{' (TrimSpace raw).data i ∧ IsLastAt '}' (TrimSpace raw).data j ∧
        j ≤ i) :
    decodeJSON u raw = .error e := by
  apply decodeJSON_error_of_indices u raw e h
  rcases hb with hb | hb | ⟨i, j, hi, hj, hij⟩
  · left
    unfold Index
    rw [(indexOfChar_eq_none_iff _ _).mpr hb]
  · right; left
    unfold LastIndex
    rw [(lastIndexOfChar_eq_none_iff _ _).mpr hb]
  · right; right
    unfold Index LastIndex
    rw [(indexOfChar_eq_some_iff _ _ _).mpr hi, (lastIndexOfChar_eq_some_iff _ _ _).mpr hj]
    simp only
    omega

theorem decodeJSON_fails_witness :
    decodeJSON unmarshalProbe "not json at all" = .error syntaxError ∧
    decodeJSON unmarshalProbe " \x7d \"a\":1 \x7b " = .error syntaxError :=
  ⟨decodeJSON_fails unmarshalProbe "not json at all" syntaxError (by rfl)
      (Or.inl (by decide)),
   decodeJSON_fails unmarshalProbe " \x7d \"a\":1 \x7b " syntaxError (by rfl)
      (Or.inr (Or.inr ⟨8, 0, (indexOfChar_eq_some_iff _ _ _).mp (by decide),
        (lastIndexOfChar_eq_some_iff _ _ _).mp (by decide), by decide⟩))⟩

/-- C10. The direct path of `decodeJSON`: when the trimmed text parses, the
outcome is that parse, whatever `unmarshal` does on any other text; and the
outcome on a text is the outcome on its trimmed form. -/
theorem decodeJSON_direct {α : Type} (u : String → Except GoError α) (raw : String) :
    (∀ v, u (TrimSpace raw) = .ok v →
      decodeJSON u raw = .ok v ∧
      ∀ u' : String → Except GoError α, u' (TrimSpace raw) = u (TrimSpace raw) →
        decodeJSON u' raw = .ok v) ∧
    decodeJSON u raw = decodeJSON u (TrimSpace raw) := by
  constructor
  · intro v h
    exact ⟨decodeJSON_ok u raw v h, fun u' h' => decodeJSON_ok u' raw v (h'.trans h)⟩
  · unfold decodeJSON
    simp only [TrimSpace_idem]

theorem decodeJSON_direct_witness :
    decodeJSON unmarshalProbe "\x7b\"a\":1\x7d" = .ok ⟨1⟩ ∧
    decodeJSON unmarshalProbe " \n\x7b\"a\":1\x7d\t " = .ok ⟨1⟩ ∧
    decodeJSON unmarshalProbe " \n\x7b\"a\":1\x7d\t " =
      decodeJSON unmarshalProbe (TrimSpace " \n\x7b\"a\":1\x7d\t ") :=
  ⟨((decodeJSON_direct unmarshalProbe "\x7b\"a\":1\x7d").1 ⟨1⟩ (by rfl)).1,
   ((decodeJSON_direct unmarshalProbe " \n\x7b\"a\":1\x7d\t ").1 ⟨1⟩ (by rfl)).1,
   (decodeJSON_direct unmarshalProbe " \n\x7b\"a\":1\x7d\t ").2⟩


/-! ## The stages of the pipeline -/

theorem copyStrings_eq (l : List String) : copyStrings l = l := by
  unfold copyStrings
  cases l <;> simp

theorem copyCitations_eq (l : List Citation) : copyCitations l = l := by
  unfold copyCitations
  cases l <;> simp

theorem copyChunks_eq (l : List Chunk) : copyChunks l = l := by
  unfold copyChunks
  cases l <;> simp

theorem clientCreateChatCompletion_log {σ : Type} (C : Collaborators σ) (creq : ClientRequest)
    (w w1 : World σ) (res : Except GoError ClientResponse)
    (h : clientCreateChatCompletion C creq w = (res, w1)) :
    w1.log = w.log ++ [Call.chat creq res] := by
  unfold clientCreateChatCompletion at h
  simp only [Prod.mk.injEq] at h
  obtain ⟨h1, h2⟩ := h
  subst h1 h2
  rfl

/-- A successful `CreateChatCompletion` made exactly one client call, which
returned at least one choice, and hands back the content of the first. -/
theorem CreateChatCompletion_ok {σ : Type} (C : Collaborators σ) (model : String)
    (req : ChatCompletionRequest) (w w1 : World σ) (r : ChatCompletionResponse)
    (h : CreateChatCompletion C model req w = (.ok r, w1)) :
    ∃ creq cresp choice rest,
      w1.log = w.log ++ [Call.chat creq (.ok cresp)] ∧
      cresp.Choices = choice :: rest ∧ r.Content = choice.Content := by
  unfold CreateChatCompletion at h
  split at h
  · cases h
  · simp only at h
    split at h
    · cases h
    · rename_i creq hreq
      split at h
      · cases h
      · rename_i cresp w' hcall
        have hlog := clientCreateChatCompletion_log C creq w w' _ hcall
        split at h
        · cases h
        · rename_i choice rest hch
          simp only [Prod.mk.injEq, Except.ok.injEq] at h
          obtain ⟨hr, hw⟩ := h
          subst hr hw
          exact ⟨creq, cresp, choice, rest, hlog, hch, rfl⟩

/-- The log after `CreateChatCompletion` extends the log before by at most one call. -/
theorem CreateChatCompletion_log {σ : Type} (C : Collaborators σ) (model : String)
    (req : ChatCompletionRequest) (w : World σ) :
    (CreateChatCompletion C model req w).2.log = w.log ∨
    ∃ creq res, (CreateChatCompletion C model req w).2.log = w.log ++ [Call.chat creq res] := by
  unfold CreateChatCompletion
  split
  · left; rfl
  · simp only
    split
    · left; rfl
    · rename_i creq hreq
      right
      split
      · rename_i err w' hcall
        exact ⟨creq, _, clientCreateChatCompletion_log C creq w w' _ hcall⟩
      · rename_i cresp w' hcall
        have hlog := clientCreateChatCompletion_log C creq w w' _ hcall
        split <;> exact ⟨creq, _, hlog⟩

theorem chat_ok {σ : Type} (s : Service) (C : Collaborators σ) (sys usr : String)
    (maxTokens : Int) (stage : String) (fmt : Option ResponseFormat) (w w1 : World σ)
    (content : String) (h : s.chat C sys usr maxTokens stage fmt w = (.ok content, w1)) :
    ∃ creq cresp choice rest,
      w1.log = w.log ++ [Call.chat creq (.ok cresp)] ∧
      cresp.Choices = choice :: rest ∧ content = choice.Content := by
  unfold Service.chat at h
  split at h
  · cases h
  · rename_i resp w' hcc
    simp only [Prod.mk.injEq, Except.ok.injEq] at h
    obtain ⟨hc, hw⟩ := h
    subst hc hw
    exact CreateChatCompletion_ok C _ _ w _ resp hcc

theorem chat_log {σ : Type} (s : Service) (C : Collaborators σ) (sys usr : String)
    (maxTokens : Int) (stage : String) (fmt : Option ResponseFormat) (w : World σ) :
    (s.chat C sys usr maxTokens stage fmt w).2.log = w.log ∨
    ∃ creq res, (s.chat C sys usr maxTokens stage fmt w).2.log = w.log ++ [Call.chat creq res] := by
  unfold Service.chat
  have h := CreateChatCompletion_log C s.model
    { Messages := [⟨RoleSystem, sys, "", ""⟩, ⟨RoleUser, usr, "", ""⟩],
      Temperature := 0, MaxTokens := maxTokens, TopP := 0, ResponseFormat := fmt } w
  split <;> rename_i hcc <;> rw [hcc] at h <;> exact h

/-- A successful answer stage (generation or correction) returns the
normalised decoding of the first choice of a logged chat reply. -/
theorem generateAnswer_ok {σ : Type} (s : Service) (C : Collaborators σ) (J : JSONLib)
    (question dialogContext chunks : String) (w w1 : World σ) (a : answerResult)
    (h : s.generateAnswer C J question dialogContext chunks w = (.ok a, w1)) :
    ∃ creq cresp choice rest p,
      w1.log = w.log ++ [Call.chat creq (.ok cresp)] ∧
      cresp.Choices = choice :: rest ∧
      decodeJSON J.unmarshalAnswer choice.Content = .ok p ∧ a = normalizeAnswer p := by
  unfold Service.generateAnswer at h
  simp only at h
  split at h
  · cases h
  · rename_i content w' hchat
    obtain ⟨creq, cresp, choice, rest, hlog, hch, hcont⟩ := chat_ok s C _ _ _ _ _ w w' content hchat
    simp only [Prod.mk.injEq] at h
    obtain ⟨hp, hw⟩ := h
    subst hw hcont
    unfold parseAnswer at hp
    split at hp
    · cases hp
    · rename_i p hdec
      simp only [Except.ok.injEq] at hp
      exact ⟨creq, cresp, choice, rest, p, hlog, hch, hdec, hp.symm⟩

theorem rewriteAnswer_ok {σ : Type} (s : Service) (C : Collaborators σ) (J : JSONLib)
    (question dialogContext chunks answerText : String) (validation : ValidationResult)
    (w w1 : World σ) (a : answerResult)
    (h : s.rewriteAnswer C J question dialogContext chunks answerText validation w = (.ok a, w1)) :
    ∃ creq cresp choice rest p,
      w1.log = w.log ++ [Call.chat creq (.ok cresp)] ∧
      cresp.Choices = choice :: rest ∧
      decodeJSON J.unmarshalAnswer choice.Content = .ok p ∧ a = normalizeAnswer p := by
  unfold Service.rewriteAnswer at h
  simp only at h
  split at h
  · cases h
  · rename_i content w' hchat
    obtain ⟨creq, cresp, choice, rest, hlog, hch, hcont⟩ := chat_ok s C _ _ _ _ _ w w' content hchat
    simp only [Prod.mk.injEq] at h
    obtain ⟨hp, hw⟩ := h
    subst hw hcont
    unfold parseAnswer at hp
    split at hp
    · cases hp
    · rename_i p hdec
      simp only [Except.ok.injEq] at hp
      exact ⟨creq, cresp, choice, rest, p, hlog, hch, hdec, hp.symm⟩

/-- The call log only grows during `validateAnswer`, by at most one chat call. -/
theorem validateAnswer_log {σ : Type} (s : Service) (C : Collaborators σ) (J : JSONLib)
    (question answerText chunks : String) (w : World σ) :
    (s.validateAnswer C J question answerText chunks w).2.log = w.log ∨
    ∃ creq res,
      (s.validateAnswer C J question answerText chunks w).2.log = w.log ++ [Call.chat creq res] := by
  unfold Service.validateAnswer
  simp only
  split
  · left; rfl
  · split
    · left; rfl
    · have h := chat_log s C validationSystemPrompt
        (buildValidationUserPrompt question answerText chunks) validationMaxTokens "validation"
        jsonObjectResponseFormat w
      split
      · rename_i hchat; rw [hchat] at h; exact h
      · rename_i hchat; rw [hchat] at h
        split
        · exact h
        · split <;> exact h


/-! ## Service.Answer -/

/-- Every call logged before `validateAnswer` is still in the log after it. -/
theorem validateAnswer_mem_log {σ : Type} (s : Service) (C : Collaborators σ) (J : JSONLib)
    (question answerText chunks : String) (w w1 : World σ)
    (r : Except GoError ValidationResult)
    (h : s.validateAnswer C J question answerText chunks w = (r, w1)) :
    ∀ c, c ∈ w.log → c ∈ w1.log := by
  intro c hc
  have hv := validateAnswer_log s C J question answerText chunks w
  rw [h] at hv
  rcases hv with hv | ⟨creq, res, hv⟩
  · simp only at hv; rw [hv]; exact hc
  · simp only at hv; rw [hv]; exact List.mem_append_left _ hc

/-- A `Response` returned by `Answer` carries the normalised decoding `p` of the
first choice of a chat reply found in the call log: of the generation reply
when validation passed, of the correction reply otherwise. -/
theorem Answer_ok {σ : Type} (s : Service) (C : Collaborators σ) (J : JSONLib)
    (req : Request) (w w' : World σ) (resp : Response)
    (h : s.Answer C J req w = (.ok resp, w')) :
    ∃ creq cresp choice rest p,
      Call.chat creq (.ok cresp) ∈ w'.log ∧ cresp.Choices = choice :: rest ∧
      decodeJSON J.unmarshalAnswer choice.Content = .ok p ∧
      resp.Answer = TrimSpace (normalizeAnswer p).Text ∧
      resp.CitationsUsed = (normalizeAnswer p).CitationsUsed ∧
      resp.Citations = (normalizeAnswer p).Citations := by
  unfold Service.Answer at h
  simp only at h
  split at h
  · cases h
  · split at h
    · cases h
    · rename_i chunks w1 hfetch
      split at h
      · cases h
      · rename_i answer w2 hgen
        obtain ⟨creq, cresp, choice, rest, p, hlog, hch, hdec, ha⟩ :=
          generateAnswer_ok s C J _ _ _ w1 w2 answer hgen
        split at h
        · cases h
        · rename_i validation w3 hval
          split at h
          · split at h
            · cases h
            · rename_i rewritten w4 hrew
              obtain ⟨creq', cresp', choice', rest', p', hlog', hch', hdec', ha'⟩ :=
                rewriteAnswer_ok s C J _ _ _ _ _ w3 w4 rewritten hrew
              simp only [Prod.mk.injEq, Except.ok.injEq] at h
              obtain ⟨hr, hw⟩ := h
              subst hr hw ha'
              refine ⟨creq', cresp', choice', rest', p', ?_, hch', hdec', rfl, ?_, ?_⟩
              · rw [hlog']; simp
              · exact copyStrings_eq _
              · exact copyCitations_eq _
          · simp only [Prod.mk.injEq, Except.ok.injEq] at h
            obtain ⟨hr, hw⟩ := h
            subst hr hw ha
            refine ⟨creq, cresp, choice, rest, p, ?_, hch, hdec, rfl, ?_, ?_⟩
            · have hsub := validateAnswer_mem_log s C J _ _ _ w2 _ _ hval
              apply hsub
              rw [hlog]; simp
            · exact copyStrings_eq _
            · exact copyCitations_eq _


/-- C1. Grounding invariant: whatever the collaborators do, a `Response`
returned by `Answer` whose `Answer` is not the sentinel has non-empty
`CitationsUsed` and non-empty `Citations`. -/
theorem Answer_grounding {σ : Type} (s : Service) (C : Collaborators σ) (J : JSONLib)
    (req : Request) (w w' : World σ) (resp : Response)
    (h : s.Answer C J req w = (.ok resp, w')) (hne : resp.Answer ≠ unknownAnswer) :
    resp.CitationsUsed ≠ [] ∧ resp.Citations ≠ [] := by
  obtain ⟨_, _, _, _, p, _, _, _, ha, hu, hc⟩ := Answer_ok s C J req w w' resp h
  rcases normalizeAnswer_cases p with hn | ⟨hn, _, _, h3, h4⟩
  · exfalso
    apply hne
    rw [ha, hn]
    exact TrimSpace_unknownAnswer
  · rw [hu, hc, hn]
    exact ⟨h3, h4⟩

theorem Answer_grounding_witness :
    (demoRun [replyGrounded, replyValid]).1 =
      .ok (demoResponse "X is Y [C1]" ["C1"] [⟨"C1", "X is Y", ""⟩] ⟨true, [], ""⟩) ∧
    ["C1"] ≠ [] ∧ [(⟨"C1", "X is Y", ""⟩ : Citation)] ≠ [] :=
  ⟨by rfl,
   Answer_grounding demoService (scripted [[0]] demoHits) referenceJSON demoRequest
    { st := [replyGrounded, replyValid], log := [] } (demoRun [replyGrounded, replyValid]).2
    (demoResponse "X is Y [C1]" ["C1"] [⟨"C1", "X is Y", ""⟩] ⟨true, [], ""⟩)
    (by rfl) (by decide)⟩

/-- C2. Sentinel invariant: whatever the collaborators do, a `Response` returned
by `Answer` whose `Answer` is the sentinel has empty `CitationsUsed` and empty
`Citations`, whether generation or correction produced it. -/
theorem Answer_sentinel {σ : Type} (s : Service) (C : Collaborators σ) (J : JSONLib)
    (req : Request) (w w' : World σ) (resp : Response)
    (h : s.Answer C J req w = (.ok resp, w')) (hs : resp.Answer = unknownAnswer) :
    resp.CitationsUsed = [] ∧ resp.Citations = [] := by
  obtain ⟨_, _, _, _, p, _, _, _, ha, hu, hc⟩ := Answer_ok s C J req w w' resp h
  rcases normalizeAnswer_cases p with hn | ⟨hn, _, h2, _, _⟩
  · rw [hu, hc, hn]
    exact ⟨rfl, rfl⟩
  · exfalso
    apply h2
    rw [← hs, ha, hn]
    exact (TrimSpace_idem p.Text).symm

theorem Answer_sentinel_witness :
    ((demoRun [replyUnknown]).1 =
        .ok (demoResponse unknownAnswer [] []
          ⟨true, [], "validation skipped for unknown answer"⟩) ∧
      (demoRun [replyGrounded, replyInvalid, replyUnknown]).1 =
        .ok (demoResponse unknownAnswer [] [] ⟨false, ["X is Y"], "unsupported"⟩)) ∧
    ((demoResponse unknownAnswer [] []
        ⟨true, [], "validation skipped for unknown answer"⟩).CitationsUsed = [] ∧
      (demoResponse unknownAnswer [] []
        ⟨true, [], "validation skipped for unknown answer"⟩).Citations = []) ∧
    ((demoResponse unknownAnswer [] [] ⟨false, ["X is Y"], "unsupported"⟩).CitationsUsed = [] ∧
      (demoResponse unknownAnswer [] [] ⟨false, ["X is Y"], "unsupported"⟩).Citations = []) :=
  ⟨⟨by rfl, by rfl⟩,
   Answer_sentinel demoService (scripted [[0]] demoHits) referenceJSON demoRequest
    { st := [replyUnknown], log := [] } (demoRun [replyUnknown]).2
    (demoResponse unknownAnswer [] [] ⟨true, [], "validation skipped for unknown answer"⟩)
    (by rfl) rfl,
   Answer_sentinel demoService (scripted [[0]] demoHits) referenceJSON demoRequest
    { st := [replyGrounded, replyInvalid, replyUnknown], log := [] }
    (demoRun [replyGrounded, replyInvalid, replyUnknown]).2
    (demoResponse unknownAnswer [] [] ⟨false, ["X is Y"], "unsupported"⟩)
    (by rfl) rfl⟩

/-- C3, as stated, fails: with two offered chunks `C1`, `C2`, a generation reply
that cites `C9` and a validator reply `ok = true`, `Answer` returns a `Response`
whose citation id `C9` is the ID of none of its chunks. -/
theorem Answer_citations_stray :
    (demoRun [replyStray, replyValid]).1 =
      .ok (demoResponse "X is Q [C9]" ["C9"] [⟨"C9", "X is Q", ""⟩] ⟨true, [], ""⟩) ∧
    ¬ CitationsReferenceChunks
      (demoResponse "X is Q [C9]" ["C9"] [⟨"C9", "X is Q", ""⟩] ⟨true, [], ""⟩) ∧
    ¬ (∀ c ∈ (demoResponse "X is Q [C9]" ["C9"] [⟨"C9", "X is Q", ""⟩]
          ⟨true, [], ""⟩).Citations,
        ∃ k ∈ (demoResponse "X is Q [C9]" ["C9"] [⟨"C9", "X is Q", ""⟩]
          ⟨true, [], ""⟩).Chunks, k.ID = c.ID) :=
  ⟨by rfl, by decide, by decide⟩


/-! ## Decimal numerals -/

theorem foldl_digits (a : Nat) (l : List Char) :
    l.foldl (fun n d => 10 * n + (d.toNat - '0'.toNat)) a =
      a * 10 ^ l.length + digitsValue l := by
  induction l generalizing a with
  | nil => simp [digitsValue]
  | cons c cs ih =>
    unfold digitsValue
    simp only [List.foldl_cons, List.length_cons]
    rw [ih, ih (10 * 0 + (c.toNat - '0'.toNat))]
    ring

theorem digitsValue_cons (c : Char) (l : List Char) :
    digitsValue (c :: l) = (c.toNat - '0'.toNat) * 10 ^ l.length + digitsValue l := by
  have := foldl_digits (10 * 0 + (c.toNat - '0'.toNat)) l
  unfold digitsValue at this ⊢
  simp only [List.foldl_cons]
  rw [this]
  simp

theorem digitChar_value : ∀ m, m < 10 →
    (Nat.digitChar m).toNat - '0'.toNat = m ∧ (Nat.digitChar m).isDigit = true := by
  decide

theorem toDigitsCore_value (fuel n : Nat) (ds : List Char) (h : n < fuel) :
    digitsValue (Nat.toDigitsCore 10 fuel n ds) = n * 10 ^ ds.length + digitsValue ds := by
  induction fuel generalizing n ds with
  | zero => omega
  | succ f ih =>
    unfold Nat.toDigitsCore
    simp only
    by_cases h0 : n / 10 = 0
    · rw [if_pos h0, digitsValue_cons, (digitChar_value (n % 10) (Nat.mod_lt _ (by decide))).1]
      have : n % 10 = n := Nat.mod_eq_of_lt (by omega)
      rw [this]
    · rw [if_neg h0, ih (n / 10) _ (by omega), digitsValue_cons,
        (digitChar_value (n % 10) (Nat.mod_lt _ (by decide))).1]
      simp only [List.length_cons, pow_succ]
      have hn : n = 10 * (n / 10) + n % 10 := (Nat.div_add_mod n 10).symm
      generalize n / 10 = q at hn ⊢
      generalize n % 10 = r at hn ⊢
      subst hn
      ring

theorem toDigitsCore_isDigit (fuel n : Nat) (ds : List Char)
    (hds : ∀ c ∈ ds, c.isDigit = true) :
    ∀ c ∈ Nat.toDigitsCore 10 fuel n ds, c.isDigit = true := by
  induction fuel generalizing n ds with
  | zero => simpa [Nat.toDigitsCore] using hds
  | succ f ih =>
    unfold Nat.toDigitsCore
    simp only
    have hd := (digitChar_value (n % 10) (Nat.mod_lt _ (by decide))).2
    have hds' : ∀ c ∈ Nat.digitChar (n % 10) :: ds, c.isDigit = true := by
      intro c hc
      rcases List.mem_cons.mp hc with rfl | hc
      · exact hd
      · exact hds c hc
    by_cases h0 : n / 10 = 0
    · rw [if_pos h0]; exact hds'
    · rw [if_neg h0]; exact ih _ _ hds'

/-- The text of `Nat.repr n` is a string of decimal digits whose value is `n`. -/
theorem repr_decimal (n : Nat) :
    (∀ c ∈ (Nat.repr n).data, c.isDigit = true) ∧ digitsValue (Nat.repr n).data = n := by
  unfold Nat.repr Nat.toDigits
  constructor
  · exact toDigitsCore_isDigit _ _ [] (by simp)
  · have := toDigitsCore_value (n + 1) n [] (by omega)
    simpa [List.asString, digitsValue] using this

/-! ## buildChunks -/

theorem buildChunksFrom_length (k : Nat) (hits : List SearchHit) :
    (buildChunksFrom k hits).length = hits.length := by
  induction hits generalizing k with
  | nil => rfl
  | cons h rest ih => simp [buildChunksFrom, ih]

theorem buildChunksFrom_getElem? (k : Nat) (hits : List SearchHit) (i : Nat) (h : SearchHit)
    (hi : hits[i]? = some h) :
    (buildChunksFrom k hits)[i]? =
      some { ID := "C" ++ Nat.repr (k + i + 1), DataSource := h.DataSource, Text := h.Payload } := by
  induction hits generalizing k i with
  | nil => simp at hi
  | cons x rest ih =>
    cases i with
    | zero =>
      simp at hi
      subst hi
      simp [buildChunksFrom]
    | succ n =>
      simp at hi
      simp only [buildChunksFrom, List.getElem?_cons_succ]
      rw [ih (k + 1) n hi]
      have : k + 1 + n + 1 = k + (n + 1) + 1 := by omega
      rw [this]

/-- C11. Chunk numbering: `buildChunks` returns one chunk per hit, in the order
of the hits; the chunk at 1-based rank `i` has the ID `C` followed by the
decimal numeral of `i` (a string of digits of value `i`), the hit's `DataSource`
and the hit's `Payload` as text; three hits get the ids `C1`, `C2`, `C3`. -/
theorem buildChunks_numbering (hits : List SearchHit) :
    (buildChunks hits).length = hits.length ∧
    (∀ (i : Nat) (h : SearchHit), hits[i]? = some h →
      (buildChunks hits)[i]? =
        some { ID := "C" ++ Nat.repr (i + 1), DataSource := h.DataSource, Text := h.Payload } ∧
      (∀ c ∈ (Nat.repr (i + 1)).data, c.isDigit = true) ∧
      digitsValue (Nat.repr (i + 1)).data = i + 1) ∧
    (∀ a b c : SearchHit, (buildChunks [a, b, c]).map (·.ID) = ["C1", "C2", "C3"]) := by
  refine ⟨buildChunksFrom_length 0 hits, ?_, ?_⟩
  · intro i h hi
    have := buildChunksFrom_getElem? 0 hits i h hi
    exact ⟨by simpa [buildChunks] using this, repr_decimal (i + 1)⟩
  · intro a b c
    rfl

theorem buildChunks_numbering_witness :
    (buildChunks demoHits).length = 2 ∧
    (buildChunks demoHits)[1]? = some { ID := "C2", DataSource := "b.txt", Text := "Z is W" } ∧
    (buildChunks [demoHits[0], demoHits[1], demoHits[0]]).map (·.ID) = ["C1", "C2", "C3"] :=
  ⟨(buildChunks_numbering demoHits).1,
   ((buildChunks_numbering demoHits).2.1 1 ⟨12, 0, "Z is W", "b.txt"⟩ (by decide)).1,
   (buildChunks_numbering demoHits).2.2 _ _ _⟩

/-! ## The calls each stage makes -/

theorem chatStages_append (a b : List Call) :
    chatStages (a ++ b) = chatStages a ++ chatStages b := by
  induction a with
  | nil => rfl
  | cons c rest ih =>
    cases c <;> simp [chatStages, ih]

theorem stageOfRequest_answer (s : Service) (usr : String) :
    stageOfRequest (chatRequest s answerSystemPrompt usr) = Stage.answer := by
  simp [stageOfRequest, chatRequest]

theorem stageOfRequest_validation (s : Service) (usr : String) :
    stageOfRequest (chatRequest s validationSystemPrompt usr) = Stage.validation := by
  have h : validationSystemPrompt ≠ answerSystemPrompt := by decide
  simp [stageOfRequest, chatRequest, h]

theorem stageOfRequest_answerRewrite (s : Service) (usr : String) :
    stageOfRequest (chatRequest s answerRewriteSystemPrompt usr) = Stage.answerRewrite := by
  have h1 : answerRewriteSystemPrompt ≠ answerSystemPrompt := by decide
  have h2 : answerRewriteSystemPrompt ≠ validationSystemPrompt := by decide
  simp [stageOfRequest, chatRequest, h1, h2]

/-- With the JSON-object response format `Service.chat` always reaches the
client, with the request `chatRequest`, and returns the content of the first
choice of its reply. -/
theorem chat_eq {σ : Type} (s : Service) (C : Collaborators σ) (sys usr : String)
    (maxTokens : Int) (stage : String) (w : World σ) :
    s.chat C sys usr maxTokens stage jsonObjectResponseFormat w =
      match clientCreateChatCompletion C (chatRequest s sys usr) w with
      | (.error err, w1) => (.error err, w1)
      | (.ok resp, w1) =>
        match resp.Choices with
        | [] => (.error (errorsNew "openai: empty response"), w1)
        | choice :: _ => (.ok choice.Content, w1) := by
  unfold Service.chat CreateChatCompletion
  simp only [jsonObjectResponseFormat, toOpenAIResponseFormat, chatRequest,
    ResponseFormatTypeJSONObject, List.length_cons, List.length_nil]
  simp only [beq_self_eq_true, if_true]
  rcases hcall : clientCreateChatCompletion C _ w with ⟨res, w1⟩
  cases res with
  | error err => simp [hcall]
  | ok resp =>
    cases hch : resp.Choices with
    | nil => simp [hcall, hch]
    | cons choice rest => simp [hcall, hch]

theorem chat_log_eq {σ : Type} (s : Service) (C : Collaborators σ) (sys usr : String)
    (maxTokens : Int) (stage : String) (w : World σ) :
    (s.chat C sys usr maxTokens stage jsonObjectResponseFormat w).2.log =
      w.log ++ [Call.chat (chatRequest s sys usr)
        (C.CreateChatCompletion (chatRequest s sys usr) w.st).1] := by
  rw [chat_eq]
  rcases hcall : clientCreateChatCompletion C (chatRequest s sys usr) w with ⟨res, w1⟩
  have hlog : w1.log = w.log ++ [Call.chat (chatRequest s sys usr) res] :=
    clientCreateChatCompletion_log C _ w w1 res hcall
  have hres : res = (C.CreateChatCompletion (chatRequest s sys usr) w.st).1 := by
    unfold clientCreateChatCompletion at hcall
    simp only [Prod.mk.injEq] at hcall
    exact hcall.1.symm
  rw [← hres]
  cases res with
  | error err => exact hlog
  | ok resp =>
    cases hch : resp.Choices with
    | nil => simpa [hch] using hlog
    | cons choice rest => simpa [hch] using hlog

/-- The seven ways a run of `Answer` can go, each with the stage results that
lead to it and the pair `Answer` returns. -/
theorem Answer_cases {σ : Type} (s : Service) (C : Collaborators σ) (J : JSONLib)
    (req : Request) (w : World σ) :
    (TrimSpace req.Question = "" ∧
      s.Answer C J req w = (.error (errorsNew "question is empty"), w)) ∨
    (TrimSpace req.Question ≠ "" ∧ ∃ e w1,
      s.fetchChunks C (TrimSpace req.Question) req.TopK w = (.error e, w1) ∧
      s.Answer C J req w = (.error e, w1)) ∨
    (TrimSpace req.Question ≠ "" ∧ ∃ chunks w1 e w2,
      s.fetchChunks C (TrimSpace req.Question) req.TopK w = (.ok chunks, w1) ∧
      s.generateAnswer C J (TrimSpace req.Question) (resolveDialogContext req)
        (formatChunks chunks) w1 = (.error e, w2) ∧
      s.Answer C J req w = (.error e, w2)) ∨
    (TrimSpace req.Question ≠ "" ∧ ∃ chunks w1 answer w2 e w3,
      s.fetchChunks C (TrimSpace req.Question) req.TopK w = (.ok chunks, w1) ∧
      s.generateAnswer C J (TrimSpace req.Question) (resolveDialogContext req)
        (formatChunks chunks) w1 = (.ok answer, w2) ∧
      s.validateAnswer C J (TrimSpace req.Question) (TrimSpace answer.Text)
        (formatChunks chunks) w2 = (.error e, w3) ∧
      s.Answer C J req w = (.error e, w3)) ∨
    (∃ chunks answer v w3, ValidationReturned s C J req w chunks answer v w3 ∧
      v.OK = true ∧ ∃ resp, s.Answer C J req w = (.ok resp, w3) ∧
      resp.Chunks = chunks ∧ resp.Validation = v ∧ resp.Answer = TrimSpace answer.Text ∧
      resp.CitationsUsed = answer.CitationsUsed ∧ resp.Citations = answer.Citations) ∨
    (∃ chunks answer v w3, ValidationReturned s C J req w chunks answer v w3 ∧
      v.OK = false ∧ ∃ e w4,
      s.rewriteAnswer C J (TrimSpace req.Question) (resolveDialogContext req)
        (formatChunks chunks) (TrimSpace answer.Text) v w3 = (.error e, w4) ∧
      s.Answer C J req w = (.error e, w4)) ∨
    (∃ chunks answer v w3, ValidationReturned s C J req w chunks answer v w3 ∧
      v.OK = false ∧ ∃ rewritten w4,
      s.rewriteAnswer C J (TrimSpace req.Question) (resolveDialogContext req)
        (formatChunks chunks) (TrimSpace answer.Text) v w3 = (.ok rewritten, w4) ∧
      ∃ resp, s.Answer C J req w = (.ok resp, w4) ∧
      resp.Chunks = chunks ∧ resp.Validation = v ∧ resp.Answer = TrimSpace rewritten.Text ∧
      resp.CitationsUsed = rewritten.CitationsUsed ∧ resp.Citations = rewritten.Citations) := by
  by_cases hq : TrimSpace req.Question = ""
  · left
    refine ⟨hq, ?_⟩
    unfold Service.Answer
    simp [hq]
  · right
    rcases hf : s.fetchChunks C (TrimSpace req.Question) req.TopK w with ⟨rf, w1⟩
    cases rf with
    | error e =>
      left
      refine ⟨hq, e, w1, rfl, ?_⟩
      unfold Service.Answer
      simp [hq, hf]
    | ok chunks =>
      right
      rcases hg : s.generateAnswer C J (TrimSpace req.Question) (resolveDialogContext req)
        (formatChunks chunks) w1 with ⟨rg, w2⟩
      cases rg with
      | error e =>
        left
        refine ⟨hq, chunks, w1, e, w2, rfl, hg, ?_⟩
        unfold Service.Answer
        simp [hq, hf, hg]
      | ok answer =>
        right
        rcases hv : s.validateAnswer C J (TrimSpace req.Question) (TrimSpace answer.Text)
          (formatChunks chunks) w2 with ⟨rv, w3⟩
        cases rv with
        | error e =>
          left
          refine ⟨hq, chunks, w1, answer, w2, e, w3, rfl, hg, hv, ?_⟩
          unfold Service.Answer
          simp [hq, hf, hg, hv]
        | ok v =>
          right
          have hvr : ValidationReturned s C J req w chunks answer v w3 :=
            ⟨hq, w1, w2, hf, hg, hv⟩
          cases hok : v.OK with
          | true =>
            left
            refine ⟨chunks, answer, v, w3, hvr, hok, ?_⟩
            unfold Service.Answer
            simp [hq, hf, hg, hv, hok, copyChunks_eq, copyStrings_eq, copyCitations_eq]
          | false =>
            right
            rcases hr : s.rewriteAnswer C J (TrimSpace req.Question) (resolveDialogContext req)
              (formatChunks chunks) (TrimSpace answer.Text) v w3 with ⟨rr, w4⟩
            cases rr with
            | error e =>
              left
              refine ⟨chunks, answer, v, w3, hvr, hok, e, w4, hr, ?_⟩
              unfold Service.Answer
              simp [hq, hf, hg, hv, hok, hr]
            | ok rewritten =>
              right
              refine ⟨chunks, answer, v, w3, hvr, hok, rewritten, w4, hr, ?_⟩
              unfold Service.Answer
              simp [hq, hf, hg, hv, hok, hr, copyChunks_eq, copyStrings_eq, copyCitations_eq]


theorem chatStages_chat (creq : ClientRequest) (res : Except GoError ClientResponse) :
    chatStages [Call.chat creq res] = [stageOfRequest creq] := rfl

theorem CreateEmbeddings_eq {σ : Type} (C : Collaborators σ) (data : List String)
    (w : World σ) : CreateEmbeddings C data w = clientCreateEmbedding C data w := by
  unfold CreateEmbeddings
  rcases h : clientCreateEmbedding C data w with ⟨r, w1⟩
  cases r <;> rfl

/-- The calls of `fetchChunks`: the embedding call on the question, then at most
the vector search; no chat call. -/
theorem fetchChunks_log {σ : Type} (s : Service) (C : Collaborators σ) (q : String)
    (topK : Int) (w w1 : World σ) (r : Except GoError (List Chunk))
    (h : s.fetchChunks C q topK w = (r, w1)) :
    ∃ res rest, w1.log = w.log ++ Call.embedding [q] res :: rest ∧ chatStages rest = [] := by
  unfold Service.fetchChunks at h
  rw [CreateEmbeddings_eq] at h
  unfold clientCreateEmbedding at h
  simp only at h
  cases hres : (C.CreateEmbedding [q] w.st).1 with
  | error err =>
    rw [hres] at h
    simp only [Prod.mk.injEq] at h
    refine ⟨.error err, [], ?_, rfl⟩
    rw [← h.2]
  | ok vectors =>
    rw [hres] at h
    cases vectors with
    | nil =>
      simp only [Prod.mk.injEq] at h
      refine ⟨.ok [], [], ?_, rfl⟩
      rw [← h.2]
    | cons v0 vs =>
      simp only at h
      unfold vectorSearch at h
      simp only at h
      generalize C.Search s.collection v0 (if topK ≤ 0 then s.defaultTopK else topK)
        (C.CreateEmbedding [q] w.st).2 = sr at h
      rcases sr with ⟨sres, st2⟩
      refine ⟨.ok (v0 :: vs), [Call.search s.collection v0
        (if topK ≤ 0 then s.defaultTopK else topK) sres], ?_, rfl⟩
      cases sres with
      | error err =>
        simp only [Prod.mk.injEq] at h
        rw [← h.2]; simp
      | ok hits =>
        simp only [Prod.mk.injEq] at h
        rw [← h.2]; simp

theorem generateAnswer_log {σ : Type} (s : Service) (C : Collaborators σ) (J : JSONLib)
    (q ctx chunks : String) (w w1 : World σ) (r : Except GoError answerResult)
    (h : s.generateAnswer C J q ctx chunks w = (r, w1)) :
    ∃ creq res, w1.log = w.log ++ [Call.chat creq res] ∧ stageOfRequest creq = Stage.answer := by
  have hl := chat_log_eq s C answerSystemPrompt (buildAnswerUserPrompt q ctx chunks)
    answerMaxTokens "answer" w
  unfold Service.generateAnswer at h
  simp only at h
  refine ⟨chatRequest s answerSystemPrompt (buildAnswerUserPrompt q ctx chunks),
    (C.CreateChatCompletion (chatRequest s answerSystemPrompt
      (buildAnswerUserPrompt q ctx chunks)) w.st).1, ?_, stageOfRequest_answer s _⟩
  split at h
  · rename_i hc
    rw [hc] at hl
    simp only [Prod.mk.injEq] at h
    rw [← h.2]; exact hl
  · rename_i hc
    rw [hc] at hl
    simp only [Prod.mk.injEq] at h
    rw [← h.2]; exact hl

theorem rewriteAnswer_log {σ : Type} (s : Service) (C : Collaborators σ) (J : JSONLib)
    (q ctx chunks a : String) (v : ValidationResult) (w w1 : World σ)
    (r : Except GoError answerResult)
    (h : s.rewriteAnswer C J q ctx chunks a v w = (r, w1)) :
    ∃ creq res, w1.log = w.log ++ [Call.chat creq res] ∧
      stageOfRequest creq = Stage.answerRewrite := by
  have hl := chat_log_eq s C answerRewriteSystemPrompt
    (buildAnswerRewriteUserPrompt q ctx chunks a (buildValidationFeedback J v))
    answerMaxTokens "answer_rewrite" w
  unfold Service.rewriteAnswer at h
  simp only at h
  refine ⟨chatRequest s answerRewriteSystemPrompt
    (buildAnswerRewriteUserPrompt q ctx chunks a (buildValidationFeedback J v)),
    (C.CreateChatCompletion (chatRequest s answerRewriteSystemPrompt
      (buildAnswerRewriteUserPrompt q ctx chunks a (buildValidationFeedback J v))) w.st).1,
    ?_, stageOfRequest_answerRewrite s _⟩
  split at h
  · rename_i hc
    rw [hc] at hl
    simp only [Prod.mk.injEq] at h
    rw [← h.2]; exact hl
  · rename_i hc
    rw [hc] at hl
    simp only [Prod.mk.injEq] at h
    rw [← h.2]; exact hl

/-- The calls of `validateAnswer`: none when the answer text is blank or the
sentinel, and otherwise the one chat call of the validation stage. -/
theorem validateAnswer_log_stage {σ : Type} (s : Service) (C : Collaborators σ) (J : JSONLib)
    (q a chunks : String) (w w1 : World σ) (r : Except GoError ValidationResult)
    (h : s.validateAnswer C J q a chunks w = (r, w1)) :
    ((TrimSpace a = "" ∨ TrimSpace a = unknownAnswer) ∧ w1 = w) ∨
    (TrimSpace a ≠ "" ∧ TrimSpace a ≠ unknownAnswer ∧
      ∃ creq res, w1.log = w.log ++ [Call.chat creq res] ∧
        stageOfRequest creq = Stage.validation) := by
  have hl := chat_log_eq s C validationSystemPrompt (buildValidationUserPrompt q a chunks)
    validationMaxTokens "validation" w
  unfold Service.validateAnswer at h
  simp only at h
  by_cases h1 : TrimSpace a = ""
  · left
    simp only [h1, beq_self_eq_true, if_true, Prod.mk.injEq] at h
    exact ⟨Or.inl h1, h.2.symm⟩
  · by_cases h2 : TrimSpace a = unknownAnswer
    · left
      have hne : unknownAnswer ≠ "" := by decide
      simp only [h2, beq_self_eq_true, if_true, Prod.mk.injEq] at h
      rw [if_neg (by simpa using hne)] at h
      simp only [Prod.mk.injEq] at h
      exact ⟨Or.inr h2, h.2.symm⟩
    · right
      refine ⟨h1, h2, chatRequest s validationSystemPrompt (buildValidationUserPrompt q a chunks),
        (C.CreateChatCompletion (chatRequest s validationSystemPrompt
          (buildValidationUserPrompt q a chunks)) w.st).1, ?_, stageOfRequest_validation s _⟩
      rw [if_neg (by simpa using h1), if_neg (by simpa using h2)] at h
      split at h
      · rename_i hc
        rw [hc] at hl
        simp only [Prod.mk.injEq] at h
        rw [← h.2]; exact hl
      · rename_i hc
        rw [hc] at hl
        split at h
        · simp only [Prod.mk.injEq] at h
          rw [← h.2]; exact hl
        · split at h <;>
          · simp only [Prod.mk.injEq] at h
            rw [← h.2]; exact hl

theorem chatStages_embedding (texts : List String)
    (res : Except GoError (List (List float32))) (rest : List Call) :
    chatStages (Call.embedding texts res :: rest) = chatStages rest := rfl

/-- The calls made up to the end of a validation stage that returned: the
embedding call, what else `fetchChunks` called (no chat), the generation chat
call, and a validation chat call unless validation was short-circuited. -/
theorem ValidationReturned_log {σ : Type} (s : Service) (C : Collaborators σ) (J : JSONLib)
    (req : Request) (w : World σ) (chunks : List Chunk) (answer : answerResult)
    (v : ValidationResult) (w3 : World σ)
    (h : ValidationReturned s C J req w chunks answer v w3) :
    ∃ res rest greq gres vl,
      w3.log = w.log ++ Call.embedding [TrimSpace req.Question] res ::
        (rest ++ [Call.chat greq gres] ++ vl) ∧
      chatStages rest = [] ∧ stageOfRequest greq = Stage.answer ∧
      (chatStages vl = [] ∨ chatStages vl = [Stage.validation]) := by
  obtain ⟨_, w1, w2, hf, hg, hv⟩ := h
  obtain ⟨res, rest, hl1, hs1⟩ := fetchChunks_log s C _ _ w w1 _ hf
  obtain ⟨greq, gres, hl2, hs2⟩ := generateAnswer_log s C J _ _ _ w1 w2 _ hg
  rcases validateAnswer_log_stage s C J _ _ _ w2 w3 _ hv with ⟨_, hw⟩ | ⟨_, _, vreq, vres, hl3, hs3⟩
  · refine ⟨res, rest, greq, gres, [], ?_, hs1, hs2, Or.inl rfl⟩
    rw [hw, hl2, hl1]; simp
  · refine ⟨res, rest, greq, gres, [Call.chat vreq vres], ?_, hs1, hs2, Or.inr ?_⟩
    · rw [hl3, hl2, hl1]; simp
    · rw [chatStages_chat, hs3]

/-- The calls of a run of `Answer`: none for a blank question; otherwise the
embedding call first, and among all calls at most one generation, one validation
and one correction chat call, in this order. -/
theorem Answer_log {σ : Type} (s : Service) (C : Collaborators σ) (J : JSONLib)
    (req : Request) (w : World σ) :
    ∃ new, (s.Answer C J req w).2.log = w.log ++ new ∧
      List.Sublist (chatStages new) [Stage.answer, Stage.validation, Stage.answerRewrite] ∧
      (TrimSpace req.Question = "" → new = []) ∧
      (TrimSpace req.Question ≠ "" →
        ∃ res rest, new = Call.embedding [TrimSpace req.Question] res :: rest) := by
  rcases Answer_cases s C J req w with
    ⟨hq, ha⟩ | ⟨hq, e, w1, hf, ha⟩ | ⟨hq, chunks, w1, e, w2, hf, hg, ha⟩ |
    ⟨hq, chunks, w1, answer, w2, e, w3, hf, hg, hv, ha⟩ |
    ⟨chunks, answer, v, w3, hvr, _, resp, ha, _⟩ |
    ⟨chunks, answer, v, w3, hvr, _, e, w4, hr, ha⟩ |
    ⟨chunks, answer, v, w3, hvr, _, rewritten, w4, hr, resp, ha, _⟩
  · refine ⟨[], by rw [ha]; simp, by decide, fun _ => rfl, fun h => absurd hq h⟩
  · obtain ⟨res, rest, hl1, hs1⟩ := fetchChunks_log s C _ _ w w1 _ hf
    refine ⟨_, by rw [ha]; exact hl1, ?_, fun h => absurd h hq, fun _ => ⟨res, rest, rfl⟩⟩
    rw [chatStages_embedding, hs1]; decide
  · obtain ⟨res, rest, hl1, hs1⟩ := fetchChunks_log s C _ _ w w1 _ hf
    obtain ⟨greq, gres, hl2, hs2⟩ := generateAnswer_log s C J _ _ _ w1 w2 _ hg
    refine ⟨Call.embedding [TrimSpace req.Question] res :: (rest ++ [Call.chat greq gres]),
      by rw [ha]; simp [hl2, hl1], ?_, fun h => absurd h hq, fun _ => ⟨res, _, rfl⟩⟩
    rw [chatStages_embedding, chatStages_append, hs1, chatStages_chat, hs2]; decide
  · obtain ⟨res, rest, hl1, hs1⟩ := fetchChunks_log s C _ _ w w1 _ hf
    obtain ⟨greq, gres, hl2, hs2⟩ := generateAnswer_log s C J _ _ _ w1 w2 _ hg
    rcases validateAnswer_log_stage s C J _ _ _ w2 w3 _ hv with
      ⟨_, hw⟩ | ⟨_, _, vreq, vres, hl3, hs3⟩
    · refine ⟨Call.embedding [TrimSpace req.Question] res :: (rest ++ [Call.chat greq gres]),
        by rw [ha]; simp [hw, hl2, hl1], ?_, fun h => absurd h hq, fun _ => ⟨res, _, rfl⟩⟩
      rw [chatStages_embedding, chatStages_append, hs1, chatStages_chat, hs2]; decide
    · refine ⟨Call.embedding [TrimSpace req.Question] res ::
          (rest ++ [Call.chat greq gres] ++ [Call.chat vreq vres]),
        by rw [ha]; simp [hl3, hl2, hl1], ?_, fun h => absurd h hq, fun _ => ⟨res, _, rfl⟩⟩
      rw [chatStages_embedding, chatStages_append, chatStages_append, hs1, chatStages_chat,
        chatStages_chat, hs2, hs3]
      decide
  · obtain ⟨res, rest, greq, gres, vl, hl, hs1, hs2, hs3⟩ :=
      ValidationReturned_log s C J req w chunks answer v w3 hvr
    refine ⟨_, by rw [ha]; exact hl, ?_, fun h => absurd h hvr.1, fun _ => ⟨res, _, rfl⟩⟩
    rw [chatStages_embedding, chatStages_append, chatStages_append, hs1, chatStages_chat, hs2]
    rcases hs3 with hs3 | hs3 <;> rw [hs3] <;> decide
  · obtain ⟨res, rest, greq, gres, vl, hl, hs1, hs2, hs3⟩ :=
      ValidationReturned_log s C J req w chunks answer v w3 hvr
    obtain ⟨rreq, rres, hl4, hs4⟩ := rewriteAnswer_log s C J _ _ _ _ _ w3 w4 _ hr
    refine ⟨Call.embedding [TrimSpace req.Question] res ::
        (rest ++ [Call.chat greq gres] ++ vl ++ [Call.chat rreq rres]),
      by rw [ha]; simp [hl4, hl], ?_, fun h => absurd h hvr.1, fun _ => ⟨res, _, rfl⟩⟩
    rw [chatStages_embedding, chatStages_append, chatStages_append, chatStages_append, hs1,
      chatStages_chat, chatStages_chat, hs2, hs4]
    rcases hs3 with hs3 | hs3 <;> rw [hs3] <;> decide
  · obtain ⟨res, rest, greq, gres, vl, hl, hs1, hs2, hs3⟩ :=
      ValidationReturned_log s C J req w chunks answer v w3 hvr
    obtain ⟨rreq, rres, hl4, hs4⟩ := rewriteAnswer_log s C J _ _ _ _ _ w3 w4 _ hr
    refine ⟨Call.embedding [TrimSpace req.Question] res ::
        (rest ++ [Call.chat greq gres] ++ vl ++ [Call.chat rreq rres]),
      by rw [ha]; simp [hl4, hl], ?_, fun h => absurd h hvr.1, fun _ => ⟨res, _, rfl⟩⟩
    rw [chatStages_embedding, chatStages_append, chatStages_append, chatStages_append, hs1,
      chatStages_chat, chatStages_chat, hs2, hs4]
    rcases hs3 with hs3 | hs3 <;> rw [hs3] <;> decide

/-! ## Input check and retrieval -/

/-- C12. An empty question is rejected before any collaborator call: when the
question is empty after trimming, `Answer` returns the error "question is
empty" and leaves the world (collaborator state and call log) as it was; when it
is not, the check lets the run through to the embedding call on the trimmed
question, which is the first call logged. -/
theorem Answer_empty_question {σ : Type} (s : Service) (C : Collaborators σ) (J : JSONLib)
    (req : Request) (w : World σ) :
    (TrimSpace req.Question = "" →
      s.Answer C J req w = (.error (errorsNew "question is empty"), w)) ∧
    (TrimSpace req.Question ≠ "" →
      ∃ res rest, (s.Answer C J req w).2.log =
        w.log ++ Call.embedding [TrimSpace req.Question] res :: rest) := by
  constructor
  · intro hq
    unfold Service.Answer
    simp [hq]
  · intro hq
    obtain ⟨new, hlog, _, _, hne⟩ := Answer_log s C J req w
    obtain ⟨res, rest, hnew⟩ := hne hq
    exact ⟨res, rest, by rw [hlog, hnew]⟩

theorem Answer_empty_question_witness :
    demoService.Answer (scripted [[0]] demoHits) referenceJSON
        { Question := " \n\t", History := [], DialogContext := "", TopK := 3 }
        { st := [replyGrounded, replyValid], log := [] } =
      (.error (errorsNew "question is empty"), { st := [replyGrounded, replyValid], log := [] }) ∧
    ∃ res rest, (demoRun [replyGrounded, replyValid]).2.log =
      [] ++ Call.embedding ["What is X?"] res :: rest :=
  ⟨(Answer_empty_question demoService (scripted [[0]] demoHits) referenceJSON
      { Question := " \n\t", History := [], DialogContext := "", TopK := 3 }
      { st := [replyGrounded, replyValid], log := [] }).1 (by decide),
   (Answer_empty_question demoService (scripted [[0]] demoHits) referenceJSON demoRequest
      { st := [replyGrounded, replyValid], log := [] }).2 (by decide)⟩

/-- C13. Zero embedding vectors abort the pipeline: for a non-blank question,
when the embedding client succeeds with an empty vector list, `Answer` returns
the error "empty embeddings" and the call log has grown by that embedding call
alone: no vector search and no chat call. -/
theorem Answer_zero_embeddings {σ : Type} (s : Service) (C : Collaborators σ) (J : JSONLib)
    (req : Request) (w : World σ) (st' : σ)
    (hq : TrimSpace req.Question ≠ "")
    (hemb : C.CreateEmbedding [TrimSpace req.Question] w.st = (.ok [], st')) :
    s.Answer C J req w =
      (.error (errorsNew "empty embeddings"),
       { st := st', log := w.log ++ [Call.embedding [TrimSpace req.Question] (.ok [])] }) := by
  have hf : s.fetchChunks C (TrimSpace req.Question) req.TopK w =
      (.error (errorsNew "empty embeddings"),
       { st := st', log := w.log ++ [Call.embedding [TrimSpace req.Question] (.ok [])] }) := by
    unfold Service.fetchChunks
    rw [CreateEmbeddings_eq]
    unfold clientCreateEmbedding
    simp [hemb]
  unfold Service.Answer
  simp [hq, hf]

theorem Answer_zero_embeddings_witness :
    demoService.Answer (scripted [] demoHits) referenceJSON demoRequest
        { st := [replyGrounded, replyValid], log := [] } =
      (.error (errorsNew "empty embeddings"),
       { st := [replyGrounded, replyValid],
         log := [] ++ [Call.embedding [TrimSpace demoRequest.Question] (.ok [])] }) :=
  Answer_zero_embeddings demoService (scripted [] demoHits) referenceJSON demoRequest
    { st := [replyGrounded, replyValid], log := [] } [replyGrounded, replyValid]
    (by decide) rfl

/-! ## validateAnswer -/

/-- C14. Validation short-circuit: on an answer text that is empty after
trimming `validateAnswer` returns `ok = false` with the notes "empty answer
text", on the sentinel it returns `ok = true` with the notes "validation
skipped for unknown answer"; both without error, without unsupported claims, and
with the world unchanged, so without any chat call. -/
theorem validateAnswer_short_circuit {σ : Type} (s : Service) (C : Collaborators σ)
    (J : JSONLib) (question answerText chunks : String) (w : World σ) :
    (TrimSpace answerText = "" →
      s.validateAnswer C J question answerText chunks w =
        (.ok { OK := false, UnsupportedClaims := [], Notes := "empty answer text" }, w)) ∧
    (answerText = unknownAnswer →
      s.validateAnswer C J question answerText chunks w =
        (.ok { OK := true, UnsupportedClaims := [],
               Notes := "validation skipped for unknown answer" }, w)) := by
  constructor
  · intro h
    unfold Service.validateAnswer
    simp [h]
  · intro h
    have ht : TrimSpace answerText = unknownAnswer := by rw [h]; exact TrimSpace_unknownAnswer
    have hne : unknownAnswer ≠ "" := by decide
    unfold Service.validateAnswer
    simp [ht, hne]

theorem validateAnswer_short_circuit_witness :
    demoService.validateAnswer (scripted [[0]] demoHits) referenceJSON "What is X?" "  " "[C1]"
        { st := [replyInvalid], log := [] } =
      (.ok { OK := false, UnsupportedClaims := [], Notes := "empty answer text" },
       { st := [replyInvalid], log := [] }) ∧
    demoService.validateAnswer (scripted [[0]] demoHits) referenceJSON "What is X?"
        unknownAnswer "[C1]" { st := [replyInvalid], log := [] } =
      (.ok { OK := true, UnsupportedClaims := [],
             Notes := "validation skipped for unknown answer" },
       { st := [replyInvalid], log := [] }) :=
  ⟨(validateAnswer_short_circuit demoService (scripted [[0]] demoHits) referenceJSON
      "What is X?" "  " "[C1]" { st := [replyInvalid], log := [] }).1 (by decide),
   (validateAnswer_short_circuit demoService (scripted [[0]] demoHits) referenceJSON
      "What is X?" unknownAnswer "[C1]" { st := [replyInvalid], log := [] }).2 rfl⟩

theorem decodeJSON_trim {α : Type} (u : String → Except GoError α) (raw : String) :
    decodeJSON u (TrimSpace raw) = decodeJSON u raw := by
  unfold decodeJSON
  simp only [TrimSpace_idem]

/-- What `validateAnswer` returns once the answer text is neither blank nor the
sentinel, in terms of the result of its chat call. -/
theorem validateAnswer_of_chat {σ : Type} (s : Service) (C : Collaborators σ) (J : JSONLib)
    (question answerText chunks : String) (w : World σ)
    (hne : TrimSpace answerText ≠ "") (hns : TrimSpace answerText ≠ unknownAnswer) :
    s.validateAnswer C J question answerText chunks w =
      match s.chat C validationSystemPrompt (buildValidationUserPrompt question answerText chunks)
          validationMaxTokens "validation" jsonObjectResponseFormat w with
      | (.error err, w1) => (.error err, w1)
      | (.ok content, w1) =>
        if TrimSpace content = "" then
          (.ok { OK := false, UnsupportedClaims := [], Notes := "empty validator response" }, w1)
        else
          match decodeJSON J.unmarshalValidation content with
          | .error _ =>
            (.ok { OK := false, UnsupportedClaims := [],
                   Notes := "invalid validator response" }, w1)
          | .ok parsed =>
            (.ok { OK := parsed.OK, UnsupportedClaims := parsed.UnsupportedClaims,
                   Notes := parsed.Notes }, w1) := by
  unfold Service.validateAnswer
  simp only [beq_iff_eq, hne, hns, if_false]
  rcases hc : s.chat C validationSystemPrompt (buildValidationUserPrompt question answerText chunks)
      validationMaxTokens "validation" jsonObjectResponseFormat w with ⟨r, w1⟩
  cases r with
  | error err => rfl
  | ok content =>
    simp only
    by_cases hb : TrimSpace content = ""
    · simp [hb]
    · simp only [hb, if_false]
      rw [decodeJSON_trim]
      cases decodeJSON J.unmarshalValidation content with
      | error e => rfl
      | ok parsed => simp [copyStrings_eq]

/-- C15. `validateAnswer` never fails on a bad model response: it returns an
error exactly when the answer text is neither blank nor the sentinel (so that
the chat request is issued, which shows in the call log) and the chat call
returns an error, and then it returns that error; whatever content the chat call
returns successfully, `validateAnswer` returns a `ValidationResult`. -/
theorem validateAnswer_error_iff {σ : Type} (s : Service) (C : Collaborators σ)
    (J : JSONLib) (question answerText chunks : String) (w : World σ) :
    (∀ e, (s.validateAnswer C J question answerText chunks w).1 = .error e ↔
      (TrimSpace answerText ≠ "" ∧ TrimSpace answerText ≠ unknownAnswer) ∧
      (s.chat C validationSystemPrompt (buildValidationUserPrompt question answerText chunks)
        validationMaxTokens "validation" jsonObjectResponseFormat w).1 = .error e) ∧
    ((TrimSpace answerText ≠ "" ∧ TrimSpace answerText ≠ unknownAnswer) ↔
      ∃ creq res, (s.validateAnswer C J question answerText chunks w).2.log =
        w.log ++ [Call.chat creq res]) ∧
    (∀ content w1,
      s.chat C validationSystemPrompt (buildValidationUserPrompt question answerText chunks)
        validationMaxTokens "validation" jsonObjectResponseFormat w = (.ok content, w1) →
      ∃ v, (s.validateAnswer C J question answerText chunks w).1 = .ok v) := by
  have hstage := validateAnswer_log_stage s C J question answerText chunks w
    (s.validateAnswer C J question answerText chunks w).2
    (s.validateAnswer C J question answerText chunks w).1 rfl
  by_cases hne : TrimSpace answerText = ""
  · have hv : s.validateAnswer C J question answerText chunks w =
        (.ok { OK := false, UnsupportedClaims := [], Notes := "empty answer text" }, w) := by
      unfold Service.validateAnswer; simp [hne]
    refine ⟨?_, ?_, ?_⟩
    · intro e; rw [hv]; simp [hne]
    · rw [hv]; simp [hne]
    · intro content w1 _; rw [hv]; exact ⟨_, rfl⟩
  · by_cases hns : TrimSpace answerText = unknownAnswer
    · have hv : s.validateAnswer C J question answerText chunks w =
          (.ok { OK := true, UnsupportedClaims := [],
                 Notes := "validation skipped for unknown answer" }, w) := by
        have hu : unknownAnswer ≠ "" := by decide
        unfold Service.validateAnswer; simp [hns, hu]
      refine ⟨?_, ?_, ?_⟩
      · intro e; rw [hv]; simp [hns]
      · rw [hv]; simp [hns]
      · intro content w1 _; rw [hv]; exact ⟨_, rfl⟩
    · have hv := validateAnswer_of_chat s C J question answerText chunks w hne hns
      refine ⟨?_, ?_, ?_⟩
      · intro e
        rw [hv]
        rcases hc : s.chat C validationSystemPrompt
            (buildValidationUserPrompt question answerText chunks)
            validationMaxTokens "validation" jsonObjectResponseFormat w with ⟨r, w1⟩
        cases r with
        | error err => simp [hne, hns]
        | ok content =>
          simp only [hne, hns, not_false_eq_true, and_self, true_and]
          by_cases hb : TrimSpace content = ""
          · simp [hb]
          · simp only [hb, if_false]
            cases decodeJSON J.unmarshalValidation content <;> simp
      · constructor
        · intro _
          rcases hstage with ⟨hbl, _⟩ | ⟨_, _, creq, res, hl, _⟩
          · rcases hbl with h | h
            · exact absurd h hne
            · exact absurd h hns
          · exact ⟨creq, res, hl⟩
        · intro _; exact ⟨hne, hns⟩
      · intro content w1 hc
        rw [hv, hc]
        simp only
        by_cases hb : TrimSpace content = ""
        · simp [hb]
        · simp only [hb, if_false]
          cases decodeJSON J.unmarshalValidation content <;> exact ⟨_, rfl⟩

theorem validateAnswer_error_iff_witness :
    (demoService.validateAnswer (scripted [[0]] demoHits) referenceJSON "What is X?"
        "X is Y [C1]" "[C1]" { st := [], log := [] }).1 = .error ⟨"script exhausted"⟩ ∧
    ∃ v, (demoService.validateAnswer (scripted [[0]] demoHits) referenceJSON "What is X?"
        "X is Y [C1]" "[C1]" { st := [replyMalformed], log := [] }).1 = .ok v :=
  ⟨((validateAnswer_error_iff demoService (scripted [[0]] demoHits) referenceJSON "What is X?"
        "X is Y [C1]" "[C1]" { st := [], log := [] }).1 ⟨"script exhausted"⟩).mpr
      ⟨⟨by decide, by decide⟩, by rfl⟩,
   (validateAnswer_error_iff demoService (scripted [[0]] demoHits) referenceJSON "What is X?"
        "X is Y [C1]" "[C1]" { st := [replyMalformed], log := [] }).2.2 replyMalformed
      (demoService.chat (scripted [[0]] demoHits) validationSystemPrompt
        (buildValidationUserPrompt "What is X?" "X is Y [C1]" "[C1]") validationMaxTokens
        "validation" jsonObjectResponseFormat { st := [replyMalformed], log := [] }).2
      (by rfl)⟩

/-- C16. Validation fails closed: for an answer text that is neither blank nor
the sentinel, when the chat call succeeds with a body that is empty after
trimming `validateAnswer` returns `ok = false` with the notes "empty validator
response", and when the body is not empty but `decodeJSON` fails on it
`validateAnswer` returns `ok = false` with the notes "invalid validator
response"; no error and no `ok = true` in either case. -/
theorem validateAnswer_fails_closed {σ : Type} (s : Service) (C : Collaborators σ)
    (J : JSONLib) (question answerText chunks content : String) (w w1 : World σ)
    (hne : TrimSpace answerText ≠ "") (hns : TrimSpace answerText ≠ unknownAnswer)
    (hchat : s.chat C validationSystemPrompt
      (buildValidationUserPrompt question answerText chunks) validationMaxTokens "validation"
      jsonObjectResponseFormat w = (.ok content, w1)) :
    (TrimSpace content = "" →
      s.validateAnswer C J question answerText chunks w =
        (.ok { OK := false, UnsupportedClaims := [], Notes := "empty validator response" }, w1)) ∧
    (TrimSpace content ≠ "" → ∀ e, decodeJSON J.unmarshalValidation content = .error e →
      s.validateAnswer C J question answerText chunks w =
        (.ok { OK := false, UnsupportedClaims := [],
               Notes := "invalid validator response" }, w1)) := by
  have hv := validateAnswer_of_chat s C J question answerText chunks w hne hns
  rw [hchat] at hv
  constructor
  · intro hb
    rw [hv]; simp [hb]
  · intro hb e hd
    rw [hv]; simp [hb, hd]

theorem validateAnswer_fails_closed_witness :
    demoService.validateAnswer (scripted [[0]] demoHits) referenceJSON "What is X?"
        "X is Y [C1]" "[C1]" { st := [" \n "], log := [] } =
      (.ok { OK := false, UnsupportedClaims := [], Notes := "empty validator response" },
       (demoService.chat (scripted [[0]] demoHits) validationSystemPrompt
        (buildValidationUserPrompt "What is X?" "X is Y [C1]" "[C1]") validationMaxTokens
        "validation" jsonObjectResponseFormat { st := [" \n "], log := [] }).2) ∧
    demoService.validateAnswer (scripted [[0]] demoHits) referenceJSON "What is X?"
        "X is Y [C1]" "[C1]" { st := [replyMalformed], log := [] } =
      (.ok { OK := false, UnsupportedClaims := [], Notes := "invalid validator response" },
       (demoService.chat (scripted [[0]] demoHits) validationSystemPrompt
        (buildValidationUserPrompt "What is X?" "X is Y [C1]" "[C1]") validationMaxTokens
        "validation" jsonObjectResponseFormat { st := [replyMalformed], log := [] }).2) :=
  ⟨(validateAnswer_fails_closed demoService (scripted [[0]] demoHits) referenceJSON
      "What is X?" "X is Y [C1]" "[C1]" " \n " { st := [" \n "], log := [] } _
      (by decide) (by decide) (by rfl)).1 (by decide),
   (validateAnswer_fails_closed demoService (scripted [[0]] demoHits) referenceJSON
      "What is X?" "X is Y [C1]" "[C1]" replyMalformed { st := [replyMalformed], log := [] } _
      (by decide) (by decide) (by rfl)).2 (by decide) syntaxError (by rfl)⟩

/-! ## After validation -/

theorem normalizeAnswer_text_trimmed (p : answerResult) :
    TrimSpace (normalizeAnswer p).Text = (normalizeAnswer p).Text := by
  rcases normalizeAnswer_cases p with hn | ⟨hn, _⟩
  · rw [hn]; exact TrimSpace_unknownAnswer
  · rw [hn]; exact TrimSpace_idem p.Text

/-- When validation returned `ok = true`, `Answer` returns at once, with the
generated answer. -/
theorem Answer_of_passed {σ : Type} (s : Service) (C : Collaborators σ) (J : JSONLib)
    (req : Request) (w : World σ) (chunks : List Chunk) (answer : answerResult)
    (v : ValidationResult) (w3 : World σ)
    (hvr : ValidationReturned s C J req w chunks answer v w3) (hok : v.OK = true) :
    ∃ resp, s.Answer C J req w = (.ok resp, w3) ∧
      resp.Chunks = chunks ∧ resp.Validation = v ∧ resp.Answer = TrimSpace answer.Text ∧
      resp.CitationsUsed = answer.CitationsUsed ∧ resp.Citations = answer.Citations := by
  obtain ⟨hq, w1, w2, hf, hg, hv⟩ := hvr
  unfold Service.Answer
  simp [hq, hf, hg, hv, hok, copyChunks_eq, copyStrings_eq, copyCitations_eq]

/-- When validation returned `ok = false`, `Answer` runs the correction stage
and returns its error, or a response with the corrected answer. -/
theorem Answer_of_failed {σ : Type} (s : Service) (C : Collaborators σ) (J : JSONLib)
    (req : Request) (w : World σ) (chunks : List Chunk) (answer : answerResult)
    (v : ValidationResult) (w3 : World σ)
    (hvr : ValidationReturned s C J req w chunks answer v w3) (hok : v.OK = false)
    (r : Except GoError answerResult) (w4 : World σ)
    (hr : s.rewriteAnswer C J (TrimSpace req.Question) (resolveDialogContext req)
      (formatChunks chunks) (TrimSpace answer.Text) v w3 = (r, w4)) :
    (s.Answer C J req w).2 = w4 ∧
    (∀ e, r = .error e → (s.Answer C J req w).1 = .error e) ∧
    (∀ rewritten, r = .ok rewritten → ∃ resp, (s.Answer C J req w).1 = .ok resp ∧
      resp.Chunks = chunks ∧ resp.Validation = v ∧ resp.Answer = TrimSpace rewritten.Text ∧
      resp.CitationsUsed = rewritten.CitationsUsed ∧ resp.Citations = rewritten.Citations) := by
  obtain ⟨hq, w1, w2, hf, hg, hv⟩ := hvr
  unfold Service.Answer
  cases r with
  | error e =>
    simp [hq, hf, hg, hv, hok, hr]
  | ok rewritten =>
    simp [hq, hf, hg, hv, hok, hr, copyChunks_eq, copyStrings_eq, copyCitations_eq]

theorem chat_call_eq {l : List Call} {r1 r2 : ClientRequest}
    {x1 x2 : Except GoError ClientResponse}
    (h : l ++ [Call.chat r1 x1] = l ++ [Call.chat r2 x2]) : r1 = r2 ∧ x1 = x2 := by
  have h' := List.append_cancel_left h
  simp only [List.cons.injEq, Call.chat.injEq, and_true] at h'
  exact h'

/-- A successful generation stage made the one chat call of stage `answer` and
returns the normalised decoding of the first choice of its reply. -/
theorem generateAnswer_ok_stage {σ : Type} (s : Service) (C : Collaborators σ) (J : JSONLib)
    (q ctx chunks : String) (w w1 : World σ) (a : answerResult)
    (h : s.generateAnswer C J q ctx chunks w = (.ok a, w1)) :
    ∃ creq cresp choice rest p,
      w1.log = w.log ++ [Call.chat creq (.ok cresp)] ∧ stageOfRequest creq = Stage.answer ∧
      cresp.Choices = choice :: rest ∧
      decodeJSON J.unmarshalAnswer choice.Content = .ok p ∧ a = normalizeAnswer p := by
  obtain ⟨creq, cresp, choice, rest, p, hl, hch, hdec, ha⟩ :=
    generateAnswer_ok s C J q ctx chunks w w1 a h
  obtain ⟨creq', res', hl', hs'⟩ := generateAnswer_log s C J q ctx chunks w w1 _ h
  have := (chat_call_eq (hl.symm.trans hl')).1
  subst this
  exact ⟨creq, cresp, choice, rest, p, hl, hs', hch, hdec, ha⟩

/-- A successful correction stage made the one chat call of stage
`answer_rewrite` and returns the normalised decoding of the first choice of its
reply. -/
theorem rewriteAnswer_ok_stage {σ : Type} (s : Service) (C : Collaborators σ) (J : JSONLib)
    (q ctx chunks a : String) (v : ValidationResult) (w w1 : World σ) (r : answerResult)
    (h : s.rewriteAnswer C J q ctx chunks a v w = (.ok r, w1)) :
    ∃ creq cresp choice rest p,
      w1.log = w.log ++ [Call.chat creq (.ok cresp)] ∧
      stageOfRequest creq = Stage.answerRewrite ∧ cresp.Choices = choice :: rest ∧
      decodeJSON J.unmarshalAnswer choice.Content = .ok p ∧ r = normalizeAnswer p := by
  obtain ⟨creq, cresp, choice, rest, p, hl, hch, hdec, ha⟩ :=
    rewriteAnswer_ok s C J q ctx chunks a v w w1 r h
  obtain ⟨creq', res', hl', hs'⟩ := rewriteAnswer_log s C J q ctx chunks a v w w1 _ h
  have := (chat_call_eq (hl.symm.trans hl')).1
  subst this
  exact ⟨creq, cresp, choice, rest, p, hl, hs', hch, hdec, ha⟩

theorem not_mem_chatStages_nil (x : Stage) : x ∉ chatStages [] := by
  simp [chatStages]

/-- C18. No correction when validation passes: when the validation stage of a
run returns `ok = true`, `Answer` returns a `Response` right after it, no
correction chat call is among the calls of the run, the `Response` has
`Validation.OK = true`, and its `Answer`, `CitationsUsed` and `Citations` are
those of the generation output, the normalised decoding of the reply to the
generation chat call. In every run a correction chat call is made exactly when
the validation stage returned `ok = false`. -/
theorem Answer_validation_passed {σ : Type} (s : Service) (C : Collaborators σ)
    (J : JSONLib) (req : Request) (w : World σ) :
    (∀ chunks answer v w3, ValidationReturned s C J req w chunks answer v w3 → v.OK = true →
      ∃ resp new, s.Answer C J req w = (.ok resp, w3) ∧ w3.log = w.log ++ new ∧
        Stage.answerRewrite ∉ chatStages new ∧ resp.Validation.OK = true ∧
        resp.Answer = answer.Text ∧ resp.CitationsUsed = answer.CitationsUsed ∧
        resp.Citations = answer.Citations ∧
        ∃ creq cresp choice rest p,
          Call.chat creq (.ok cresp) ∈ new ∧ stageOfRequest creq = Stage.answer ∧
          cresp.Choices = choice :: rest ∧
          decodeJSON J.unmarshalAnswer choice.Content = .ok p ∧ answer = normalizeAnswer p) ∧
    (∀ new, (s.Answer C J req w).2.log = w.log ++ new →
      (Stage.answerRewrite ∈ chatStages new ↔
        ∃ chunks answer v w3, ValidationReturned s C J req w chunks answer v w3 ∧
          v.OK = false)) := by
  constructor
  · intro chunks answer v w3 hvr hok
    obtain ⟨resp, ha, _, hval, hans, hcu, hci⟩ :=
      Answer_of_passed s C J req w chunks answer v w3 hvr hok
    obtain ⟨_, w1, w2, hf, hg, hv⟩ := hvr
    obtain ⟨res, fl, hl1, hs1⟩ := fetchChunks_log s C _ _ w w1 _ hf
    obtain ⟨creq, cresp, choice, rest, p, hl2, hs2, hch, hdec, hp⟩ :=
      generateAnswer_ok_stage s C J _ _ _ w1 w2 answer hg
    have hansw : resp.Answer = answer.Text := by
      rw [hans, hp]; exact normalizeAnswer_text_trimmed p
    rcases validateAnswer_log_stage s C J _ _ _ w2 w3 _ hv with
      ⟨_, hw⟩ | ⟨_, _, vreq, vres, hl3, hs3⟩
    · refine ⟨resp, Call.embedding [TrimSpace req.Question] res ::
          (fl ++ [Call.chat creq (.ok cresp)]), ha, ?_, ?_, ?_, hansw, hcu, hci,
        creq, cresp, choice, rest, p, ?_, hs2, hch, hdec, hp⟩
      · rw [hw, hl2, hl1]; simp
      · rw [chatStages_embedding, chatStages_append, hs1, chatStages_chat, hs2]; decide
      · rw [hval]; exact hok
      · simp
    · refine ⟨resp, Call.embedding [TrimSpace req.Question] res ::
          (fl ++ [Call.chat creq (.ok cresp)] ++ [Call.chat vreq vres]), ha, ?_, ?_, ?_,
        hansw, hcu, hci, creq, cresp, choice, rest, p, ?_, hs2, hch, hdec, hp⟩
      · rw [hl3, hl2, hl1]; simp
      · rw [chatStages_embedding, chatStages_append, chatStages_append, hs1, chatStages_chat,
          chatStages_chat, hs2, hs3]
        decide
      · rw [hval]; exact hok
      · simp
  · intro new hnew
    constructor
    · intro hmem
      rcases Answer_cases s C J req w with
        ⟨hq, ha⟩ | ⟨hq, e, w1, hf, ha⟩ | ⟨hq, chunks, w1, e, w2, hf, hg, ha⟩ |
        ⟨hq, chunks, w1, answer, w2, e, w3, hf, hg, hv, ha⟩ |
        ⟨chunks, answer, v, w3, hvr, hok, resp, ha, _⟩ |
        ⟨chunks, answer, v, w3, hvr, hok, e, w4, hr, ha⟩ |
        ⟨chunks, answer, v, w3, hvr, hok, rewritten, w4, hr, resp, ha, _⟩
      · exfalso
        rw [ha] at hnew
        have : new = [] := by
          have h' : w.log ++ [] = w.log ++ new := by simpa using hnew
          exact (List.append_cancel_left h').symm
        rw [this] at hmem
        exact not_mem_chatStages_nil _ hmem
      · exfalso
        obtain ⟨res, fl, hl1, hs1⟩ := fetchChunks_log s C _ _ w w1 _ hf
        rw [ha] at hnew
        have := List.append_cancel_left (hnew.symm.trans hl1)
        rw [this, chatStages_embedding, hs1] at hmem
        simp at hmem
      · exfalso
        obtain ⟨res, fl, hl1, hs1⟩ := fetchChunks_log s C _ _ w w1 _ hf
        obtain ⟨greq, gres, hl2, hs2⟩ := generateAnswer_log s C J _ _ _ w1 w2 _ hg
        rw [ha] at hnew
        have hl : w2.log = w.log ++
            Call.embedding [TrimSpace req.Question] res :: (fl ++ [Call.chat greq gres]) := by
          rw [hl2, hl1]; simp
        have := List.append_cancel_left (hnew.symm.trans hl)
        rw [this, chatStages_embedding, chatStages_append, hs1, chatStages_chat, hs2] at hmem
        revert hmem; decide
      · exfalso
        obtain ⟨res, fl, hl1, hs1⟩ := fetchChunks_log s C _ _ w w1 _ hf
        obtain ⟨greq, gres, hl2, hs2⟩ := generateAnswer_log s C J _ _ _ w1 w2 _ hg
        rw [ha] at hnew
        rcases validateAnswer_log_stage s C J _ _ _ w2 w3 _ hv with
          ⟨_, hw⟩ | ⟨_, _, vreq, vres, hl3, hs3⟩
        · have hl : w3.log = w.log ++
              Call.embedding [TrimSpace req.Question] res :: (fl ++ [Call.chat greq gres]) := by
            rw [hw, hl2, hl1]; simp
          have := List.append_cancel_left (hnew.symm.trans hl)
          rw [this, chatStages_embedding, chatStages_append, hs1, chatStages_chat, hs2] at hmem
          revert hmem; decide
        · have hl : w3.log = w.log ++ Call.embedding [TrimSpace req.Question] res ::
              (fl ++ [Call.chat greq gres] ++ [Call.chat vreq vres]) := by
            rw [hl3, hl2, hl1]; simp
          have := List.append_cancel_left (hnew.symm.trans hl)
          rw [this, chatStages_embedding, chatStages_append, chatStages_append, hs1,
            chatStages_chat, chatStages_chat, hs2, hs3] at hmem
          revert hmem; decide
      · exfalso
        obtain ⟨res, fl, greq, gres, vl, hl, hs1, hs2, hs3⟩ :=
          ValidationReturned_log s C J req w chunks answer v w3 hvr
        rw [ha] at hnew
        have := List.append_cancel_left (hnew.symm.trans hl)
        rw [this, chatStages_embedding, chatStages_append, chatStages_append, hs1,
          chatStages_chat, hs2] at hmem
        rcases hs3 with hs3 | hs3 <;> rw [hs3] at hmem <;> revert hmem <;> decide
      · exact ⟨chunks, answer, v, w3, hvr, hok⟩
      · exact ⟨chunks, answer, v, w3, hvr, hok⟩
    · rintro ⟨chunks, answer, v, w3, hvr, hok⟩
      obtain ⟨hw4, _, _⟩ := Answer_of_failed s C J req w chunks answer v w3 hvr hok _ _ rfl
      obtain ⟨rreq, rres, hl4, hs4⟩ := rewriteAnswer_log s C J _ _ _ _ _ w3 _ _
        (rfl : s.rewriteAnswer C J (TrimSpace req.Question) (resolveDialogContext req)
          (formatChunks chunks) (TrimSpace answer.Text) v w3 = (_, _))
      obtain ⟨res, fl, greq, gres, vl, hl, _, _, _⟩ :=
        ValidationReturned_log s C J req w chunks answer v w3 hvr
      rw [hw4, hl4, hl] at hnew
      have hl' : w.log ++ Call.embedding [TrimSpace req.Question] res ::
            (fl ++ [Call.chat greq gres] ++ vl) ++ [Call.chat rreq rres] =
          w.log ++ (Call.embedding [TrimSpace req.Question] res ::
            (fl ++ [Call.chat greq gres] ++ vl) ++ [Call.chat rreq rres]) := by simp
      have := List.append_cancel_left (hl'.symm.trans hnew)
      rw [← this, chatStages_append, chatStages_chat, hs4]
      simp

set_option maxRecDepth 100000 in
theorem Answer_validation_passed_witness :
    (∃ resp new, demoRun [replyGrounded, replyValid] =
        (.ok resp, (demoRun [replyGrounded, replyValid]).2) ∧
      (demoRun [replyGrounded, replyValid]).2.log = [] ++ new ∧
      Stage.answerRewrite ∉ chatStages new ∧ resp.Validation.OK = true ∧
      resp.Answer = "X is Y [C1]" ∧ resp.CitationsUsed = ["C1"] ∧
      resp.Citations = [⟨"C1", "X is Y", ""⟩] ∧
      ∃ creq cresp choice rest p,
        Call.chat creq (.ok cresp) ∈ new ∧ stageOfRequest creq = Stage.answer ∧
        cresp.Choices = choice :: rest ∧
        decodeJSON referenceJSON.unmarshalAnswer choice.Content = .ok p ∧
        (⟨"X is Y [C1]", ["C1"], [⟨"C1", "X is Y", ""⟩]⟩ : answerResult) =
          normalizeAnswer p) ∧
    chatStages (demoRun [replyGrounded, replyValid]).2.log = [Stage.answer, Stage.validation] :=
  ⟨(Answer_validation_passed demoService (scripted [[0]] demoHits) referenceJSON demoRequest
      { st := [replyGrounded, replyValid], log := [] }).1 demoChunks
      ⟨"X is Y [C1]", ["C1"], [⟨"C1", "X is Y", ""⟩]⟩ ⟨true, [], ""⟩
      (demoRun [replyGrounded, replyValid]).2
      ⟨by decide, _, _, by rfl, by rfl, by rfl⟩ rfl,
   by rfl⟩

/-- In a list of stages that keeps the order generation, validation, correction,
no validation comes after a correction. -/
theorem no_validation_after_rewrite (x y : List Stage)
    (h : List.Sublist (x ++ y) [Stage.answer, Stage.validation, Stage.answerRewrite])
    (hx : Stage.answerRewrite ∈ x) : Stage.validation ∉ y := by
  have hp : List.Pairwise (fun a b => a = Stage.answerRewrite → b ≠ Stage.validation)
      [Stage.answer, Stage.validation, Stage.answerRewrite] := by
    simp
  have hp' := (hp.sublist h)
  rw [List.pairwise_append] at hp'
  intro hy
  exact hp'.2.2 _ hx _ hy rfl rfl

/-- C19. Bounded single retry: the chat calls of a run of `Answer` are at most
three, and their stages, in call order, form a sublist of generation,
validation, correction: at most one of each, in this order; in particular no
validation call follows a correction call. -/
theorem Answer_bounded_retry {σ : Type} (s : Service) (C : Collaborators σ) (J : JSONLib)
    (req : Request) (w : World σ) :
    ∃ new, (s.Answer C J req w).2.log = w.log ++ new ∧
      (chatStages new).length ≤ 3 ∧
      List.Sublist (chatStages new) [Stage.answer, Stage.validation, Stage.answerRewrite] ∧
      (∀ a b, new = a ++ b → Stage.answerRewrite ∈ chatStages a →
        Stage.validation ∉ chatStages b) := by
  obtain ⟨new, hlog, hsub, _, _⟩ := Answer_log s C J req w
  refine ⟨new, hlog, ?_, hsub, ?_⟩
  · simpa using hsub.length_le
  · intro a b hab ha
    apply no_validation_after_rewrite (chatStages a) (chatStages b) _ ha
    rw [← chatStages_append, ← hab]
    exact hsub

set_option maxRecDepth 100000 in
theorem Answer_bounded_retry_witness :
    (∃ new, (demoRun [replyGrounded, replyInvalid, replyStray, replyValid]).2.log = [] ++ new ∧
      (chatStages new).length ≤ 3 ∧
      List.Sublist (chatStages new) [Stage.answer, Stage.validation, Stage.answerRewrite] ∧
      (∀ a b, new = a ++ b → Stage.answerRewrite ∈ chatStages a →
        Stage.validation ∉ chatStages b)) ∧
    chatStages (demoRun [replyGrounded, replyInvalid, replyStray, replyValid]).2.log =
      [Stage.answer, Stage.validation, Stage.answerRewrite] ∧
    (demoRun [replyGrounded, replyInvalid, replyStray, replyValid]).2.st = [replyValid] :=
  ⟨Answer_bounded_retry demoService (scripted [[0]] demoHits) referenceJSON demoRequest
      { st := [replyGrounded, replyInvalid, replyStray, replyValid], log := [] },
   by rfl, by rfl⟩

/-- C20. Malformed generation or correction output is fatal: when the content
returned by the generation chat call fails `decodeJSON`, and when the correction
stage runs (validation returned `ok = false`) and the content returned by its
chat call fails `decodeJSON`, `Answer` returns the decoding error and no
`Response`; it does not fall back to the sentinel answer. -/
theorem Answer_malformed_fatal {σ : Type} (s : Service) (C : Collaborators σ) (J : JSONLib)
    (req : Request) (w : World σ) :
    (∀ chunks w1 content w2 e, TrimSpace req.Question ≠ "" →
      s.fetchChunks C (TrimSpace req.Question) req.TopK w = (.ok chunks, w1) →
      s.chat C answerSystemPrompt
        (buildAnswerUserPrompt (TrimSpace req.Question) (resolveDialogContext req)
          (formatChunks chunks))
        answerMaxTokens "answer" jsonObjectResponseFormat w1 = (.ok content, w2) →
      decodeJSON J.unmarshalAnswer content = .error e →
      s.Answer C J req w = (.error e, w2)) ∧
    (∀ chunks answer v w3 content w4 e,
      ValidationReturned s C J req w chunks answer v w3 → v.OK = false →
      s.chat C answerRewriteSystemPrompt
        (buildAnswerRewriteUserPrompt (TrimSpace req.Question) (resolveDialogContext req)
          (formatChunks chunks) (TrimSpace answer.Text) (buildValidationFeedback J v))
        answerMaxTokens "answer_rewrite" jsonObjectResponseFormat w3 = (.ok content, w4) →
      decodeJSON J.unmarshalAnswer content = .error e →
      s.Answer C J req w = (.error e, w4)) := by
  constructor
  · intro chunks w1 content w2 e hq hf hchat hdec
    have hg : s.generateAnswer C J (TrimSpace req.Question) (resolveDialogContext req)
        (formatChunks chunks) w1 = (.error e, w2) := by
      unfold Service.generateAnswer
      simp [hchat, parseAnswer, hdec]
    unfold Service.Answer
    simp [hq, hf, hg]
  · intro chunks answer v w3 content w4 e hvr hok hchat hdec
    have hr : s.rewriteAnswer C J (TrimSpace req.Question) (resolveDialogContext req)
        (formatChunks chunks) (TrimSpace answer.Text) v w3 = (.error e, w4) := by
      unfold Service.rewriteAnswer
      simp [hchat, parseAnswer, hdec]
    obtain ⟨h2, h1, _⟩ := Answer_of_failed s C J req w chunks answer v w3 hvr hok _ _ hr
    exact Prod.ext (h1 e rfl) h2

theorem Answer_malformed_fatal_witness :
    demoRun [replyMalformed] = (.error syntaxError, (demoRun [replyMalformed]).2) ∧
    demoRun [replyGrounded, replyInvalid, replyMalformed] =
      (.error syntaxError, (demoRun [replyGrounded, replyInvalid, replyMalformed]).2) :=
  ⟨(Answer_malformed_fatal demoService (scripted [[0]] demoHits) referenceJSON demoRequest
      { st := [replyMalformed], log := [] }).1 demoChunks
      (demoService.fetchChunks (scripted [[0]] demoHits) "What is X?" 0
        { st := [replyMalformed], log := [] }).2
      replyMalformed (demoRun [replyMalformed]).2 syntaxError
      (by decide) (by rfl) (by rfl) (by rfl),
   (Answer_malformed_fatal demoService (scripted [[0]] demoHits) referenceJSON demoRequest
      { st := [replyGrounded, replyInvalid, replyMalformed], log := [] }).2 demoChunks
      ⟨"X is Y [C1]", ["C1"], [⟨"C1", "X is Y", ""⟩]⟩ ⟨false, ["X is Y"], "unsupported"⟩
      (demoValidated [replyGrounded, replyInvalid, replyMalformed]).2
      replyMalformed (demoRun [replyGrounded, replyInvalid, replyMalformed]).2 syntaxError
      ⟨by decide, _, _, by rfl, by rfl, by rfl⟩ rfl (by rfl) (by rfl)⟩

/-! ## removeUnusedChunks -/

theorem two_last (l : List String) (h : ¬ (l.length = 0 ∨ l.length = 1)) :
    ∃ init a b, l = init ++ [a, b] := by
  rcases List.eq_nil_or_concat l with hl | ⟨l1, b, hl⟩
  · subst hl; simp at h
  · rcases List.eq_nil_or_concat l1 with hl1 | ⟨init, a, hl1⟩
    · subst hl hl1; simp at h
    · subst hl hl1
      exact ⟨init, a, b, by simp⟩

theorem getD_two_last (init : List String) (a b : String) :
    (init ++ [a, b]).getD ((init ++ [a, b]).length - 2) "" = a ∧
    (init ++ [a, b]).getD ((init ++ [a, b]).length - 1) "" = b ∧
    (init ++ [a, b]).take ((init ++ [a, b]).length - 1) = init ++ [a] := by
  refine ⟨?_, ?_, ?_⟩
  · simp only [List.getD_eq_getElem?_getD, List.length_append, List.length_cons,
      List.length_nil]
    rw [show init.length + (0 + 1 + 1) - 2 = init.length by omega,
      List.getElem?_append_right (Nat.le_refl _)]
    simp
  · simp only [List.getD_eq_getElem?_getD, List.length_append, List.length_cons,
      List.length_nil]
    rw [show init.length + (0 + 1 + 1) - 1 = init.length + 1 by omega,
      List.getElem?_append_right (by omega)]
    simp
  · have : init ++ [a, b] = (init ++ [a]) ++ [b] := by simp
    rw [this, List.take_left' (by simp)]

theorem two_last_inj {i1 i2 : List String} {a1 b1 a2 b2 : String}
    (h : i1 ++ [a1, b1] = i2 ++ [a2, b2]) : i1 = i2 ∧ a1 = a2 ∧ b1 = b2 := by
  have h1 : (i1 ++ [a1]) ++ [b1] = (i2 ++ [a2]) ++ [b2] := by simpa using h
  have h2 := List.append_inj' h1 rfl
  have hb : b1 = b2 := by simpa using h2.2
  have h3 := List.append_inj' h2.1 rfl
  exact ⟨h3.1, by simpa using h3.2, hb⟩

theorem removeUnusedChunks_spec (n : Nat) : ∀ split : List String, split.length = n →
    removeUnusedChunks split <+: split ∧ Settled (removeUnusedChunks split) ∧
    (∀ l, l <+: split → Settled l → l.length ≤ (removeUnusedChunks split).length) ∧
    (split ≠ [] → removeUnusedChunks split ≠ []) := by
  induction n with
  | zero =>
    intro split hn
    have : split = [] := List.length_eq_zero.mp hn
    subst this
    rw [removeUnusedChunks]
    simp [Settled]
  | succ m ih =>
    intro split hn
    by_cases h : split.length = 0 ∨ split.length = 1
    · rw [removeUnusedChunks, if_pos h]
      refine ⟨List.prefix_refl _, Or.inl (by omega), fun l hl _ => hl.length_le, fun hne => hne⟩
    · obtain ⟨init, a, b, hsplit⟩ := two_last split h
      obtain ⟨ga, gb, gt⟩ := getD_two_last init a b
      rw [removeUnusedChunks, if_neg h]
      rw [hsplit, ga, gb, gt]
      by_cases hc : Contains a b = true
      · rw [if_pos hc]
        have hlen : (init ++ [a]).length = m := by
          rw [hsplit] at hn; simp at hn ⊢; omega
        obtain ⟨p1, p2, p3, p4⟩ := ih (init ++ [a]) hlen
        have hpre : init ++ [a] <+: init ++ [a, b] := ⟨[b], by simp⟩
        refine ⟨p1.trans hpre, p2, ?_, fun _ => p4 (by simp)⟩
        intro l hl hs
        apply p3 l _ hs
        -- a settled prefix of the whole list is a prefix of the shortened list
        rcases hl with ⟨t, ht⟩
        rcases List.eq_nil_or_concat t with ht0 | ⟨t1, x, ht1⟩
        · subst ht0
          simp only [List.append_nil] at ht
          exfalso
          rcases hs with hs | ⟨i2, a2, b2, h2, hc2⟩
          · rw [ht] at hs; simp at hs
          · rw [ht] at h2
            obtain ⟨_, ha, hb⟩ := two_last_inj h2
            rw [← ha, ← hb, hc] at hc2
            cases hc2
        · subst ht1
          have h1 : (l ++ t1) ++ [x] = (init ++ [a]) ++ [b] := by simpa using ht
          have h2 := List.append_inj' h1 rfl
          exact ⟨t1, h2.1⟩
      · rw [if_neg hc]
        refine ⟨List.prefix_refl _, Or.inr ⟨init, a, b, rfl, by simpa using hc⟩,
          fun l hl _ => hl.length_le, fun hne => hne⟩

/-- C30. The function `removeUnusedChunks` is total (its recursion is on a
shorter list each time) and returns the longest prefix of its input that has at
most one element or whose last element is not a substring of its second-to-last
element; so the result is a prefix of the input and is non-empty when the input
is. -/
theorem removeUnusedChunks_longest (split : List String) :
    removeUnusedChunks split <+: split ∧ Settled (removeUnusedChunks split) ∧
    (∀ l, l <+: split → Settled l → l.length ≤ (removeUnusedChunks split).length) ∧
    (split ≠ [] → removeUnusedChunks split ≠ []) :=
  removeUnusedChunks_spec split.length split rfl

theorem removeUnusedChunks_longest_witness :
    removeUnusedChunks ["abc", "bc", "c"] <+: ["abc", "bc", "c"] ∧
    removeUnusedChunks ["abc", "bc", "c"] = ["abc"] ∧
    removeUnusedChunks ["abc", "bd", "d", "x"] = ["abc", "bd", "d", "x"] :=
  ⟨(removeUnusedChunks_longest ["abc", "bc", "c"]).1,
   by simp [removeUnusedChunks, Contains, containsChars],
   by simp [removeUnusedChunks, Contains, containsChars]⟩

/-! ## Dialog context -/

/-- C23. Dialog-context precedence: a `DialogContext` that is not empty after
trimming is returned, trimmed, whatever the `History`; a blank `DialogContext`
gives `formatDialogContext` of the `History`. -/
theorem resolveDialogContext_precedence (req : Request) :
    (TrimSpace req.DialogContext ≠ "" →
      resolveDialogContext req = TrimSpace req.DialogContext ∧
      ∀ history, resolveDialogContext { req with History := history } =
        resolveDialogContext req) ∧
    (TrimSpace req.DialogContext = "" →
      resolveDialogContext req = formatDialogContext req.History) := by
  constructor
  · intro h
    unfold resolveDialogContext
    simp [h]
  · intro h
    unfold resolveDialogContext
    simp [h]

theorem resolveDialogContext_precedence_witness :
    (resolveDialogContext ⟨"q", [⟨"user", "hi"⟩], "  earlier talk\n", 0⟩ = "earlier talk" ∧
      ∀ history, resolveDialogContext
          { (⟨"q", [⟨"user", "hi"⟩], "  earlier talk\n", 0⟩ : Request) with
            History := history } =
        resolveDialogContext ⟨"q", [⟨"user", "hi"⟩], "  earlier talk\n", 0⟩) ∧
    resolveDialogContext ⟨"q", [⟨"user", "hi"⟩], " \n", 0⟩ =
      formatDialogContext [⟨"user", "hi"⟩] :=
  ⟨(resolveDialogContext_precedence ⟨"q", [⟨"user", "hi"⟩], "  earlier talk\n", 0⟩).1
      (by decide),
   (resolveDialogContext_precedence ⟨"q", [⟨"user", "hi"⟩], " \n", 0⟩).2 (by decide)⟩

theorem dialogLines_eq (history : List DialogMessage) :
    dialogLines history =
      (history.filter (fun msg => TrimSpace msg.Content != "")).map dialogLine := by
  induction history with
  | nil => rfl
  | cons m rest ih =>
    unfold dialogLines
    by_cases hc : TrimSpace m.Content = ""
    · simp [hc, ih]
    · by_cases hr : TrimSpace m.Role = ""
      · simp [hc, hr, ih, dialogLine]
      · simp [hc, hr, ih, dialogLine]

/-- C24. History formatting: `formatDialogContext` is the newline-join, in the
order of the history, of the lines of the messages whose content is not empty
after trimming, each line being the trimmed role (or `user` when it is blank),
`: ` and the trimmed content; an empty history and a history of blank messages
give the empty string. -/
theorem formatDialogContext_lines (history : List DialogMessage) :
    formatDialogContext history =
      Join ((history.filter (fun msg => TrimSpace msg.Content != "")).map dialogLine) "\n" ∧
    ((∀ msg ∈ history, TrimSpace msg.Content = "") → formatDialogContext history = "") := by
  have h1 : formatDialogContext history =
      Join ((history.filter (fun msg => TrimSpace msg.Content != "")).map dialogLine) "\n" := by
    unfold formatDialogContext
    cases history with
    | nil => rfl
    | cons m rest => simp [dialogLines_eq]
  refine ⟨h1, ?_⟩
  intro hall
  rw [h1]
  have : history.filter (fun msg => TrimSpace msg.Content != "") = [] := by
    rw [List.filter_eq_nil_iff]
    intro m hm
    simp [hall m hm]
  rw [this]
  rfl

theorem formatDialogContext_lines_witness :
    formatDialogContext [⟨" assistant ", " hello "⟩, ⟨"user", "  "⟩, ⟨"", "what is X?\n"⟩] =
      "assistant: hello\nuser: what is X?" ∧
    formatDialogContext [⟨"user", "  "⟩, ⟨"tool", ""⟩] = "" :=
  ⟨(formatDialogContext_lines
      [⟨" assistant ", " hello "⟩, ⟨"user", "  "⟩, ⟨"", "what is X?\n"⟩]).1,
   (formatDialogContext_lines [⟨"user", "  "⟩, ⟨"tool", ""⟩]).2 (by decide)⟩

/-! ## formatChunks -/

theorem intercalate_go_data (acc s : String) (l : List String) :
    (String.intercalate.go acc s l).data =
      acc.data ++ l.flatMap (fun a => s.data ++ a.data) := by
  induction l generalizing acc with
  | nil => simp [String.intercalate.go]
  | cons a rest ih =>
    simp [String.intercalate.go, ih, List.append_assoc]

theorem Join_cons_data (a : String) (l : List String) (sep : String) :
    (Join (a :: l) sep).data = a.data ++ l.flatMap (fun x => sep.data ++ x.data) := by
  unfold Join String.intercalate
  exact intercalate_go_data a sep l

theorem flatMap_shift {α : Type} (x y : List Char) (r : α → List Char) (l : List α) :
    x ++ l.flatMap (fun c => y ++ r c ++ x) = l.flatMap (fun c => x ++ y ++ r c) ++ x := by
  induction l with
  | nil => simp
  | cons c cs ih =>
    simp only [List.flatMap_cons, List.append_assoc] at ih ⊢
    rw [ih]

theorem trim_append_newline (l : List Char) :
    trimRight (trimLeft (l ++ ['\n'])) = trimRight (trimLeft l) := by
  unfold trimLeft
  rw [List.dropWhile_append]
  by_cases he : (List.dropWhile isSpace l).isEmpty = true
  · rw [if_pos he]
    have hnil : List.dropWhile isSpace l = [] := List.isEmpty_iff.mp he
    rw [hnil]
    have : isSpace '\n' = true := by decide
    simp [trimRight, this]
  · rw [if_neg he]
    have : isSpace '\n' = true := by decide
    simp [trimRight, this]

/-- The lines of one chunk, each preceded by a newline, are a newline, the
chunk's block, and a newline. -/
theorem chunkLines_data (c : Chunk) :
    (chunkLines c).flatMap (fun x => ("\n" : String).data ++ x.data) =
      ['\n'] ++ (renderChunk c).data ++ ['\n'] := by
  simp [chunkLines, renderChunk, List.append_assoc]

theorem chunkLines_join (chunks : List Chunk) :
    (chunks.flatMap chunkLines).flatMap (fun x => ("\n" : String).data ++ x.data) =
      chunks.flatMap (fun c => ['\n'] ++ (renderChunk c).data ++ ['\n']) := by
  induction chunks with
  | nil => rfl
  | cons c cs ih =>
    rw [List.flatMap_cons, List.flatMap_append, ih, chunkLines_data, List.flatMap_cons]

theorem Join_chunkLines (c : Chunk) (cs : List Chunk) :
    (Join ((c :: cs).flatMap chunkLines) "\n").data =
      (Join ((c :: cs).map renderChunk) "\n\n").data ++ ['\n'] := by
  have hfirst : (c :: cs).flatMap chunkLines =
      ("[" ++ c.ID ++ "]") :: (["data_source: " ++ c.DataSource, "text: " ++ c.Text, ""] ++
        cs.flatMap chunkLines) := by
    simp [chunkLines]
  rw [hfirst, List.map_cons, Join_cons_data, Join_cons_data, List.flatMap_append,
    chunkLines_join, List.flatMap_map]
  have hhead : ("[" ++ c.ID ++ "]").data ++
      ["data_source: " ++ c.DataSource, "text: " ++ c.Text, ""].flatMap
        (fun x => ("\n" : String).data ++ x.data) = (renderChunk c).data ++ ['\n'] := by
    simp [renderChunk, List.append_assoc]
  rw [← List.append_assoc, hhead]
  have hshift := flatMap_shift ['\n'] ['\n'] (fun c => (renderChunk c).data) cs
  have e : ("\n\n" : String).data = ['\n'] ++ ['\n'] := rfl
  rw [e, List.append_assoc, List.append_assoc]
  exact congrArg (fun t => (renderChunk c).data ++ t) hshift

/-- C25. Chunk rendering: `formatChunks` of the empty list is the empty string,
and `formatChunks` of any list is the whitespace-trimmed text of the chunks'
blocks in order, a block being the three lines `[id]`, `data_source: source`,
`text: text`, with one blank line between consecutive blocks. -/
theorem formatChunks_blocks (chunks : List Chunk) :
    formatChunks [] = "" ∧
    formatChunks chunks = TrimSpace (Join (chunks.map renderChunk) "\n\n") := by
  refine ⟨rfl, ?_⟩
  cases chunks with
  | nil => decide
  | cons c cs =>
    unfold formatChunks
    simp only [List.length_cons, Nat.add_one_ne_zero, beq_iff_eq, if_false]
    unfold TrimSpace
    congr 1
    rw [Join_chunkLines, trim_append_newline]

theorem formatChunks_blocks_witness :
    formatChunks [] = "" ∧
    formatChunks demoChunks =
      "[C1]\ndata_source: a.txt\ntext: X is Y\n\n[C2]\ndata_source: b.txt\ntext: Z is W" :=
  ⟨(formatChunks_blocks demoChunks).1, (formatChunks_blocks demoChunks).2⟩

/-! ## Chunk ids -/

theorem repr_injective {m n : Nat} (h : Nat.repr m = Nat.repr n) : m = n := by
  have hm := (repr_decimal m).2
  have hn := (repr_decimal n).2
  rw [h] at hm
  exact hm.symm.trans hn

theorem buildChunks_getElem?_ID (hits : List SearchHit) (i : Nat) (c : Chunk)
    (h : (buildChunks hits)[i]? = some c) : c.ID = "C" ++ Nat.repr (i + 1) := by
  have hlt : i < hits.length := by
    have := (List.getElem?_eq_some_iff.mp h).1
    rwa [buildChunks, buildChunksFrom_length] at this
  have hh : hits[i]? = some hits[i] := List.getElem?_eq_getElem hlt
  have := buildChunksFrom_getElem? 0 hits i _ hh
  rw [buildChunks, this] at h
  simp only [Option.some.injEq] at h
  rw [← h]
  simp

/-- C28. Chunk ids are unique: in the chunks `buildChunks` returns, chunks at
different positions have different IDs, so the list of IDs has no duplicate and
an id is the ID of at most one chunk. -/
theorem buildChunks_ids_unique (hits : List SearchHit) :
    (∀ (i j : Nat) (c1 c2 : Chunk), (buildChunks hits)[i]? = some c1 →
      (buildChunks hits)[j]? = some c2 → c1.ID = c2.ID → i = j) ∧
    ((buildChunks hits).map (·.ID)).Nodup ∧
    (∀ c1 ∈ buildChunks hits, ∀ c2 ∈ buildChunks hits, c1.ID = c2.ID → c1 = c2) := by
  have hidx : ∀ (i j : Nat) (c1 c2 : Chunk), (buildChunks hits)[i]? = some c1 →
      (buildChunks hits)[j]? = some c2 → c1.ID = c2.ID → i = j := by
    intro i j c1 c2 h1 h2 hid
    rw [buildChunks_getElem?_ID hits i c1 h1, buildChunks_getElem?_ID hits j c2 h2] at hid
    have hd := congrArg String.data hid
    simp only [String.data_append] at hd
    have hr : Nat.repr (i + 1) = Nat.repr (j + 1) :=
      String.ext (List.append_cancel_left hd)
    have := repr_injective hr
    omega
  refine ⟨hidx, ?_, ?_⟩
  · rw [List.nodup_iff_getElem?_ne_getElem?]
    intro i j hij hj heq
    simp only [List.length_map] at hj
    simp only [List.getElem?_map] at heq
    have hi : i < (buildChunks hits).length := by omega
    rw [List.getElem?_eq_getElem hi, List.getElem?_eq_getElem hj] at heq
    simp only [Option.map_some', Option.some.injEq] at heq
    have := hidx i j _ _ (List.getElem?_eq_getElem hi) (List.getElem?_eq_getElem hj) heq
    omega
  · intro c1 h1 c2 h2 hid
    obtain ⟨i, hi⟩ := List.mem_iff_getElem?.mp h1
    obtain ⟨j, hj⟩ := List.mem_iff_getElem?.mp h2
    have := hidx i j c1 c2 hi hj hid
    subst this
    rw [hi] at hj
    exact Option.some.inj hj

theorem buildChunks_ids_unique_witness :
    ((buildChunks demoHits).map (·.ID)).Nodup ∧
    (buildChunks demoHits).map (·.ID) = ["C1", "C2"] :=
  ⟨(buildChunks_ids_unique demoHits).2.1, by rfl⟩

/-! ## The sentinel in the prompts -/

set_option maxRecDepth 100000 in
theorem quotedFallback_answerSystemPrompt :
    quotedFallback answerSystemPrompt = some unknownAnswer := by decide

set_option maxRecDepth 100000 in
theorem quotedFallback_answerRewriteSystemPrompt :
    quotedFallback answerRewriteSystemPrompt = some unknownAnswer := by decide

theorem suffix_append_left {a b : List Char} (c : List Char) (h : a <:+ b) :
    a <:+ c ++ b :=
  h.trans (List.suffix_append c b)

theorem buildAnswerUserPrompt_suffix (question dialogContext chunks : String) :
    (fallbackClause unknownAnswer).data <:+
      (buildAnswerUserPrompt question dialogContext chunks).data := by
  simp only [buildAnswerUserPrompt, String.data_append, List.append_assoc]
  repeat (first | exact ⟨[], by rfl⟩ | apply suffix_append_left)

theorem buildAnswerRewriteUserPrompt_suffix
    (question dialogContext chunks answerText feedback : String) :
    (fallbackClause unknownAnswer).data <:+
      (buildAnswerRewriteUserPrompt question dialogContext chunks answerText feedback).data := by
  simp only [buildAnswerRewriteUserPrompt, String.data_append, List.append_assoc]
  repeat (first | exact ⟨[], by rfl⟩ | apply suffix_append_left)

/-- C29. Sentinel consistency: the fallback answer that `answerSystemPrompt` and
`answerRewriteSystemPrompt` spell out is, character for character, the constant
`unknownAnswer`, and the two answer user prompts end with the fallback clause
built from `unknownAnswer`; `normalizeAnswer` treats exactly this text as the
sentinel, and so does `validateAnswer`. -/
theorem sentinel_in_prompts :
    quotedFallback answerSystemPrompt = some unknownAnswer ∧
    quotedFallback answerRewriteSystemPrompt = some unknownAnswer ∧
    (∀ question dialogContext chunks,
      (fallbackClause unknownAnswer).data <:+
        (buildAnswerUserPrompt question dialogContext chunks).data) ∧
    (∀ question dialogContext chunks answerText feedback,
      (fallbackClause unknownAnswer).data <:+
        (buildAnswerRewriteUserPrompt question dialogContext chunks answerText feedback).data) ∧
    (∀ used citations,
      normalizeAnswer ⟨unknownAnswer, used, citations⟩ = ⟨unknownAnswer, [], []⟩) ∧
    (∀ (σ : Type) (s : Service) (C : Collaborators σ) (J : JSONLib)
        (question chunks : String) (w : World σ),
      s.validateAnswer C J question unknownAnswer chunks w =
        (.ok ⟨true, [], "validation skipped for unknown answer"⟩, w)) := by
  refine ⟨quotedFallback_answerSystemPrompt, quotedFallback_answerRewriteSystemPrompt,
    buildAnswerUserPrompt_suffix, buildAnswerRewriteUserPrompt_suffix, ?_, ?_⟩
  · intro used citations
    have ht : TrimSpace unknownAnswer = unknownAnswer := TrimSpace_unknownAnswer
    have hne : unknownAnswer ≠ "" := by decide
    unfold normalizeAnswer
    simp [ht, hne]
  · intro σ s C J question chunks w
    have ht : TrimSpace unknownAnswer = unknownAnswer := TrimSpace_unknownAnswer
    have hne : unknownAnswer ≠ "" := by decide
    unfold Service.validateAnswer
    simp [ht, hne]

theorem sentinel_in_prompts_witness :
    (fallbackClause unknownAnswer).data <:+
      (buildAnswerUserPrompt "What is X?" "" (formatChunks demoChunks)).data ∧
    quotedFallback answerSystemPrompt = some unknownAnswer :=
  ⟨sentinel_in_prompts.2.2.1 "What is X?" "" (formatChunks demoChunks), sentinel_in_prompts.1⟩

/-! ## The answer text and the validation outcome -/

theorem normalizeAnswer_text_ne_empty (p : answerResult) : (normalizeAnswer p).Text ≠ "" := by
  rcases normalizeAnswer_cases p with hn | ⟨hn, hne, _⟩
  · rw [hn]; decide
  · rw [hn]; exact hne

theorem TrimSpace_head (s : String) (x : Char) (h : (TrimSpace s).data.head? = some x) :
    isSpace x = false :=
  trimmed_head s.data x h

theorem TrimSpace_getLast (s : String) (x : Char) (h : (TrimSpace s).data.getLast? = some x) :
    isSpace x = false :=
  trimRight_getLast _ x h

/-- The validation stage a run reached is determined by the run. -/
theorem ValidationReturned_unique {σ : Type} (s : Service) (C : Collaborators σ) (J : JSONLib)
    (req : Request) (w : World σ) (chunks chunks' : List Chunk) (answer answer' : answerResult)
    (v v' : ValidationResult) (w3 w3' : World σ)
    (h : ValidationReturned s C J req w chunks answer v w3)
    (h' : ValidationReturned s C J req w chunks' answer' v' w3') :
    chunks = chunks' ∧ answer = answer' ∧ v = v' ∧ w3 = w3' := by
  obtain ⟨_, w1, w2, hf, hg, hv⟩ := h
  obtain ⟨_, w1', w2', hf', hg', hv'⟩ := h'
  rw [hf] at hf'
  simp only [Prod.mk.injEq, Except.ok.injEq] at hf'
  obtain ⟨hc, hw1⟩ := hf'
  subst hc hw1
  rw [hg] at hg'
  simp only [Prod.mk.injEq, Except.ok.injEq] at hg'
  obtain ⟨ha, hw2⟩ := hg'
  subst ha hw2
  rw [hv] at hv'
  simp only [Prod.mk.injEq, Except.ok.injEq] at hv'
  exact ⟨rfl, rfl, hv'.1, hv'.2⟩

/-- A returned `Response` comes from a run that reached validation; it carries
the validation outcome, and the generated or the corrected answer. -/
theorem Answer_ok_validation {σ : Type} (s : Service) (C : Collaborators σ) (J : JSONLib)
    (req : Request) (w w' : World σ) (resp : Response)
    (h : s.Answer C J req w = (.ok resp, w')) :
    ∃ chunks answer v w3, ValidationReturned s C J req w chunks answer v w3 ∧
      resp.Validation = v ∧ resp.Chunks = chunks ∧
      ((v.OK = true ∧ w' = w3 ∧ resp.Answer = TrimSpace answer.Text) ∨
       (v.OK = false ∧ ∃ rewritten,
          s.rewriteAnswer C J (TrimSpace req.Question) (resolveDialogContext req)
            (formatChunks chunks) (TrimSpace answer.Text) v w3 = (.ok rewritten, w') ∧
          resp.Answer = TrimSpace rewritten.Text)) := by
  rcases Answer_cases s C J req w with
    ⟨_, ha⟩ | ⟨_, e, w1, _, ha⟩ | ⟨_, chunks, w1, e, w2, _, _, ha⟩ |
    ⟨_, chunks, w1, answer, w2, e, w3, _, _, _, ha⟩ |
    ⟨chunks, answer, v, w3, hvr, hok, resp', ha, hch, hval, hans, _⟩ |
    ⟨chunks, answer, v, w3, hvr, _, e, w4, hr, ha⟩ |
    ⟨chunks, answer, v, w3, hvr, hok, rewritten, w4, hr, resp', ha, hch, hval, hans, _⟩
  · rw [ha] at h; simp at h
  · rw [ha] at h; simp at h
  · rw [ha] at h; simp at h
  · rw [ha] at h; simp at h
  · rw [ha] at h
    simp only [Prod.mk.injEq, Except.ok.injEq] at h
    obtain ⟨h1, h2⟩ := h
    subst h1 h2
    exact ⟨chunks, answer, v, _, hvr, hval, hch, Or.inl ⟨hok, rfl, hans⟩⟩
  · rw [ha] at h; simp at h
  · rw [ha] at h
    simp only [Prod.mk.injEq, Except.ok.injEq] at h
    obtain ⟨h1, h2⟩ := h
    subst h1 h2
    exact ⟨chunks, answer, v, w3, hvr, hval, hch, Or.inr ⟨hok, rewritten, hr, hans⟩⟩

/-! ## Failed calls -/

theorem failures_append (a b : List Call) : failures (a ++ b) = failures a ++ failures b := by
  simp [failures, List.filterMap_append]

theorem Propagated_of_ok {α : Type} {l : List Call} {a : α}
    (h : Propagated l (Except.ok a : Except GoError α)) : failures l = [] := by
  rcases h with h | ⟨_, _, _, _, _, _, h⟩
  · exact h
  · cases h

theorem Propagated_cast {α β : Type} {l : List Call} {e : GoError}
    (h : Propagated l (Except.error e : Except GoError α)) :
    Propagated l (Except.error e : Except GoError β) := by
  rcases h with h | ⟨pre, c, e', h1, h2, h3, h4⟩
  · exact Or.inl h
  · simp only [Except.error.injEq] at h4
    exact Or.inr ⟨pre, c, e', h1, h2, h3, by rw [h4]⟩

theorem Propagated_append {α : Type} {l1 l2 : List Call} {r : Except GoError α}
    (h1 : failures l1 = []) (h2 : Propagated l2 r) : Propagated (l1 ++ l2) r := by
  rcases h2 with h | ⟨pre, c, e, ha, hb, hc, hd⟩
  · exact Or.inl (by rw [failures_append, h1, h]; rfl)
  · refine Or.inr ⟨l1 ++ pre, c, e, by rw [ha, List.append_assoc], ?_, hc, hd⟩
    rw [failures_append, h1, hb]; rfl

theorem Propagated_single {α : Type} (c : Call) (r : Except GoError α)
    (h : ∀ e, c.failure = some e → r = .error e) : Propagated [c] r := by
  cases hc : c.failure with
  | none => exact Or.inl (by simp [failures, hc])
  | some e => exact Or.inr ⟨[], c, e, rfl, rfl, hc, h e hc⟩

/-- The outcomes of `fetchChunks` with the calls that lead to them; `topK` is
the request's count when positive and the service default otherwise. -/
theorem fetchChunks_detail {σ : Type} (s : Service) (C : Collaborators σ) (q : String)
    (topK : Int) (w w1 : World σ) (r : Except GoError (List Chunk))
    (h : s.fetchChunks C q topK w = (r, w1)) :
    (∃ e, w1.log = w.log ++ [Call.embedding [q] (.error e)] ∧ r = .error e) ∨
    (w1.log = w.log ++ [Call.embedding [q] (.ok [])] ∧
      r = .error (errorsNew "empty embeddings")) ∨
    (∃ v0 vs sres, w1.log = w.log ++ [Call.embedding [q] (.ok (v0 :: vs)),
        Call.search s.collection v0 (if topK ≤ 0 then s.defaultTopK else topK) sres] ∧
      ((∃ e, sres = .error e ∧ r = .error e) ∨
       (∃ hits, sres = .ok hits ∧ r = .ok (buildChunks hits)))) := by
  unfold Service.fetchChunks at h
  rw [CreateEmbeddings_eq] at h
  unfold clientCreateEmbedding at h
  simp only at h
  cases hres : (C.CreateEmbedding [q] w.st).1 with
  | error err =>
    rw [hres] at h
    simp only [Prod.mk.injEq] at h
    left
    exact ⟨err, by rw [← h.2], h.1.symm⟩
  | ok vectors =>
    rw [hres] at h
    cases vectors with
    | nil =>
      simp only [Prod.mk.injEq] at h
      right; left
      exact ⟨by rw [← h.2], h.1.symm⟩
    | cons v0 vs =>
      simp only at h
      unfold vectorSearch at h
      simp only at h
      generalize C.Search s.collection v0 (if topK ≤ 0 then s.defaultTopK else topK)
        (C.CreateEmbedding [q] w.st).2 = sr at h
      rcases sr with ⟨sres, st2⟩
      right; right
      refine ⟨v0, vs, sres, ?_, ?_⟩
      · cases sres with
        | error err =>
          simp only [Prod.mk.injEq] at h
          rw [← h.2]; simp
        | ok hits =>
          simp only [Prod.mk.injEq] at h
          rw [← h.2]; simp
      · cases sres with
        | error err =>
          simp only [Prod.mk.injEq] at h
          exact Or.inl ⟨err, rfl, h.1.symm⟩
        | ok hits =>
          simp only [Prod.mk.injEq] at h
          exact Or.inr ⟨hits, rfl, h.1.symm⟩

theorem fetchChunks_propagated {σ : Type} (s : Service) (C : Collaborators σ) (q : String)
    (topK : Int) (w w1 : World σ) (r : Except GoError (List Chunk))
    (h : s.fetchChunks C q topK w = (r, w1)) :
    ∃ l, w1.log = w.log ++ l ∧ Propagated l r ∧
      (∀ c ∈ l, ∀ coll v k res, c = Call.search coll v k res →
        k = if topK ≤ 0 then s.defaultTopK else topK) := by
  rcases fetchChunks_detail s C q topK w w1 r h with
    ⟨e, hl, hr⟩ | ⟨hl, hr⟩ | ⟨v0, vs, sres, hl, hr⟩
  · refine ⟨_, hl, Propagated_single _ _ ?_, ?_⟩
    · intro e' he'
      simp only [Call.failure, Option.some.injEq] at he'
      rw [hr, he']
    · intro c hc coll v k res hcs
      simp only [List.mem_singleton] at hc
      rw [hc] at hcs; cases hcs
  · refine ⟨_, hl, Or.inl rfl, ?_⟩
    intro c hc coll v k res hcs
    simp only [List.mem_singleton] at hc
    rw [hc] at hcs; cases hcs
  · refine ⟨_, hl, ?_, ?_⟩
    · have : [Call.embedding [q] (.ok (v0 :: vs)), Call.search s.collection v0
          (if topK ≤ 0 then s.defaultTopK else topK) sres] =
          [Call.embedding [q] (.ok (v0 :: vs))] ++ [Call.search s.collection v0
          (if topK ≤ 0 then s.defaultTopK else topK) sres] := rfl
      rw [this]
      have hf : failures [Call.embedding [q] (.ok (v0 :: vs))] = [] := rfl
      refine Propagated_append hf ?_
      apply Propagated_single
      intro e' he'
      rcases hr with ⟨e, hs, hr⟩ | ⟨hits, hs, hr⟩
      · rw [hs] at he'
        simp only [Call.failure, Option.some.injEq] at he'
        rw [hr, he']
      · rw [hs] at he'
        simp [Call.failure] at he'
    · intro c hc coll v k res hcs
      simp only [List.mem_cons, List.mem_singleton, List.not_mem_nil, or_false] at hc
      rcases hc with hc | hc
      · rw [hc] at hcs; cases hcs
      · rw [hc] at hcs
        simp only [Call.search.injEq] at hcs
        exact hcs.2.2.1.symm

/-- The chat call of `Service.chat` and its result: the error the repository
returns from the call, the client's or `openai: empty response`, is the error
`Service.chat` returns. -/
theorem chat_propagated {σ : Type} (s : Service) (C : Collaborators σ) (sys usr : String)
    (maxTokens : Int) (stage : String) (w w1 : World σ) (r : Except GoError String)
    (h : s.chat C sys usr maxTokens stage jsonObjectResponseFormat w = (r, w1)) :
    ∃ res, w1.log = w.log ++ [Call.chat (chatRequest s sys usr) res] ∧
      ∀ e, (Call.chat (chatRequest s sys usr) res).failure = some e → r = .error e := by
  rw [chat_eq] at h
  rcases hcall : clientCreateChatCompletion C (chatRequest s sys usr) w with ⟨res, w'⟩
  have hlog := clientCreateChatCompletion_log C _ w w' res hcall
  rw [hcall] at h
  refine ⟨res, ?_, ?_⟩
  · cases res with
    | error err =>
      simp only [Prod.mk.injEq] at h
      rw [← h.2]; exact hlog
    | ok resp =>
      simp only at h
      split at h <;>
      · simp only [Prod.mk.injEq] at h
        rw [← h.2]; exact hlog
  · intro e he
    cases res with
    | error err =>
      simp only [Call.failure, Option.some.injEq] at he
      simp only [Prod.mk.injEq] at h
      rw [← h.1, he]
    | ok resp =>
      cases hch : resp.Choices with
      | nil =>
        simp only [Call.failure, hch, Option.some.injEq] at he
        simp only [hch, Prod.mk.injEq] at h
        rw [← h.1, he]
      | cons choice rest =>
        simp [Call.failure, hch] at he

theorem generateAnswer_propagated {σ : Type} (s : Service) (C : Collaborators σ) (J : JSONLib)
    (q ctx chunks : String) (w w1 : World σ) (r : Except GoError answerResult)
    (h : s.generateAnswer C J q ctx chunks w = (r, w1)) :
    ∃ creq res, w1.log = w.log ++ [Call.chat creq res] ∧ Propagated [Call.chat creq res] r := by
  unfold Service.generateAnswer at h
  simp only at h
  rcases hc : s.chat C answerSystemPrompt (buildAnswerUserPrompt q ctx chunks) answerMaxTokens
    "answer" jsonObjectResponseFormat w with ⟨rc, wc⟩
  obtain ⟨res, hl, he⟩ := chat_propagated s C _ _ _ _ w wc rc hc
  rw [hc] at h
  refine ⟨chatRequest s answerSystemPrompt (buildAnswerUserPrompt q ctx chunks), res, ?_,
    Propagated_single _ _ ?_⟩
  · cases rc <;> (simp only [Prod.mk.injEq] at h; rw [← h.2]; exact hl)
  · intro e hf
    have := he e hf
    subst this
    simp only [Prod.mk.injEq] at h
    exact h.1.symm

theorem rewriteAnswer_propagated {σ : Type} (s : Service) (C : Collaborators σ) (J : JSONLib)
    (q ctx chunks a : String) (v : ValidationResult) (w w1 : World σ)
    (r : Except GoError answerResult)
    (h : s.rewriteAnswer C J q ctx chunks a v w = (r, w1)) :
    ∃ creq res, w1.log = w.log ++ [Call.chat creq res] ∧ Propagated [Call.chat creq res] r := by
  unfold Service.rewriteAnswer at h
  simp only at h
  rcases hc : s.chat C answerRewriteSystemPrompt
    (buildAnswerRewriteUserPrompt q ctx chunks a (buildValidationFeedback J v)) answerMaxTokens
    "answer_rewrite" jsonObjectResponseFormat w with ⟨rc, wc⟩
  obtain ⟨res, hl, he⟩ := chat_propagated s C _ _ _ _ w wc rc hc
  rw [hc] at h
  refine ⟨chatRequest s answerRewriteSystemPrompt
    (buildAnswerRewriteUserPrompt q ctx chunks a (buildValidationFeedback J v)), res, ?_,
    Propagated_single _ _ ?_⟩
  · cases rc <;> (simp only [Prod.mk.injEq] at h; rw [← h.2]; exact hl)
  · intro e hf
    have := he e hf
    subst this
    simp only [Prod.mk.injEq] at h
    exact h.1.symm

theorem validateAnswer_propagated {σ : Type} (s : Service) (C : Collaborators σ) (J : JSONLib)
    (q a chunks : String) (w w1 : World σ) (r : Except GoError ValidationResult)
    (h : s.validateAnswer C J q a chunks w = (r, w1)) :
    ∃ l, w1.log = w.log ++ l ∧ Propagated l r ∧ (∀ c ∈ l, ∃ creq res, c = Call.chat creq res) := by
  by_cases hne : TrimSpace a = ""
  · refine ⟨[], ?_, Or.inl rfl, by simp⟩
    unfold Service.validateAnswer at h
    simp only [hne, beq_self_eq_true, if_true, Prod.mk.injEq] at h
    rw [← h.2]; simp
  · by_cases hns : TrimSpace a = unknownAnswer
    · refine ⟨[], ?_, Or.inl rfl, by simp⟩
      have hu : unknownAnswer ≠ "" := by decide
      unfold Service.validateAnswer at h
      simp [hns, hu] at h
      rw [← h.2]; simp
    · rw [validateAnswer_of_chat s C J q a chunks w hne hns] at h
      rcases hc : s.chat C validationSystemPrompt (buildValidationUserPrompt q a chunks)
        validationMaxTokens "validation" jsonObjectResponseFormat w with ⟨rc, wc⟩
      obtain ⟨res, hl, he⟩ := chat_propagated s C _ _ _ _ w wc rc hc
      rw [hc] at h
      have hw : w1 = wc := by
        cases rc with
        | error err => simp only [Prod.mk.injEq] at h; exact h.2.symm
        | ok content =>
          simp only at h
          split at h
          · simp only [Prod.mk.injEq] at h; exact h.2.symm
          · split at h <;> (simp only [Prod.mk.injEq] at h; exact h.2.symm)
      refine ⟨[Call.chat _ res], by rw [hw]; exact hl, Propagated_single _ _ ?_, ?_⟩
      · intro e hf
        have := he e hf
        subst this
        simp only [Prod.mk.injEq] at h
        exact h.1.symm
      · intro c hc'
        simp only [List.mem_singleton] at hc'
        exact ⟨_, _, hc'⟩


/-! ## The calls of a whole run -/

theorem searchTopKs_append (a b : List Call) :
    searchTopKs (a ++ b) = searchTopKs a ++ searchTopKs b := by
  simp [searchTopKs, List.filterMap_append]

theorem searchTopKs_chats (l : List Call) (h : ∀ c ∈ l, ∃ creq res, c = Call.chat creq res) :
    searchTopKs l = [] := by
  induction l with
  | nil => rfl
  | cons c rest ih =>
    obtain ⟨creq, res, hc⟩ := h c (List.mem_cons_self _ _)
    subst hc
    simp only [searchTopKs, List.filterMap_cons, Call.searchTopK]
    exact ih (fun c hc => h c (List.mem_cons_of_mem _ hc))

theorem mem_searchTopKs (l : List Call) (k : Int) (h : k ∈ searchTopKs l) :
    ∃ coll v res, Call.search coll v k res ∈ l := by
  simp only [searchTopKs, List.mem_filterMap] at h
  obtain ⟨c, hc, hk⟩ := h
  cases c with
  | embedding t r => simp [Call.searchTopK] at hk
  | chat r x => simp [Call.searchTopK] at hk
  | search coll v k' res =>
    simp only [Call.searchTopK, Option.some.injEq] at hk
    subst hk
    exact ⟨coll, v, res, hc⟩

/-- The calls of `fetchChunks`, with their failures and search counts. -/
theorem fetchChunks_calls {σ : Type} (s : Service) (C : Collaborators σ) (q : String)
    (topK : Int) (w w1 : World σ) (r : Except GoError (List Chunk))
    (h : s.fetchChunks C q topK w = (r, w1)) :
    ∃ l, w1.log = w.log ++ l ∧ Propagated l r ∧
      ∀ k ∈ searchTopKs l, k = if topK ≤ 0 then s.defaultTopK else topK := by
  obtain ⟨l, hl, hp, hs⟩ := fetchChunks_propagated s C q topK w w1 r h
  refine ⟨l, hl, hp, ?_⟩
  intro k hk
  obtain ⟨coll, v, res, hmem⟩ := mem_searchTopKs l k hk
  exact hs _ hmem coll v k res rfl

/-- The calls of a run up to the end of a validation stage that returned: none
failed, and every search was handed the effective count. -/
theorem ValidationReturned_calls {σ : Type} (s : Service) (C : Collaborators σ) (J : JSONLib)
    (req : Request) (w : World σ) (chunks : List Chunk) (answer : answerResult)
    (v : ValidationResult) (w3 : World σ)
    (h : ValidationReturned s C J req w chunks answer v w3) :
    ∃ l, w3.log = w.log ++ l ∧ failures l = [] ∧
      ∀ k ∈ searchTopKs l, k = if req.TopK ≤ 0 then s.defaultTopK else req.TopK := by
  obtain ⟨_, w1, w2, hf, hg, hv⟩ := h
  obtain ⟨l1, hl1, hp1, hs1⟩ := fetchChunks_calls s C _ _ w w1 _ hf
  obtain ⟨greq, gres, hl2, hp2⟩ := generateAnswer_propagated s C J _ _ _ w1 w2 _ hg
  obtain ⟨l3, hl3, hp3, hc3⟩ := validateAnswer_propagated s C J _ _ _ w2 w3 _ hv
  refine ⟨l1 ++ ([Call.chat greq gres] ++ l3), ?_, ?_, ?_⟩
  · rw [hl3, hl2, hl1]; simp
  · rw [failures_append, failures_append, Propagated_of_ok hp1, Propagated_of_ok hp2,
      Propagated_of_ok hp3]
    rfl
  · intro k hk
    rw [searchTopKs_append, searchTopKs_append, searchTopKs_chats l3 hc3] at hk
    simp only [searchTopKs, List.filterMap_cons, Call.searchTopK, List.filterMap_nil,
      List.append_nil] at hk
    exact hs1 k hk

/-- The calls of a run of `Answer`: the result agrees with them on failure, and
every search was handed the effective count. -/
theorem Answer_calls {σ : Type} (s : Service) (C : Collaborators σ) (J : JSONLib)
    (req : Request) (w : World σ) :
    ∃ new, (s.Answer C J req w).2.log = w.log ++ new ∧ Propagated new (s.Answer C J req w).1 ∧
      ∀ k ∈ searchTopKs new, k = if req.TopK ≤ 0 then s.defaultTopK else req.TopK := by
  rcases Answer_cases s C J req w with
    ⟨hq, ha⟩ | ⟨hq, e, w1, hf, ha⟩ | ⟨hq, chunks, w1, e, w2, hf, hg, ha⟩ |
    ⟨hq, chunks, w1, answer, w2, e, w3, hf, hg, hv, ha⟩ |
    ⟨chunks, answer, v, w3, hvr, _, resp, ha, _⟩ |
    ⟨chunks, answer, v, w3, hvr, _, e, w4, hr, ha⟩ |
    ⟨chunks, answer, v, w3, hvr, _, rewritten, w4, hr, resp, ha, _⟩
  · refine ⟨[], by rw [ha]; simp, Or.inl rfl, ?_⟩
    intro k hk
    simp [searchTopKs] at hk
  · obtain ⟨l1, hl1, hp1, hs1⟩ := fetchChunks_calls s C _ _ w w1 _ hf
    rw [ha]
    exact ⟨l1, hl1, Propagated_cast hp1, hs1⟩
  · obtain ⟨l1, hl1, hp1, hs1⟩ := fetchChunks_calls s C _ _ w w1 _ hf
    obtain ⟨greq, gres, hl2, hp2⟩ := generateAnswer_propagated s C J _ _ _ w1 w2 _ hg
    rw [ha]
    refine ⟨l1 ++ [Call.chat greq gres], ?_, ?_, ?_⟩
    · simp only []
      rw [hl2, hl1]; simp
    · exact Propagated_append (Propagated_of_ok hp1) (Propagated_cast hp2)
    · intro k hk
      rw [searchTopKs_append] at hk
      simp only [searchTopKs, List.filterMap_cons, Call.searchTopK, List.filterMap_nil,
        List.append_nil] at hk
      exact hs1 k hk
  · obtain ⟨l1, hl1, hp1, hs1⟩ := fetchChunks_calls s C _ _ w w1 _ hf
    obtain ⟨greq, gres, hl2, hp2⟩ := generateAnswer_propagated s C J _ _ _ w1 w2 _ hg
    obtain ⟨l3, hl3, hp3, hc3⟩ := validateAnswer_propagated s C J _ _ _ w2 w3 _ hv
    rw [ha]
    refine ⟨(l1 ++ [Call.chat greq gres]) ++ l3, ?_, ?_, ?_⟩
    · simp only []
      rw [hl3, hl2, hl1]; simp
    · refine Propagated_append ?_ (Propagated_cast hp3)
      rw [failures_append, Propagated_of_ok hp1, Propagated_of_ok hp2]
      rfl
    · intro k hk
      rw [searchTopKs_append, searchTopKs_append, searchTopKs_chats l3 hc3] at hk
      simp only [searchTopKs, List.filterMap_cons, Call.searchTopK, List.filterMap_nil,
        List.append_nil] at hk
      exact hs1 k hk
  · obtain ⟨l, hl, hfl, hs⟩ := ValidationReturned_calls s C J req w chunks answer v w3 hvr
    rw [ha]
    exact ⟨l, hl, Or.inl hfl, hs⟩
  · obtain ⟨l, hl, hfl, hs⟩ := ValidationReturned_calls s C J req w chunks answer v w3 hvr
    obtain ⟨rreq, rres, hl4, hp4⟩ := rewriteAnswer_propagated s C J _ _ _ _ _ w3 w4 _ hr
    rw [ha]
    refine ⟨l ++ [Call.chat rreq rres], ?_, ?_, ?_⟩
    · simp only []
      rw [hl4, hl]; simp
    · exact Propagated_append hfl (Propagated_cast hp4)
    · intro k hk
      rw [searchTopKs_append] at hk
      simp only [searchTopKs, List.filterMap_cons, Call.searchTopK, List.filterMap_nil,
        List.append_nil] at hk
      exact hs k hk
  · obtain ⟨l, hl, hfl, hs⟩ := ValidationReturned_calls s C J req w chunks answer v w3 hvr
    obtain ⟨rreq, rres, hl4, hp4⟩ := rewriteAnswer_propagated s C J _ _ _ _ _ w3 w4 _ hr
    rw [ha]
    refine ⟨l ++ [Call.chat rreq rres], ?_, ?_, ?_⟩
    · simp only []
      rw [hl4, hl]; simp
    · refine Or.inl ?_
      rw [failures_append, hfl, Propagated_of_ok hp4]
      rfl
    · intro k hk
      rw [searchTopKs_append] at hk
      simp only [searchTopKs, List.filterMap_cons, Call.searchTopK, List.filterMap_nil,
        List.append_nil] at hk
      exact hs k hk

theorem mem_failures (l : List Call) (c : Call) (e : GoError) (hc : c ∈ l)
    (he : c.failure = some e) : e ∈ failures l := by
  simp only [failures, List.mem_filterMap]
  exact ⟨c, hc, he⟩

/-- What `Propagated` says of each single call of the list. -/
theorem Propagated_split {α : Type} {new : List Call} {r : Except GoError α}
    (h : Propagated new r) (pre : List Call) (c : Call) (post : List Call) (e : GoError)
    (hnew : new = pre ++ c :: post) (hc : c.failure = some e) :
    post = [] ∧ r = .error e := by
  rcases h with h | ⟨pre', c', e', h1, h2, h3, h4⟩
  · have := mem_failures new c e (by rw [hnew]; simp) hc
    rw [h] at this
    cases this
  · rcases List.eq_nil_or_concat post with hp | ⟨post', x, hp⟩
    · subst hp
      rw [hnew] at h1
      have h5 := List.append_inj' h1 rfl
      have h6 : c = c' := by simpa using h5.2
      subst h6
      rw [hc] at h3
      simp only [Option.some.injEq] at h3
      exact ⟨rfl, by rw [h4, h3]⟩
    · exfalso
      subst hp
      rw [hnew] at h1
      have h1' : (pre ++ c :: post') ++ [x] = pre' ++ [c'] := by
        rw [← h1]; simp
      have h5 := List.append_inj' h1' rfl
      have hmem : c ∈ pre' := by rw [← h5.1]; simp
      have := mem_failures pre' c e hmem hc
      rw [h2] at this
      cases this

/-- C22. Effective topK: the default of a service built by `NewService` is the
`topK` given to it when that is positive and 6 otherwise; in every run of
`Answer` of such a service every vector search is handed the request's `TopK`
when that is positive and the service default otherwise, a strictly positive
count. -/
theorem Answer_effective_topK {σ : Type} (model collection : String) (topK : Int)
    (C : Collaborators σ) (J : JSONLib) (req : Request) (w : World σ) :
    (NewService model collection topK).defaultTopK = (if topK > 0 then topK else 6) ∧
    ∃ new, ((NewService model collection topK).Answer C J req w).2.log = w.log ++ new ∧
      ∀ k ∈ searchTopKs new,
        k = (if req.TopK > 0 then req.TopK else if topK > 0 then topK else 6) ∧ 0 < k := by
  have hd : (NewService model collection topK).defaultTopK = (if topK > 0 then topK else 6) := by
    simp only [NewService, defaultTopK]
    split <;> split <;> first | rfl | omega
  refine ⟨hd, ?_⟩
  obtain ⟨new, hlog, _, hs⟩ := Answer_calls (NewService model collection topK) C J req w
  refine ⟨new, hlog, ?_⟩
  intro k hk
  have h := hs k hk
  rw [hd] at h
  rw [h]
  constructor
  · split <;> split <;> first | rfl | omega
  · split <;> (try split) <;> omega

set_option maxRecDepth 100000 in
theorem Answer_effective_topK_witness :
    searchTopKs (demoRun [replyGrounded, replyValid]).2.log = [6] ∧
    ((6 : Int) = (if demoRequest.TopK > 0 then demoRequest.TopK
      else if (0 : Int) > 0 then 0 else 6) ∧ (0 : Int) < 6) := by
  have hs : searchTopKs (demoRun [replyGrounded, replyValid]).2.log = [6] := by rfl
  refine ⟨hs, ?_⟩
  obtain ⟨new, hlog, h⟩ := (Answer_effective_topK defaultModel "docs" 0
    (scripted [[0]] demoHits) referenceJSON demoRequest
    { st := [replyGrounded, replyValid], log := [] }).2
  have hnew : new = (demoRun [replyGrounded, replyValid]).2.log := by
    have := hlog.symm
    simpa using this
  exact h 6 (by rw [hnew, hs]; exact List.mem_singleton.mpr rfl)

/-- C26. The `Validation` of a `Response` describes the generated answer: for
every `Response` returned by `Answer`, `Validation` is what the validation
stage returned for the (trimmed) text of the generation output, and
`Validation.OK` is false if and only if a correction chat call is among the
calls of the run; so a `Response` can carry a corrected answer, here the
sentinel answer with empty citations, together with `Validation.OK = false`. -/
theorem Answer_validation_of_generated {σ : Type} (s : Service) (C : Collaborators σ)
    (J : JSONLib) (req : Request) (w : World σ) :
    (∀ resp w', s.Answer C J req w = (.ok resp, w') →
      ∃ chunks answer v w3, ValidationReturned s C J req w chunks answer v w3 ∧
        resp.Validation = v ∧
        ∀ new, w'.log = w.log ++ new →
          (resp.Validation.OK = false ↔ Stage.answerRewrite ∈ chatStages new)) ∧
    (demoRun [replyGrounded, replyInvalid, replyUnknown]).1 =
      .ok (demoResponse unknownAnswer [] [] ⟨false, ["X is Y"], "unsupported"⟩) := by
  refine ⟨?_, by rfl⟩
  intro resp w' ha
  obtain ⟨chunks, answer, v, w3, hvr, hval, _, hcase⟩ := Answer_ok_validation s C J req w w' resp ha
  refine ⟨chunks, answer, v, w3, hvr, hval, ?_⟩
  obtain ⟨res, rest, greq, gres, vl, hl3, hs1, hs2, hs3⟩ :=
    ValidationReturned_log s C J req w chunks answer v w3 hvr
  intro new hnew
  rcases hcase with ⟨hok, hw, _⟩ | ⟨hok, rewritten, hr, _⟩
  · subst hw
    rw [hl3] at hnew
    have hn := List.append_cancel_left hnew
    rw [hval, hok, ← hn, chatStages_embedding, chatStages_append, chatStages_append, hs1,
      chatStages_chat, hs2]
    constructor
    · intro h; cases h
    · intro h
      exfalso
      rcases hs3 with h3 | h3 <;> (rw [h3] at h; simp at h)
  · obtain ⟨rreq, rres, hl4, hs4⟩ := rewriteAnswer_log s C J _ _ _ _ _ w3 w' _ hr
    rw [hl4, hl3, List.append_assoc] at hnew
    have hn := List.append_cancel_left hnew
    rw [hval, ← hn]
    constructor
    · intro _
      rw [chatStages_append, chatStages_chat, hs4]
      simp
    · intro _; exact hok

set_option maxRecDepth 100000 in
theorem Answer_validation_of_generated_witness :
    (demoResponse unknownAnswer [] [] ⟨false, ["X is Y"], "unsupported"⟩).Validation.OK = false ∧
    Stage.answerRewrite ∈
      chatStages (demoRun [replyGrounded, replyInvalid, replyUnknown]).2.log := by
  obtain ⟨chunks, answer, v, w3, _, _, h⟩ :=
    (Answer_validation_of_generated demoService (scripted [[0]] demoHits) referenceJSON
      demoRequest { st := [replyGrounded, replyInvalid, replyUnknown], log := [] }).1
      (demoResponse unknownAnswer [] [] ⟨false, ["X is Y"], "unsupported"⟩)
      (demoRun [replyGrounded, replyInvalid, replyUnknown]).2 (by rfl)
  have hiff := h (demoRun [replyGrounded, replyInvalid, replyUnknown]).2.log (by simp)
  exact ⟨rfl, hiff.1 rfl⟩

/-! ## The reply behind a returned answer -/

theorem mem_chatStages (l : List Call) (creq : ClientRequest)
    (res : Except GoError ClientResponse) (h : Call.chat creq res ∈ l) :
    stageOfRequest creq ∈ chatStages l := by
  induction l with
  | nil => cases h
  | cons c rest ih =>
    rcases List.mem_cons.mp h with h1 | h2
    · subst h1
      simp [chatStages]
    · cases c with
      | chat r x => simp only [chatStages]; exact List.mem_cons_of_mem _ (ih h2)
      | embedding t r => simp only [chatStages]; exact ih h2
      | search a b c d => simp only [chatStages]; exact ih h2

/-- The calls up to the end of a validation stage that returned, with the
generation call and its decoded reply: no other call up to there is a generation
call, and none is a correction call. -/
theorem ValidationReturned_reply {σ : Type} (s : Service) (C : Collaborators σ) (J : JSONLib)
    (req : Request) (w : World σ) (chunks : List Chunk) (answer : answerResult)
    (v : ValidationResult) (w3 : World σ)
    (h : ValidationReturned s C J req w chunks answer v w3) :
    ∃ l creq cresp choice rest p,
      w3.log = w.log ++ l ∧ Call.chat creq (.ok cresp) ∈ l ∧
      stageOfRequest creq = Stage.answer ∧ cresp.Choices = choice :: rest ∧
      decodeJSON J.unmarshalAnswer choice.Content = .ok p ∧ answer = normalizeAnswer p ∧
      Stage.answerRewrite ∉ chatStages l ∧
      (∀ creq' res', Call.chat creq' res' ∈ l → stageOfRequest creq' = Stage.answer →
        creq' = creq ∧ res' = .ok cresp) := by
  obtain ⟨_, w1, w2, hf, hg, hv⟩ := h
  obtain ⟨res, fl, hl1, hs1⟩ := fetchChunks_log s C _ _ w w1 _ hf
  obtain ⟨creq, cresp, choice, rest, p, hl2, hs2, hch, hdec, ha⟩ :=
    generateAnswer_ok_stage s C J _ _ _ w1 w2 answer hg
  have hvl : ∃ vl, w3.log = w2.log ++ vl ∧
      (chatStages vl = [] ∨ chatStages vl = [Stage.validation]) := by
    rcases validateAnswer_log_stage s C J _ _ _ w2 w3 _ hv with
      ⟨_, hw⟩ | ⟨_, _, vreq, vres, hl3, hs3⟩
    · exact ⟨[], by rw [hw]; simp, Or.inl rfl⟩
    · exact ⟨[Call.chat vreq vres], hl3, Or.inr (by rw [chatStages_chat, hs3])⟩
  obtain ⟨vl, hl3, hs3⟩ := hvl
  have hfl : ∀ st, st ∉ chatStages (Call.embedding [TrimSpace req.Question] res :: fl) := by
    intro st
    rw [chatStages_embedding, hs1]
    simp
  refine ⟨(Call.embedding [TrimSpace req.Question] res :: fl) ++
      ([Call.chat creq (.ok cresp)] ++ vl), creq, cresp, choice, rest, p,
    ?_, ?_, hs2, hch, hdec, ha, ?_, ?_⟩
  · rw [hl3, hl2, hl1]; simp
  · simp
  · rw [chatStages_append, chatStages_append, chatStages_chat, hs2]
    intro hmem
    rcases List.mem_append.mp hmem with hm | hm
    · exact hfl _ hm
    · rcases hs3 with h3 | h3 <;> (rw [h3] at hm; simp at hm)
  · intro creq' res' hmem hst
    rcases List.mem_append.mp hmem with hm | hm
    · exact absurd (mem_chatStages _ _ _ hm) (hfl _)
    · rcases List.mem_append.mp hm with hm | hm
      · simp only [List.mem_singleton, Call.chat.injEq] at hm
        exact hm
      · have := mem_chatStages _ _ _ hm
        rw [hst] at this
        rcases hs3 with h3 | h3 <;> (rw [h3] at this; simp at this)

/-- C3, amended. Every citation and every used id of a `Response` returned by
`Answer` occurs in the decoded chat reply that produced the answer: the reply of
the one generation call of the run when `Validation.OK` is true, and the reply
of the one correction call of the run when it is false; the `Answer`,
`CitationsUsed` and `Citations` of the `Response` are the text and the lists of
the normalised decoding of that same reply. So the ids of the `Response` are IDs
of its chunks whenever those of that reply are. `Answer` itself never compares
them with the chunks. -/
theorem Answer_citations_from_reply {σ : Type} (s : Service) (C : Collaborators σ)
    (J : JSONLib) (req : Request) (w w' : World σ) (resp : Response)
    (h : s.Answer C J req w = (.ok resp, w')) :
    ∃ new creq cresp choice rest p,
      w'.log = w.log ++ new ∧ Call.chat creq (.ok cresp) ∈ new ∧
      stageOfRequest creq =
        (if resp.Validation.OK = true then Stage.answer else Stage.answerRewrite) ∧
      (∀ creq' res', Call.chat creq' res' ∈ new → stageOfRequest creq' = stageOfRequest creq →
        creq' = creq ∧ res' = .ok cresp) ∧
      cresp.Choices = choice :: rest ∧
      decodeJSON J.unmarshalAnswer choice.Content = .ok p ∧
      resp.Answer = (normalizeAnswer p).Text ∧
      resp.CitationsUsed = (normalizeAnswer p).CitationsUsed ∧
      resp.Citations = (normalizeAnswer p).Citations ∧
      (∀ c ∈ resp.Citations, c ∈ p.Citations) ∧
      (∀ i ∈ resp.CitationsUsed, i ∈ p.CitationsUsed) ∧
      (((∀ c ∈ p.Citations, ∃ k ∈ resp.Chunks, k.ID = c.ID) ∧
          (∀ i ∈ p.CitationsUsed, ∃ k ∈ resp.Chunks, k.ID = i)) →
        CitationsReferenceChunks resp) := by
  have hsub : ∀ p : answerResult, resp.CitationsUsed = (normalizeAnswer p).CitationsUsed →
      resp.Citations = (normalizeAnswer p).Citations →
      (∀ c ∈ resp.Citations, c ∈ p.Citations) ∧
      (∀ i ∈ resp.CitationsUsed, i ∈ p.CitationsUsed) ∧
      (((∀ c ∈ p.Citations, ∃ k ∈ resp.Chunks, k.ID = c.ID) ∧
          (∀ i ∈ p.CitationsUsed, ∃ k ∈ resp.Chunks, k.ID = i)) →
        CitationsReferenceChunks resp) := by
    intro p hu hc
    have h12 : (∀ c ∈ resp.Citations, c ∈ p.Citations) ∧
        (∀ i ∈ resp.CitationsUsed, i ∈ p.CitationsUsed) := by
      rw [hu, hc]
      rcases normalizeAnswer_cases p with hn | ⟨hn, _⟩
      · rw [hn]; simp
      · rw [hn]; simp
    refine ⟨h12.1, h12.2, ?_⟩
    rintro ⟨h1, h2⟩
    exact ⟨fun c hc' => h1 c (h12.1 c hc'), fun i hi => h2 i (h12.2 i hi)⟩
  obtain ⟨chunks, answer, v, w3, hvr, hval, _, hcase⟩ :=
    Answer_ok_validation s C J req w w' resp h
  obtain ⟨l, greq, gresp, gchoice, grest, gp, hl, hgmem, hgs, hgch, hgdec, hga, hnr, hguniq⟩ :=
    ValidationReturned_reply s C J req w chunks answer v w3 hvr
  rcases hcase with ⟨hok, hw, _⟩ | ⟨hok, rewritten, hr, _⟩
  · subst hw
    obtain ⟨resp', ha', _, _, hans, hcu, hci⟩ :=
      Answer_of_passed s C J req w chunks answer v w' hvr hok
    rw [h] at ha'
    simp only [Prod.mk.injEq, Except.ok.injEq, and_true] at ha'
    subst ha'
    have hans' : resp.Answer = (normalizeAnswer gp).Text := by
      rw [hans, hga]; exact normalizeAnswer_text_trimmed gp
    have hcu' : resp.CitationsUsed = (normalizeAnswer gp).CitationsUsed := by rw [hcu, hga]
    have hci' : resp.Citations = (normalizeAnswer gp).Citations := by rw [hci, hga]
    refine ⟨l, greq, gresp, gchoice, grest, gp, hl, hgmem, ?_, ?_, hgch, hgdec, hans', hcu',
      hci', hsub gp hcu' hci'⟩
    · rw [hval, hok, hgs]; rfl
    · intro creq' res' hmem hst
      rw [hgs] at hst
      exact hguniq creq' res' hmem hst
  · obtain ⟨_, _, hresp⟩ := Answer_of_failed s C J req w chunks answer v w3 hvr hok _ w' hr
    obtain ⟨resp', ha', _, _, hans, hcu, hci⟩ := hresp rewritten rfl
    rw [h] at ha'
    simp only [Except.ok.injEq] at ha'
    subst ha'
    obtain ⟨rreq, rresp, rchoice, rrest, rp, hl4, hrs, hrch, hrdec, hra⟩ :=
      rewriteAnswer_ok_stage s C J _ _ _ _ _ w3 w' rewritten hr
    have hans' : resp.Answer = (normalizeAnswer rp).Text := by
      rw [hans, hra]; exact normalizeAnswer_text_trimmed rp
    have hcu' : resp.CitationsUsed = (normalizeAnswer rp).CitationsUsed := by rw [hcu, hra]
    have hci' : resp.Citations = (normalizeAnswer rp).Citations := by rw [hci, hra]
    refine ⟨l ++ [Call.chat rreq (.ok rresp)], rreq, rresp, rchoice, rrest, rp, ?_, ?_, ?_, ?_,
      hrch, hrdec, hans', hcu', hci', hsub rp hcu' hci'⟩
    · rw [hl4, hl]; simp
    · simp
    · rw [hval, hok, hrs]; rfl
    · intro creq' res' hmem hst
      rw [hrs] at hst
      rcases List.mem_append.mp hmem with hm | hm
      · have := mem_chatStages _ _ _ hm
        rw [hst] at this
        exact absurd this hnr
      · simp only [List.mem_singleton, Call.chat.injEq] at hm
        exact hm

set_option maxRecDepth 100000 in
theorem Answer_citations_from_reply_witness :
    ∃ new creq cresp choice rest p,
      (demoRun [replyGrounded, replyInvalid, replyStray]).2.log = [] ++ new ∧
      Call.chat creq (.ok cresp) ∈ new ∧
      stageOfRequest creq =
        (if (demoResponse "X is Q [C9]" ["C9"] [⟨"C9", "X is Q", ""⟩]
          ⟨false, ["X is Y"], "unsupported"⟩).Validation.OK = true
         then Stage.answer else Stage.answerRewrite) ∧
      (∀ creq' res', Call.chat creq' res' ∈ new → stageOfRequest creq' = stageOfRequest creq →
        creq' = creq ∧ res' = .ok cresp) ∧
      cresp.Choices = choice :: rest ∧
      decodeJSON referenceJSON.unmarshalAnswer choice.Content = .ok p ∧
      (demoResponse "X is Q [C9]" ["C9"] [⟨"C9", "X is Q", ""⟩]
          ⟨false, ["X is Y"], "unsupported"⟩).Answer = (normalizeAnswer p).Text ∧
      (demoResponse "X is Q [C9]" ["C9"] [⟨"C9", "X is Q", ""⟩]
          ⟨false, ["X is Y"], "unsupported"⟩).CitationsUsed =
        (normalizeAnswer p).CitationsUsed ∧
      (demoResponse "X is Q [C9]" ["C9"] [⟨"C9", "X is Q", ""⟩]
          ⟨false, ["X is Y"], "unsupported"⟩).Citations = (normalizeAnswer p).Citations ∧
      (∀ c ∈ (demoResponse "X is Q [C9]" ["C9"] [⟨"C9", "X is Q", ""⟩]
          ⟨false, ["X is Y"], "unsupported"⟩).Citations, c ∈ p.Citations) ∧
      (∀ i ∈ (demoResponse "X is Q [C9]" ["C9"] [⟨"C9", "X is Q", ""⟩]
          ⟨false, ["X is Y"], "unsupported"⟩).CitationsUsed, i ∈ p.CitationsUsed) ∧
      (((∀ c ∈ p.Citations, ∃ k ∈ (demoResponse "X is Q [C9]" ["C9"] [⟨"C9", "X is Q", ""⟩]
            ⟨false, ["X is Y"], "unsupported"⟩).Chunks, k.ID = c.ID) ∧
          (∀ i ∈ p.CitationsUsed, ∃ k ∈ (demoResponse "X is Q [C9]" ["C9"]
            [⟨"C9", "X is Q", ""⟩] ⟨false, ["X is Y"], "unsupported"⟩).Chunks, k.ID = i)) →
        CitationsReferenceChunks
          (demoResponse "X is Q [C9]" ["C9"] [⟨"C9", "X is Q", ""⟩]
            ⟨false, ["X is Y"], "unsupported"⟩)) :=
  Answer_citations_from_reply demoService (scripted [[0]] demoHits) referenceJSON demoRequest
    { st := [replyGrounded, replyInvalid, replyStray], log := [] }
    (demoRun [replyGrounded, replyInvalid, replyStray]).2
    (demoResponse "X is Q [C9]" ["C9"] [⟨"C9", "X is Q", ""⟩]
      ⟨false, ["X is Y"], "unsupported"⟩) (by rfl)

/-! ## Correction and the text handed to validation -/

/-- C17. Correction replaces the answer: when the validation stage of a run
returns `ok = false` and the correction stage succeeds, `Answer` returns a
`Response`; the correction chat call is the last call of the run and the only
correction call of the run; the `Answer`, `CitationsUsed` and `Citations` of the
`Response` are the text and the lists of the normalised decoding of that call's
reply, whatever the generation stage produced, and its `Validation` is the
failed validation. Conversely every `Response` returned with
`Validation.OK = false` comes from such a run. -/
theorem Answer_correction_replaces {σ : Type} (s : Service) (C : Collaborators σ)
    (J : JSONLib) (req : Request) (w : World σ) :
    (∀ chunks answer v w3 rewritten w4,
      ValidationReturned s C J req w chunks answer v w3 → v.OK = false →
      s.rewriteAnswer C J (TrimSpace req.Question) (resolveDialogContext req)
        (formatChunks chunks) (TrimSpace answer.Text) v w3 = (.ok rewritten, w4) →
      ∃ resp pre creq cresp choice rest p,
        s.Answer C J req w = (.ok resp, w4) ∧
        w3.log = w.log ++ pre ∧ w4.log = w.log ++ (pre ++ [Call.chat creq (.ok cresp)]) ∧
        stageOfRequest creq = Stage.answerRewrite ∧
        (chatStages (pre ++ [Call.chat creq (.ok cresp)])).count Stage.answerRewrite = 1 ∧
        cresp.Choices = choice :: rest ∧
        decodeJSON J.unmarshalAnswer choice.Content = .ok p ∧
        rewritten = normalizeAnswer p ∧
        resp.Answer = (normalizeAnswer p).Text ∧
        resp.CitationsUsed = (normalizeAnswer p).CitationsUsed ∧
        resp.Citations = (normalizeAnswer p).Citations ∧
        resp.Validation = v ∧ resp.Chunks = chunks) ∧
    (∀ resp w', s.Answer C J req w = (.ok resp, w') → resp.Validation.OK = false →
      ∃ pre creq cresp choice rest p,
        w'.log = w.log ++ (pre ++ [Call.chat creq (.ok cresp)]) ∧
        stageOfRequest creq = Stage.answerRewrite ∧
        (chatStages (pre ++ [Call.chat creq (.ok cresp)])).count Stage.answerRewrite = 1 ∧
        cresp.Choices = choice :: rest ∧
        decodeJSON J.unmarshalAnswer choice.Content = .ok p ∧
        resp.Answer = (normalizeAnswer p).Text ∧
        resp.CitationsUsed = (normalizeAnswer p).CitationsUsed ∧
        resp.Citations = (normalizeAnswer p).Citations) := by
  have hfwd : ∀ chunks answer v w3 rewritten w4,
      ValidationReturned s C J req w chunks answer v w3 → v.OK = false →
      s.rewriteAnswer C J (TrimSpace req.Question) (resolveDialogContext req)
        (formatChunks chunks) (TrimSpace answer.Text) v w3 = (.ok rewritten, w4) →
      ∃ resp pre creq cresp choice rest p,
        s.Answer C J req w = (.ok resp, w4) ∧
        w3.log = w.log ++ pre ∧ w4.log = w.log ++ (pre ++ [Call.chat creq (.ok cresp)]) ∧
        stageOfRequest creq = Stage.answerRewrite ∧
        (chatStages (pre ++ [Call.chat creq (.ok cresp)])).count Stage.answerRewrite = 1 ∧
        cresp.Choices = choice :: rest ∧
        decodeJSON J.unmarshalAnswer choice.Content = .ok p ∧
        rewritten = normalizeAnswer p ∧
        resp.Answer = (normalizeAnswer p).Text ∧
        resp.CitationsUsed = (normalizeAnswer p).CitationsUsed ∧
        resp.Citations = (normalizeAnswer p).Citations ∧
        resp.Validation = v ∧ resp.Chunks = chunks := by
    intro chunks answer v w3 rewritten w4 hvr hok hr
    obtain ⟨hw, _, hresp⟩ := Answer_of_failed s C J req w chunks answer v w3 hvr hok _ w4 hr
    obtain ⟨resp, ha, hchunks, hval, hans, hcu, hci⟩ := hresp rewritten rfl
    obtain ⟨res, fl, greq, gres, vl, hl, hs1, hs2, hs3⟩ :=
      ValidationReturned_log s C J req w chunks answer v w3 hvr
    obtain ⟨creq, cresp, choice, rest, p, hl4, hs4, hch, hdec, hp⟩ :=
      rewriteAnswer_ok_stage s C J _ _ _ _ _ w3 w4 rewritten hr
    refine ⟨resp, Call.embedding [TrimSpace req.Question] res :: (fl ++ [Call.chat greq gres] ++ vl),
      creq, cresp, choice, rest, p, ?_, hl, ?_, hs4, ?_, hch, hdec, hp, ?_, ?_, ?_, hval, hchunks⟩
    · rw [← hw, ← ha]
    · rw [hl4, hl]; simp
    · rw [chatStages_append, chatStages_embedding, chatStages_append, chatStages_append, hs1,
        chatStages_chat, chatStages_chat, hs2, hs4]
      rcases hs3 with hs3 | hs3 <;> rw [hs3] <;> decide
    · rw [hans, hp]; exact normalizeAnswer_text_trimmed p
    · rw [hcu, hp]
    · rw [hci, hp]
  refine ⟨hfwd, ?_⟩
  intro resp w' h hv
  obtain ⟨chunks, answer, v, w3, hvr, hval, _, hcase⟩ :=
    Answer_ok_validation s C J req w w' resp h
  rcases hcase with ⟨hok, _, _⟩ | ⟨hok, rewritten, hr, _⟩
  · rw [hval, hok] at hv
    cases hv
  · obtain ⟨resp', pre, creq, cresp, choice, rest, p, ha, _, hl, hs, hcount, hch, hdec, _,
      hans, hcu, hci, _, _⟩ := hfwd chunks answer v w3 rewritten w' hvr hok hr
    rw [h] at ha
    simp only [Prod.mk.injEq, Except.ok.injEq, and_true] at ha
    subst ha
    exact ⟨pre, creq, cresp, choice, rest, p, hl, hs, hcount, hch, hdec, hans, hcu, hci⟩

set_option maxRecDepth 100000 in
theorem Answer_correction_replaces_witness :
    (∃ resp pre creq cresp choice rest p,
      demoRun [replyGrounded, replyInvalid, replyStray] =
        (.ok resp, (demoRun [replyGrounded, replyInvalid, replyStray]).2) ∧
      (demoValidated [replyGrounded, replyInvalid, replyStray]).2.log = [] ++ pre ∧
      (demoRun [replyGrounded, replyInvalid, replyStray]).2.log =
        [] ++ (pre ++ [Call.chat creq (.ok cresp)]) ∧
      stageOfRequest creq = Stage.answerRewrite ∧
      (chatStages (pre ++ [Call.chat creq (.ok cresp)])).count Stage.answerRewrite = 1 ∧
      cresp.Choices = choice :: rest ∧
      decodeJSON referenceJSON.unmarshalAnswer choice.Content = .ok p ∧
      (⟨"X is Q [C9]", ["C9"], [⟨"C9", "X is Q", ""⟩]⟩ : answerResult) = normalizeAnswer p ∧
      resp.Answer = (normalizeAnswer p).Text ∧
      resp.CitationsUsed = (normalizeAnswer p).CitationsUsed ∧
      resp.Citations = (normalizeAnswer p).Citations ∧
      resp.Validation = ⟨false, ["X is Y"], "unsupported"⟩ ∧ resp.Chunks = demoChunks) ∧
    (demoRun [replyGrounded, replyInvalid, replyStray]).1 =
      .ok (demoResponse "X is Q [C9]" ["C9"] [⟨"C9", "X is Q", ""⟩]
        ⟨false, ["X is Y"], "unsupported"⟩) :=
  ⟨(Answer_correction_replaces demoService (scripted [[0]] demoHits) referenceJSON demoRequest
      { st := [replyGrounded, replyInvalid, replyStray], log := [] }).1 demoChunks
      ⟨"X is Y [C1]", ["C1"], [⟨"C1", "X is Y", ""⟩]⟩ ⟨false, ["X is Y"], "unsupported"⟩
      (demoValidated [replyGrounded, replyInvalid, replyStray]).2
      ⟨"X is Q [C9]", ["C9"], [⟨"C9", "X is Q", ""⟩]⟩
      (demoRun [replyGrounded, replyInvalid, replyStray]).2
      ⟨by decide, _, _, by rfl, by rfl, by rfl⟩ rfl (by rfl),
   by rfl⟩

/-- What `validateAnswer` calls once the answer text is neither blank nor the
sentinel: the chat client, once, with the validation prompts built from that
text. -/
theorem validateAnswer_call {σ : Type} (s : Service) (C : Collaborators σ) (J : JSONLib)
    (q a chunks : String) (w w1 : World σ) (r : Except GoError ValidationResult)
    (hne : TrimSpace a ≠ "") (hns : TrimSpace a ≠ unknownAnswer)
    (h : s.validateAnswer C J q a chunks w = (r, w1)) :
    ∃ res, w1.log = w.log ++ [Call.chat (chatRequest s validationSystemPrompt
      (buildValidationUserPrompt q a chunks)) res] := by
  rw [validateAnswer_of_chat s C J q a chunks w hne hns] at h
  have hl := chat_log_eq s C validationSystemPrompt (buildValidationUserPrompt q a chunks)
    validationMaxTokens "validation" w
  rcases hc : s.chat C validationSystemPrompt (buildValidationUserPrompt q a chunks)
    validationMaxTokens "validation" jsonObjectResponseFormat w with ⟨rc, wc⟩
  rw [hc] at h hl
  have hw : w1 = wc := by
    cases rc with
    | error err => simp only [Prod.mk.injEq] at h; exact h.2.symm
    | ok content =>
      simp only at h
      split at h
      · simp only [Prod.mk.injEq] at h; exact h.2.symm
      · split at h <;> (simp only [Prod.mk.injEq] at h; exact h.2.symm)
  rw [hw]
  exact ⟨_, hl⟩

/-- C27. The answer is never blank: the text `normalizeAnswer` produces is not
empty and has no white space at either end, so trimming it again changes
nothing. A run of `Answer` whose generation stage returned `answer` goes on as
`validateAnswer` does on `answer.Text` itself, a text that is not blank: that
call is the skip of the sentinel or the validation chat call on this text, never
the blank-text return, and `Answer` returns its error, or returns with its
result, or runs the correction stage from the world it left. Every returned
`Response` has a non-empty `Answer`. -/
theorem Answer_text_never_blank {σ : Type} (s : Service) (C : Collaborators σ) (J : JSONLib)
    (req : Request) (w : World σ) :
    (∀ p : answerResult, (normalizeAnswer p).Text ≠ "" ∧
      TrimSpace (normalizeAnswer p).Text = (normalizeAnswer p).Text ∧
      (∀ x, (normalizeAnswer p).Text.data.head? = some x → isSpace x = false) ∧
      (∀ x, (normalizeAnswer p).Text.data.getLast? = some x → isSpace x = false)) ∧
    (∀ chunks w1 answer w2, TrimSpace req.Question ≠ "" →
      s.fetchChunks C (TrimSpace req.Question) req.TopK w = (.ok chunks, w1) →
      s.generateAnswer C J (TrimSpace req.Question) (resolveDialogContext req)
        (formatChunks chunks) w1 = (.ok answer, w2) →
      answer.Text ≠ "" ∧ TrimSpace answer.Text = answer.Text ∧
      ∀ r w3, s.validateAnswer C J (TrimSpace req.Question) answer.Text
          (formatChunks chunks) w2 = (r, w3) →
        ((answer.Text = unknownAnswer ∧ w3 = w2 ∧
            r = .ok ⟨true, [], "validation skipped for unknown answer"⟩) ∨
          (answer.Text ≠ unknownAnswer ∧ ∃ res, w3.log = w2.log ++
            [Call.chat (chatRequest s validationSystemPrompt
              (buildValidationUserPrompt (TrimSpace req.Question) answer.Text
                (formatChunks chunks))) res])) ∧
        (∀ e, r = .error e → s.Answer C J req w = (.error e, w3)) ∧
        (∀ v, r = .ok v → v.OK = true →
          ∃ resp, s.Answer C J req w = (.ok resp, w3) ∧ resp.Validation = v ∧
            resp.Answer = answer.Text) ∧
        (∀ v, r = .ok v → v.OK = false →
          (s.Answer C J req w).2 =
            (s.rewriteAnswer C J (TrimSpace req.Question) (resolveDialogContext req)
              (formatChunks chunks) answer.Text v w3).2)) ∧
    (∀ resp w', s.Answer C J req w = (.ok resp, w') →
      resp.Answer ≠ "" ∧ TrimSpace resp.Answer = resp.Answer) := by
  have hnorm : ∀ p : answerResult, (normalizeAnswer p).Text ≠ "" ∧
      TrimSpace (normalizeAnswer p).Text = (normalizeAnswer p).Text ∧
      (∀ x, (normalizeAnswer p).Text.data.head? = some x → isSpace x = false) ∧
      (∀ x, (normalizeAnswer p).Text.data.getLast? = some x → isSpace x = false) := by
    intro p
    have ht := normalizeAnswer_text_trimmed p
    refine ⟨normalizeAnswer_text_ne_empty p, ht, ?_, ?_⟩
    · intro x hx
      rw [← ht] at hx
      exact TrimSpace_head _ x hx
    · intro x hx
      rw [← ht] at hx
      exact TrimSpace_getLast _ x hx
  refine ⟨hnorm, ?_, ?_⟩
  · intro chunks w1 answer w2 hq hf hg
    obtain ⟨_, _, _, _, p, _, _, _, ha⟩ := generateAnswer_ok s C J _ _ _ w1 w2 answer hg
    have ht : TrimSpace answer.Text = answer.Text := by rw [ha]; exact (hnorm p).2.1
    have hne : answer.Text ≠ "" := by rw [ha]; exact (hnorm p).1
    refine ⟨hne, ht, ?_⟩
    intro r w3 hv
    have hv' : s.validateAnswer C J (TrimSpace req.Question) (TrimSpace answer.Text)
        (formatChunks chunks) w2 = (r, w3) := by rw [ht]; exact hv
    refine ⟨?_, ?_, ?_, ?_⟩
    · by_cases hs : answer.Text = unknownAnswer
      · left
        have hu : unknownAnswer ≠ "" := by decide
        unfold Service.validateAnswer at hv
        rw [hs] at hv
        simp [TrimSpace_unknownAnswer, hu] at hv
        exact ⟨hs, hv.2.symm, hv.1.symm⟩
      · right
        refine ⟨hs, ?_⟩
        exact validateAnswer_call s C J _ _ _ w2 w3 r (by rw [ht]; exact hne)
          (by rw [ht]; exact hs) hv
    · intro e he
      subst he
      unfold Service.Answer
      simp [hq, hf, hg, hv']
    · intro v hr hok
      subst hr
      obtain ⟨resp, hresp, _, hval, hans, _⟩ :=
        Answer_of_passed s C J req w chunks answer v w3 ⟨hq, w1, w2, hf, hg, hv'⟩ hok
      exact ⟨resp, hresp, hval, by rw [hans, ht]⟩
    · intro v hr hok
      subst hr
      have hr4 : s.rewriteAnswer C J (TrimSpace req.Question) (resolveDialogContext req)
          (formatChunks chunks) (TrimSpace answer.Text) v w3 =
          ((s.rewriteAnswer C J (TrimSpace req.Question) (resolveDialogContext req)
            (formatChunks chunks) (TrimSpace answer.Text) v w3).1,
           (s.rewriteAnswer C J (TrimSpace req.Question) (resolveDialogContext req)
            (formatChunks chunks) (TrimSpace answer.Text) v w3).2) := rfl
      have := (Answer_of_failed s C J req w chunks answer v w3 ⟨hq, w1, w2, hf, hg, hv'⟩ hok
        _ _ hr4).1
      rw [this, ht]
  · intro resp w' h
    obtain ⟨_, _, _, _, p, _, _, _, ha, _, _⟩ := Answer_ok s C J req w w' resp h
    have ht := (hnorm p).2.1
    rw [ht] at ha
    rw [ha]
    exact ⟨(hnorm p).1, ht⟩

set_option maxRecDepth 100000 in
theorem Answer_text_never_blank_witness :
    (normalizeAnswer ⟨"  ", ["C1"], []⟩).Text ≠ "" ∧
    ((⟨"X is Y [C1]", ["C1"], [⟨"C1", "X is Y", ""⟩]⟩ : answerResult).Text ≠ "" ∧
      TrimSpace (⟨"X is Y [C1]", ["C1"], [⟨"C1", "X is Y", ""⟩]⟩ : answerResult).Text =
        (⟨"X is Y [C1]", ["C1"], [⟨"C1", "X is Y", ""⟩]⟩ : answerResult).Text) ∧
    (demoResponse "X is Y [C1]" ["C1"] [⟨"C1", "X is Y", ""⟩] ⟨true, [], ""⟩).Answer ≠ "" := by
  have h := Answer_text_never_blank demoService (scripted [[0]] demoHits) referenceJSON
    demoRequest { st := [replyGrounded, replyValid], log := [] }
  have h2 := h.2.1 demoChunks _ ⟨"X is Y [C1]", ["C1"], [⟨"C1", "X is Y", ""⟩]⟩ _ (by decide)
    (by rfl) (by rfl)
  exact ⟨(h.1 ⟨"  ", ["C1"], []⟩).1, ⟨h2.1, h2.2.1⟩,
    (h.2.2 (demoResponse "X is Y [C1]" ["C1"] [⟨"C1", "X is Y", ""⟩] ⟨true, [], ""⟩)
      (demoRun [replyGrounded, replyValid]).2 (by rfl)).1⟩

/-! ## What the service gets from a collaborator call -/

/-- The embedding repository makes the one client call and returns its result,
so its error is the failure of that call. -/
theorem CreateEmbeddings_failure {σ : Type} (C : Collaborators σ) (data : List String)
    (w0 : World σ) :
    ∃ res, (CreateEmbeddings C data w0).2.log = w0.log ++ [Call.embedding data res] ∧
      ∀ e, (CreateEmbeddings C data w0).1 = .error e ↔
        (Call.embedding data res).failure = some e := by
  rw [CreateEmbeddings_eq]
  refine ⟨(C.CreateEmbedding data w0.st).1, rfl, ?_⟩
  intro e
  unfold clientCreateEmbedding
  simp only
  cases (C.CreateEmbedding data w0.st).1 with
  | error err => simp [Call.failure]
  | ok x => simp [Call.failure]

theorem vectorSearch_failure {σ : Type} (C : Collaborators σ) (collection : String)
    (vector : List float32) (topK : Int) (w0 : World σ) :
    ∃ res, (vectorSearch C collection vector topK w0).2.log =
        w0.log ++ [Call.search collection vector topK res] ∧
      ∀ e, (vectorSearch C collection vector topK w0).1 = .error e ↔
        (Call.search collection vector topK res).failure = some e := by
  refine ⟨(C.Search collection vector topK w0.st).1, rfl, ?_⟩
  intro e
  unfold vectorSearch
  simp only
  cases (C.Search collection vector topK w0.st).1 with
  | error err => simp [Call.failure]
  | ok x => simp [Call.failure]

/-- The chat repository, called as `Service.chat` calls it, makes the one client
call; its error is the failure of that call: the client's error, or
`openai: empty response` for a reply without choices. -/
theorem CreateChatCompletion_failure {σ : Type} (s : Service) (C : Collaborators σ)
    (sys usr : String) (maxTokens : Int) (w0 : World σ) :
    ∃ res,
      (CreateChatCompletion C s.model
        { Messages := [⟨RoleSystem, sys, "", ""⟩, ⟨RoleUser, usr, "", ""⟩],
          Temperature := 0, MaxTokens := maxTokens, TopP := 0,
          ResponseFormat := jsonObjectResponseFormat } w0).2.log =
        w0.log ++ [Call.chat (chatRequest s sys usr) res] ∧
      ∀ e, (CreateChatCompletion C s.model
        { Messages := [⟨RoleSystem, sys, "", ""⟩, ⟨RoleUser, usr, "", ""⟩],
          Temperature := 0, MaxTokens := maxTokens, TopP := 0,
          ResponseFormat := jsonObjectResponseFormat } w0).1 = .error e ↔
        (Call.chat (chatRequest s sys usr) res).failure = some e := by
  unfold CreateChatCompletion
  simp only [jsonObjectResponseFormat, toOpenAIResponseFormat, chatRequest,
    ResponseFormatTypeJSONObject, List.length_cons, List.length_nil]
  simp only [beq_self_eq_true, if_true]
  rcases hcall : clientCreateChatCompletion C _ w0 with ⟨res, w1⟩
  have hlog := clientCreateChatCompletion_log C _ w0 w1 res hcall
  refine ⟨res, ?_, ?_⟩
  · cases res with
    | error err => simpa [hcall] using hlog
    | ok resp =>
      cases hch : resp.Choices with
      | nil => simpa [hcall, hch] using hlog
      | cons choice rest => simpa [hcall, hch] using hlog
  · intro e
    cases res with
    | error err => simp [hcall, Call.failure]
    | ok resp =>
      cases hch : resp.Choices with
      | nil => simp [hcall, hch, Call.failure]
      | cons choice rest => simp [hcall, hch, Call.failure]

/-- The two Go results of `Answer` are those of its embedding: a `Response` with
a nil error, or a nil `Response` with an error. -/
theorem AnswerValues_eq {σ : Type} (s : Service) (C : Collaborators σ) (J : JSONLib)
    (req : Request) (w : World σ) :
    s.AnswerValues C J req w = (goValues (s.Answer C J req w).1, (s.Answer C J req w).2) := by
  unfold Service.AnswerValues Service.Answer
  simp only
  split
  · rfl
  · split
    · rfl
    · split
      · rfl
      · split
        · rfl
        · split
          · split <;> rfl
          · rfl

/-- C21. Collaborator errors propagate unchanged with no partial Response. The
error the service gets from a collaborator call (`Call.failure`) is the error
the embedding repository, the vector search or the chat repository returns from
it, for the chat repository also `openai: empty response`. In every run of
`Answer`, a collaborator call that returned an error `e` is the last call of the
run, and `Answer` returns exactly `e`. Of the two Go results of `Answer`, kept
apart in `AnswerValues`, exactly one is nil in every run: an error comes with a
nil `Response`, and a `Response` with a nil error. -/
theorem Answer_error_propagates {σ : Type} (s : Service) (C : Collaborators σ) (J : JSONLib)
    (req : Request) (w : World σ) :
    (∀ (data : List String) (w0 : World σ), ∃ res,
      (CreateEmbeddings C data w0).2.log = w0.log ++ [Call.embedding data res] ∧
      ∀ e, (CreateEmbeddings C data w0).1 = .error e ↔
        (Call.embedding data res).failure = some e) ∧
    (∀ (collection : String) (vector : List float32) (topK : Int) (w0 : World σ), ∃ res,
      (vectorSearch C collection vector topK w0).2.log =
        w0.log ++ [Call.search collection vector topK res] ∧
      ∀ e, (vectorSearch C collection vector topK w0).1 = .error e ↔
        (Call.search collection vector topK res).failure = some e) ∧
    (∀ (sys usr : String) (maxTokens : Int) (w0 : World σ), ∃ res,
      (CreateChatCompletion C s.model
        { Messages := [⟨RoleSystem, sys, "", ""⟩, ⟨RoleUser, usr, "", ""⟩],
          Temperature := 0, MaxTokens := maxTokens, TopP := 0,
          ResponseFormat := jsonObjectResponseFormat } w0).2.log =
        w0.log ++ [Call.chat (chatRequest s sys usr) res] ∧
      ∀ e, (CreateChatCompletion C s.model
        { Messages := [⟨RoleSystem, sys, "", ""⟩, ⟨RoleUser, usr, "", ""⟩],
          Temperature := 0, MaxTokens := maxTokens, TopP := 0,
          ResponseFormat := jsonObjectResponseFormat } w0).1 = .error e ↔
        (Call.chat (chatRequest s sys usr) res).failure = some e) ∧
    (∃ new, (s.Answer C J req w).2.log = w.log ++ new ∧
      ∀ pre c post e, new = pre ++ c :: post → c.failure = some e →
        post = [] ∧ (s.Answer C J req w).1 = .error e ∧
        (s.AnswerValues C J req w).1 = (none, some e)) ∧
    (s.AnswerValues C J req w).2 = (s.Answer C J req w).2 ∧
    (∀ resp, (s.Answer C J req w).1 = .ok resp ↔
      (s.AnswerValues C J req w).1 = (some resp, none)) ∧
    (∀ e, (s.Answer C J req w).1 = .error e ↔ (s.AnswerValues C J req w).1 = (none, some e)) ∧
    (((s.AnswerValues C J req w).1.1 = none ∧ (s.AnswerValues C J req w).1.2 ≠ none) ∨
      ((s.AnswerValues C J req w).1.1 ≠ none ∧ (s.AnswerValues C J req w).1.2 = none)) := by
  have hv := AnswerValues_eq s C J req w
  refine ⟨CreateEmbeddings_failure C, vectorSearch_failure C,
    CreateChatCompletion_failure s C, ?_, ?_, ?_, ?_, ?_⟩
  · obtain ⟨new, hlog, hp, _⟩ := Answer_calls s C J req w
    refine ⟨new, hlog, ?_⟩
    intro pre c post e hnew hc
    obtain ⟨h1, h2⟩ := Propagated_split hp pre c post e hnew hc
    refine ⟨h1, h2, ?_⟩
    rw [hv, h2]
    rfl
  · rw [hv]
  · intro resp
    rw [hv]
    cases (s.Answer C J req w).1 with
    | ok r => simp [goValues]
    | error e => simp [goValues]
  · intro e
    rw [hv]
    cases (s.Answer C J req w).1 with
    | ok r => simp [goValues]
    | error e' => simp [goValues]
  · rw [hv]
    cases (s.Answer C J req w).1 with
    | ok r => right; simp [goValues]
    | error e => left; simp [goValues]

set_option maxRecDepth 100000 in
theorem Answer_error_propagates_witness :
    (demoReplay [.ok (clientReply replyGrounded), .ok clientReplyEmpty]).1 =
      .error (errorsNew "openai: empty response") ∧
    (demoService.AnswerValues (replaying [[0]] demoHits) referenceJSON demoRequest
      { st := [.ok (clientReply replyGrounded), .ok clientReplyEmpty], log := [] }).1 =
      (none, some (errorsNew "openai: empty response")) ∧
    (demoReplay [.ok (clientReply replyGrounded), .ok clientReplyEmpty]).2.st = [] := by
  obtain ⟨new, hlog, h⟩ := (Answer_error_propagates demoService (replaying [[0]] demoHits)
    referenceJSON demoRequest
    { st := [.ok (clientReply replyGrounded), .ok clientReplyEmpty], log := [] }).2.2.2.1
  have hnew : new = (demoReplay [.ok (clientReply replyGrounded), .ok clientReplyEmpty]).2.log := by
    have := hlog.symm
    simpa using this
  have h3 := h ((demoReplay [.ok (clientReply replyGrounded), .ok clientReplyEmpty]).2.log.take 3)
    (Call.chat (chatRequest demoService validationSystemPrompt
      (buildValidationUserPrompt "What is X?" "X is Y [C1]" (formatChunks demoChunks)))
      (.ok clientReplyEmpty)) [] (errorsNew "openai: empty response")
    (hnew.trans (by rfl)) (by rfl)
  exact ⟨h3.2.1, h3.2.2, by rfl⟩

end Rag
